import Mathlib

/-!
# Kernel core of the three-terminal x86 teaching OS: a shallow embedding

The C sources (`file_system.c`, `terminal.c`, `keyboard.c`, `rtc.c`,
`system_calls.c`, `paging.c`, `scheduler.c`, `idt.c`) are translated function
by function into Lean definitions over an explicit kernel state.  Conventions:

* `uint32_t` values are `Nat` (reduced `% 2^32` where the C code can wrap),
  `int32_t` values are `Int`;
* a pointer to a byte buffer is `Option (Nat → Nat)`: `none` is `NULL`,
  `some m` gives the byte `m k` found `k` bytes past the pointer;
* fixed arrays of the kernel (`kb_buf`, `processes`, `arg`, `fda`) are lists;
* loops are structural recursions on the number of iterations the loop header
  still admits, or carry an explicit fuel where the C code has no bound.
-/

namespace Kernel

/-! ## file_system.h / file_system.c -/

/-- Size of a file-system block in bytes (`BLOCK_SIZE`). -/
def BLOCK_SIZE : Nat := 4096

/-- Length of a file name field (`FNAME_LENGTH`). -/
def FNAME_LENGTH : Nat := 32

/-- Bound used by `read_dir` (`MAX_DENTRY`). -/
def MAX_DENTRY : Nat := 64

/-- Modulus of 32-bit unsigned arithmetic. -/
def U32 : Nat := 4294967296

/-- An index node: the file size and the data-block numbers (`inode_t`). -/
structure inode_t where
  file_size : Nat
  index_num : Nat → Nat

/-- A directory entry (`dentry_t`): 32 name bytes, type, inode number. -/
structure dentry_t where
  fname : List Nat
  ftype : Nat
  inode : Nat
deriving DecidableEq, Repr

/-- The mounted file-system image: the boot block fields together with the
inode array `fs_inode` and the data blocks `fs_data_block`. -/
structure file_system where
  num_dentries : Nat
  num_inodes : Nat
  dentries : Nat → dentry_t
  fs_inode : Nat → inode_t
  fs_data_block : Nat → Nat → Nat

/-- Loop variables of `read_data`; `reads` is a ghost trace listing the file
offsets whose bytes were fetched, in order. -/
structure read_data_state where
  bytes_read : Nat
  offset : Nat
  buf : Nat → Nat
  reads : List Nat

/-- The `for` loop of `read_data` (lines 98-104).  The first argument is
`length - bytes_read`, the number of iterations the loop header still admits. -/
def read_data_loop (fs : file_system) (curr_inode : inode_t) :
    Nat → read_data_state → read_data_state
  | 0, st => st
  | remaining + 1, st =>
    if st.offset > curr_inode.file_size then st
    else
      let curr_data_block := fs.fs_data_block (curr_inode.index_num (st.offset / BLOCK_SIZE))
      read_data_loop fs curr_inode remaining
        { bytes_read := st.bytes_read + 1
          offset := (st.offset + 1) % U32
          buf := fun k => if k = st.bytes_read then curr_data_block (st.offset % BLOCK_SIZE)
                          else st.buf k
          reads := st.reads ++ [st.offset] }

/-- Result of `read_data`: the returned count, the caller's buffer afterwards
and the ghost trace of file offsets read. -/
structure read_data_result where
  ret : Int
  buf : Option (Nat → Nat)
  reads : List Nat

/-- Translation of `read_data` (file_system.c lines 83-106). -/
def read_data (fs : file_system) (inode offset : Nat) (buf : Option (Nat → Nat))
    (length : Nat) : read_data_result :=
  match buf with
  | none => { ret := 0, buf := none, reads := [] }
  | some b =>
    if inode ≥ fs.num_inodes then { ret := 0, buf := some b, reads := [] }
    else
      let curr_inode := fs.fs_inode inode
      if offset ≥ curr_inode.file_size then { ret := 0, buf := some b, reads := [] }
      else
        let st := read_data_loop fs curr_inode length
          { bytes_read := 0, offset := offset, buf := b, reads := [] }
        { ret := (st.bytes_read : Int), buf := some st.buf, reads := st.reads }

/-- A one-file image used in examples: inode 0 is a 5-byte file stored in data
block 0, whose byte `k` is `65 + k` (so the file reads `ABCDE` and the byte
after its end is `F`). -/
def fs_five : file_system :=
  { num_dentries := 1
    num_inodes := 1
    dentries := fun _ => { fname := [102], ftype := 2, inode := 0 }
    fs_inode := fun _ => { file_size := 5, index_num := fun _ => 0 }
    fs_data_block := fun _ k => 65 + k }

/-! ## x86_desc.h: sizes and paging descriptors -/

/-- Number of entries of a page table or directory (`ONE_KB`). -/
def ONE_KB : Nat := 1024
/-- Four kilobytes (`FOUR_KB`). -/
def FOUR_KB : Nat := 4096
/-- Eight kilobytes (`EIGHT_KB`). -/
def EIGHT_KB : Nat := 8192
/-- Four megabytes (`FOUR_MB`). -/
def FOUR_MB : Nat := 0x400000
/-- Eight megabytes (`EIGHT_MB`). -/
def EIGHT_MB : Nat := 0x800000
/-- Start of the user program page (`ONE_TWO_EIGHT_MB`). -/
def ONE_TWO_EIGHT_MB : Nat := 0x08000000
/-- End of the user program page (`ONE_THREE_TWO_MB`). -/
def ONE_THREE_TWO_MB : Nat := 0x08400000
/-- Virtual address of the user video alias (`TWO_FIVE_SIX_MB`). -/
def TWO_FIVE_SIX_MB : Nat := 0x10000000
/-- Load address of a program image (`PROG_IMG_ADDR`). -/
def PROG_IMG_ADDR : Nat := 0x08048000
/-- Physical start of video memory (`VIDMEM`). -/
def VIDMEM : Nat := 0xB8000
/-- Kernel data segment selector (`KERNEL_DS`). -/
def KERNEL_DS : Nat := 0x0018
/-- Directory index of the user program page (`USER_PAGE_BASE_ADDR`). -/
def USER_PAGE_BASE_ADDR : Nat := 32
/-- Directory index of the user video alias (`USER_VID_PAGE_DIR_I`). -/
def USER_VID_PAGE_DIR_I : Nat := 64
/-- Page number of video memory (`VIDMEM_PAGE_BASE`). -/
def VIDMEM_PAGE_BASE : Nat := 0xB8

/-- A page-directory entry, seen through the 4 MiB variant `pd_mb` of the
union `page_dir_desc_t`.  The 4 KiB variant `pd_kb` shares the low twelve bits
(its `reserved` bit is `dirty` here) and its 20-bit `page_table_addr` covers
`page_attr_index`, `reserved` and `base_addr`. -/
structure page_dir_desc_t where
  present : Nat
  read_write : Nat
  user_supervisor : Nat
  page_write_through : Nat
  page_cache_disabled : Nat
  accessed : Nat
  dirty : Nat
  page_size : Nat
  global_bit : Nat
  available : Nat
  page_attr_index : Nat
  reserved : Nat
  base_addr : Nat
deriving DecidableEq, Repr

/-- A page-table entry (`page_tab_desc_t`). -/
structure page_tab_desc_t where
  present : Nat
  read_write : Nat
  user_supervisor : Nat
  page_write_through : Nat
  page_cache_disabled : Nat
  accessed : Nat
  dirty : Nat
  page_attr_tab_index : Nat
  global_bit : Nat
  avail : Nat
  page_base_address : Nat
deriving DecidableEq, Repr

/-! ## system_calls.h: file descriptors and the PCB -/

/-- Number of process slots (`MAX_PROCESSES`). -/
def MAX_PROCESSES : Nat := 6
/-- Size of the argument array of a PCB (`MAX_ARGS`). -/
def MAX_ARGS : Nat := 100

/-- The dispatch records of system_calls.c; a `fops_jump_table_t` value is one
of these six tables. -/
inductive fops_jump_table_t where
  | rtc_table
  | directory_table
  | file_table
  | stdin_table
  | stdout_table
  | bad_table
deriving DecidableEq, Repr

/-- An entry of the file-descriptor array (`file_descriptor_t`). -/
structure file_descriptor_t where
  fops_table_ptr : fops_jump_table_t
  inode : Nat
  file_pos : Nat
  flags : Nat
deriving DecidableEq, Repr

/-- The process control block (`pcb_t`).  `parent_pcb` is an address, `0` for
`NULL`. -/
structure pcb_t where
  fda : List file_descriptor_t
  process_id : Nat
  parent_process_id : Nat
  parent_esp : Nat
  parent_ebp : Nat
  curr_esp : Nat
  curr_ebp : Nat
  called_vidmap : Nat
  arg : List Nat
  parent_pcb : Nat
deriving DecidableEq, Repr

/-! ## terminal.h / keyboard.h: terminal records and global state -/

/-- Number of terminals (`MAX_TERMINALS`). -/
def MAX_TERMINALS : Nat := 3
/-- Size of a line buffer (`KEYBOARD_BUF_SIZE`). -/
def KEYBOARD_BUF_SIZE : Nat := 128
/-- Largest number of characters before the newline (`KEYBOARD_BUF_CHAR_MAX`). -/
def KEYBOARD_BUF_CHAR_MAX : Nat := 127
/-- Frequency of the hardware clock (`HIGHEST_FREQ`). -/
def HIGHEST_FREQ : Nat := 1024

/-- A terminal record (`terminal_t`).  `terminal_pcb` is an address, `0` for
`NULL`.  `kb_oob` is a ghost field: the out-of-range indices at which the line
buffer was accessed, most recent first. -/
structure terminal_t where
  terminal_pcb : Nat
  terminal_id : Int
  cursor_x : Int
  cursor_y : Int
  last_assigned_pid : Int
  kb_buf_i : Int
  kb_enter_flag : Nat
  kb_buf : List Nat
  in_terminal_read : Nat
  rtc_active : Nat
  rtc_virt_interrupt : Nat
  rtc_freq : Nat
  rtc_countdown : Nat
  kb_oob : List Int

/-- What the console primitives of lib.c were asked to do, in order. -/
inductive console_event where
  | putc (c : Nat) (flag : Nat)
  | clear
  | update_cursor (x y : Int)
  | printf (format : String) (args : List Int)
deriving DecidableEq, Repr

/-- The global kernel state: every global variable the translated functions
touch, the PCB memory (by address), the physical 4 KiB frames of video memory
and the physical 4 MiB user pages (by frame number).  `pcb_tail a k` is the
byte found `k` bytes past the end of the `arg` array of the PCB at address
`a`; `reg_esp` and `reg_ebp` are the stack registers; `page_table_one_addr`
and `user_video_table_addr` are the addresses of the two page tables;
`keyboard_irq` tells whether `init_keyboard` has enabled the keyboard line. -/
structure kernel_state where
  boot : file_system
  processes : List Nat
  terminals : Nat → terminal_t
  scheduled_terminal : Nat
  visible_terminal : Nat
  shell_count : Int
  terminal_buf_n_bytes : Int
  left_shift_flag : Bool
  right_shift_flag : Bool
  ctrl_flag : Bool
  caps_flag : Bool
  alt_flag : Bool
  exception_flag : Int
  pcb_mem : Nat → pcb_t
  pcb_tail : Nat → Nat → Nat
  tss_esp0 : Nat
  tss_ss0 : Nat
  page_directory : Nat → page_dir_desc_t
  page_table_one : Nat → page_tab_desc_t
  user_video_table : Nat → page_tab_desc_t
  user_video_table_addr : Nat
  page_table_one_addr : Nat
  keyboard_irq : Bool
  video_frames : Nat → Nat → Nat
  user_pages : Nat → Nat → Nat
  user_mem : Nat → Nat
  console : List console_event
  screen_x : Int
  screen_y : Int
  reg_esp : Nat
  reg_ebp : Nat

/-- Store a terminal record: `terminals[i] = t`. -/
def set_terminal (s : kernel_state) (i : Nat) (t : terminal_t) : kernel_state :=
  { s with terminals := fun j => if j = i then t else s.terminals j }

/-! ## lib.h primitives -/

/-- Modelled from the spec: `putc` of lib.c, the console renderer the spec
leaves external; the call is recorded in the console trace. -/
def putc (s : kernel_state) (c : Nat) (flag : Nat) : kernel_state :=
  { s with console := s.console ++ [console_event.putc c flag] }

/-- Modelled from the spec: `clear` of lib.c, recorded in the console trace. -/
def clear (s : kernel_state) : kernel_state :=
  { s with console := s.console ++ [console_event.clear] }

/-- Modelled from the spec: `update_cursor` of lib.c; it moves the console
cursor to the given coordinates. -/
def update_cursor (s : kernel_state) (x y : Int) : kernel_state :=
  { s with console := s.console ++ [console_event.update_cursor x y]
           screen_x := x
           screen_y := y }

/-- Modelled from the spec: `strlen` of lib.h on a string held in a list of
bytes: the number of bytes before the first NUL (bytes past the list are NUL). -/
def strlen (str : List Nat) : Nat := (str.takeWhile (fun c => c != 0)).length

/-- Modelled from the spec: `strncmp` of lib.h, the C comparison of two
strings over at most `n` bytes, stopping at the first difference or at a NUL;
the result is `s1[i] - s2[i]` there and `0` when no difference is met. -/
def strncmp (s1 s2 : Nat → Nat) : Nat → Nat → Int
  | 0, _ => 0
  | n + 1, i =>
    if s1 i ≠ s2 i ∨ s1 i = 0 then (s1 i : Int) - (s2 i : Int)
    else strncmp s1 s2 n (i + 1)

/-- Modelled from the spec: `strncpy` of lib.h: the first `n` bytes of `dest`
become the bytes of `src` up to its NUL, padded with NUL bytes. -/
def strncpy (dest : Nat → Nat) (src : List Nat) (n : Nat) : Nat → Nat :=
  fun k => if k < n then (if k < strlen src then src.getD k 0 else 0) else dest k

/-- Modelled from the spec: `memcpy` of lib.h: the first `n` bytes of `dest`
become the first `n` bytes found at `src`. -/
def memcpy (dest : Nat → Nat) (src : Nat → Nat) (n : Nat) : Nat → Nat :=
  fun k => if k < n then src k else dest k

/-- The bytes found at a list-backed array, seen as memory from its start. -/
def bytes_at (l : List Nat) : Nat → Nat := fun k => l.getD k 0

/-! ## paging.c -/

/-- Translation of `set_user_prog_page` (paging.c lines 150-165); the bit
fields keep `present_flag % 2` and `(2 + pid) % 1024`. -/
def set_user_prog_page (s : kernel_state) (pid : Nat) (present_flag : Int) : kernel_state :=
  { s with page_directory := fun i =>
      if i = USER_PAGE_BASE_ADDR then
        { present := (present_flag % 2).toNat
          read_write := 1
          user_supervisor := 1
          page_write_through := 0
          page_cache_disabled := 1
          accessed := 0
          dirty := 0
          page_size := 1
          global_bit := 0
          available := 0
          page_attr_index := 0
          reserved := 0
          base_addr := (2 + pid) % 1024 }
      else s.page_directory i }

/-- Translation of `set_user_video_page` (paging.c lines 175-196).  The
directory entry is written through the 4 KiB variant, whose `page_table_addr`
is the address of `user_video_table` shifted right by 12. -/
def set_user_video_page (s : kernel_state) (present_flag : Int) : kernel_state :=
  let base :=
    if s.visible_terminal = s.scheduled_terminal then VIDMEM_PAGE_BASE
    else VIDMEM_PAGE_BASE + s.scheduled_terminal + 1
  { s with
    user_video_table := fun i =>
      if i = 0 then
        { s.user_video_table 0 with present := (present_flag % 2).toNat
                                    page_base_address := base }
      else s.user_video_table i
    page_directory := fun i =>
      if i = USER_VID_PAGE_DIR_I then
        { present := (present_flag % 2).toNat
          read_write := 1
          user_supervisor := 1
          page_write_through := 0
          page_cache_disabled := 0
          accessed := 0
          dirty := 0
          page_size := 0
          global_bit := 0
          available := 0
          page_attr_index := (s.user_video_table_addr / 4096) % 2
          reserved := (s.user_video_table_addr / 4096 / 2) % 512
          base_addr := (s.user_video_table_addr / 4096 / 1024) % 1024 }
      else s.page_directory i }

/-- Copy of one 4 KiB page between two virtual pages below 4 MiB, each
translated through `page_table_one`. -/
def copy_video_page (s : kernel_state) (dst_page src_page : Nat) : kernel_state :=
  let dst := (s.page_table_one dst_page).page_base_address
  let src := (s.page_table_one src_page).page_base_address
  { s with video_frames := fun f => if f = dst then s.video_frames src else s.video_frames f }

/-- Translation of `change_terminal_video_page` (paging.c lines 207-218). -/
def change_terminal_video_page (s : kernel_state) (from_terminal_id to_terminal_id : Int) :
    kernel_state :=
  if from_terminal_id < 0 ∨ from_terminal_id > 2 ∨ to_terminal_id < 0 ∨ to_terminal_id > 2 then s
  else
    let s1 := copy_video_page s (VIDMEM_PAGE_BASE + (from_terminal_id + 1).toNat) VIDMEM_PAGE_BASE
    copy_video_page s1 VIDMEM_PAGE_BASE (VIDMEM_PAGE_BASE + (to_terminal_id + 1).toNat)

/-- Translation of `redirect_vidmem_page` (paging.c lines 230-244). -/
def redirect_vidmem_page (s : kernel_state) (terminal_id : Int) : kernel_state :=
  if terminal_id < 0 ∨ terminal_id > 2 then s
  else
    let base :=
      if terminal_id = (s.visible_terminal : Int) then VIDMEM_PAGE_BASE
      else VIDMEM_PAGE_BASE + terminal_id.toNat + 1
    { s with page_table_one := fun i =>
        if i = VIDMEM_PAGE_BASE then { s.page_table_one i with page_base_address := base }
        else s.page_table_one i }

/-! ## terminal.c -/

/-- Translation of `clear_keyboard_vars` (terminal.c lines 48-57). -/
def clear_keyboard_vars (s : kernel_state) (terminal_id : Int) : kernel_state :=
  if terminal_id < 0 ∨ terminal_id ≥ (MAX_TERMINALS : Int) then s
  else
    set_terminal s terminal_id.toNat
      { s.terminals terminal_id.toNat with
        kb_buf_i := 0
        kb_enter_flag := 0
        kb_buf := List.replicate KEYBOARD_BUF_SIZE 0 }

/-- Load `kb_buf[i]`.  An index outside `0..127` designates memory outside the
array (the neighbouring fields of the record, the next record), which this
model does not follow: the load yields `0` here.  Every such load of
`terminal_read` is recorded by `kb_note_load`, and a state whose `kb_oob` is
non-empty no longer describes the machine. -/
def kb_load (t : terminal_t) (i : Int) : Nat :=
  if 0 ≤ i ∧ i < (KEYBOARD_BUF_SIZE : Int) then t.kb_buf.getD i.toNat 0 else 0

/-- Store `kb_buf[i] = c`.  An index outside `0..127` designates memory
outside the array, where the C code overwrites the neighbouring fields of the
record or the next record; this model does not follow such a store: it leaves
the records alone and records the index in the ghost field `kb_oob`.  A state
in which `kb_oob` of some terminal is non-empty no longer describes the
machine; statements about the machine are made for runs in which `kb_oob`
stays empty, or about the first out-of-range access itself. -/
def kb_store (t : terminal_t) (i : Int) (c : Nat) : terminal_t :=
  if 0 ≤ i ∧ i < (KEYBOARD_BUF_SIZE : Int) then { t with kb_buf := t.kb_buf.set i.toNat c }
  else { t with kb_oob := i :: t.kb_oob }

/-- Record in `kb_oob` a load from `kb_buf[i]` when `i` is outside `0..127`. -/
def kb_note_load (t : terminal_t) (i : Int) : terminal_t :=
  if 0 ≤ i ∧ i < (KEYBOARD_BUF_SIZE : Int) then t else { t with kb_oob := i :: t.kb_oob }

/-- Translation of `switch_visible_terminal` (terminal.c lines 176-191). -/
def switch_visible_terminal (s : kernel_state) (terminal_id : Nat) : kernel_state :=
  if terminal_id = s.visible_terminal then s
  else
    let s1 := change_terminal_video_page s s.visible_terminal terminal_id
    let s2 := set_terminal s1 s1.visible_terminal
      { s1.terminals s1.visible_terminal with cursor_x := s1.screen_x, cursor_y := s1.screen_y }
    let s3 := update_cursor s2 (s2.terminals terminal_id).cursor_x (s2.terminals terminal_id).cursor_y
    { s3 with visible_terminal := terminal_id }

/-- The loop `for(i = 0; i < n_bytes; i++) putc(buf[i], 0)` of
`terminal_write`, from index `i` for `count` more bytes. -/
def terminal_write_loop (buf : Nat → Nat) : Nat → Nat → kernel_state → kernel_state
  | 0, _, s => s
  | count + 1, i, s => terminal_write_loop buf count (i + 1) (putc s (buf i) 0)

/-- The shell prompt `"391OS> "` as bytes. -/
def shell_prompt : List Nat := [51, 57, 49, 79, 83, 62, 32]

/-- Translation of `terminal_write` (terminal.c lines 145-166).  The function
calls itself on the line buffer; `fuel` bounds the depth of that recursion and
`none` means the depth was not enough. -/
def terminal_write : Nat → kernel_state → Option (Nat → Nat) → Int → Option (Int × kernel_state)
  | 0, _, _, _ => none
  | fuel + 1, s, buf, n_bytes =>
    match buf with
    | none => some (-1, s)
    | some b =>
      if n_bytes < 0 then some (-1, s)
      else
        let s1 := terminal_write_loop b n_bytes.toNat 0 s
        if strncmp b (bytes_at shell_prompt) 7 0 = 0 ∧ s1.shell_count = 3 then
          match terminal_write fuel s1
              (some (bytes_at (s1.terminals s1.scheduled_terminal).kb_buf))
              (s1.terminals s1.scheduled_terminal).kb_buf_i with
          | none => none
          | some (_, s2) => some (n_bytes, s2)
        else some (n_bytes, s1)

/-! ## keyboard.c -/

/-- The table `scan_code_to_ascii` of `keyboard_handler` (lines 34-44). -/
def scan_code_to_ascii : List Nat :=
  [0, 0x1B, 49, 50, 51, 52, 53, 54, 55, 56,
   57, 48, 45, 61, 8, 9, 113, 119, 101, 114,
   116, 121, 117, 105, 111, 112, 91, 93, 10, 0,
   97, 115, 100, 102, 103, 104, 106, 107, 108, 59,
   39, 96, 0, 92, 122, 120, 99, 118, 98, 110,
   109, 44, 46, 47, 0, 42, 0, 32, 0, 0,
   0, 0, 0, 0, 0, 0, 0, 0, 0, 0,
   0, 55, 56, 57, 45, 52, 53, 54, 43, 49,
   50, 51, 48, 46, 0, 0, 0, 0, 0]

/-- The first `switch` of `keyboard_handler` (lines 57-85): modifier flags. -/
def keyboard_set_flags (s : kernel_state) (scan_code : Nat) : kernel_state :=
  if scan_code = 0x2A then { s with left_shift_flag := true }
  else if scan_code = 0xAA then { s with left_shift_flag := false }
  else if scan_code = 0x36 then { s with right_shift_flag := true }
  else if scan_code = 0xB6 then { s with right_shift_flag := false }
  else if scan_code = 0x3A then { s with caps_flag := !s.caps_flag }
  else if scan_code = 0x1D then { s with ctrl_flag := true }
  else if scan_code = 0x9D then { s with ctrl_flag := false }
  else if scan_code = 0x38 then { s with alt_flag := true }
  else if scan_code = 0xB8 then { s with alt_flag := false }
  else s

/-- The second `switch` of `keyboard_handler` (lines 196-260): the shifted
counterpart of a key of the number and punctuation rows. -/
def shift_special (key_pressed : Nat) : Nat :=
  if key_pressed = 96 then 126
  else if key_pressed = 49 then 33
  else if key_pressed = 50 then 64
  else if key_pressed = 51 then 35
  else if key_pressed = 52 then 36
  else if key_pressed = 53 then 37
  else if key_pressed = 54 then 94
  else if key_pressed = 55 then 38
  else if key_pressed = 56 then 42
  else if key_pressed = 57 then 40
  else if key_pressed = 48 then 41
  else if key_pressed = 45 then 95
  else if key_pressed = 61 then 43
  else if key_pressed = 91 then 123
  else if key_pressed = 93 then 125
  else if key_pressed = 92 then 124
  else if key_pressed = 59 then 58
  else if key_pressed = 39 then 34
  else if key_pressed = 44 then 60
  else if key_pressed = 46 then 62
  else if key_pressed = 47 then 63
  else key_pressed

/-- The re-echo loop of Ctrl+L (lines 128-130): `putc(kb_buf[temp_i], 1)` for
`count` more indices from `temp_i`. -/
def keyboard_echo_loop (kb_buf : List Nat) : Nat → Nat → kernel_state → kernel_state
  | 0, _, s => s
  | count + 1, temp_i, s =>
    keyboard_echo_loop kb_buf count (temp_i + 1) (putc s (kb_buf.getD temp_i 0) 1)

/-- The tab loop (lines 174-183): up to `count` more spaces, stopping when the
line buffer of the visible terminal `v` is full. -/
def keyboard_tab_loop (v : Nat) (print_allowed : Bool) : Nat → kernel_state → kernel_state
  | 0, s => s
  | count + 1, s =>
    let t := s.terminals v
    if t.kb_buf_i < (KEYBOARD_BUF_CHAR_MAX : Int) ∧ t.kb_buf_i < s.terminal_buf_n_bytes - 1 then
      let s1 := set_terminal s v { kb_store t t.kb_buf_i 32 with kb_buf_i := t.kb_buf_i + 1 }
      keyboard_tab_loop v print_allowed count (if print_allowed then putc s1 32 1 else s1)
    else s

/-- Translation of `keyboard_handler` (keyboard.c lines 28-271) for the scan
code read from the keyboard port.  `v` and `print_allowed` are the aliases
taken at entry: the visible terminal and its `in_terminal_read`. -/
def keyboard_handler (s0 : kernel_state) (scan_code : Nat) : kernel_state :=
  let v := s0.visible_terminal
  let print_allowed : Bool := (s0.terminals v).in_terminal_read != 0
  let s := keyboard_set_flags s0 scan_code
  if scan_code ≥ 0x3E ∨ scan_code = 0x2A ∨ scan_code = 0x36 ∨ scan_code = 0x3A
      ∨ scan_code = 0x1D ∨ scan_code = 0x38 then s
  else
    let key_pressed := scan_code_to_ascii.getD scan_code 0
    let t := s.terminals v
    if key_pressed = 8 then
      if t.kb_buf_i > 0 then
        let s1 := set_terminal s v { t with kb_buf_i := t.kb_buf_i - 1 }
        if print_allowed then putc s1 8 1 else s1
      else s
    else if key_pressed = 10 then
      if !print_allowed then s
      else
        let s1 := set_terminal s v
          { kb_store t t.kb_buf_i key_pressed with kb_buf_i := t.kb_buf_i + 1, kb_enter_flag := 1 }
        if print_allowed then putc s1 10 1 else s1
    else if s.ctrl_flag ∧ (key_pressed = 108 ∨ key_pressed = 76) then
      let s1 := clear s
      if print_allowed then keyboard_echo_loop t.kb_buf t.kb_buf_i.toNat 0 s1 else s1
    else if s.alt_flag ∧ scan_code = 0x3B then switch_visible_terminal s 0
    else if s.alt_flag ∧ scan_code = 0x3C then switch_visible_terminal s 1
    else if s.alt_flag ∧ scan_code = 0x3D then switch_visible_terminal s 2
    else if key_pressed = 0 then s
    else if t.kb_buf_i = (KEYBOARD_BUF_CHAR_MAX : Int) ∨ t.kb_buf_i = s.terminal_buf_n_bytes - 1 then s
    else if key_pressed = 9 then keyboard_tab_loop v print_allowed 8 s
    else
      let shift : Bool := s.left_shift_flag || s.right_shift_flag
      let key1 :=
        if (xor s.caps_flag shift) ∧ (key_pressed ≥ 97 ∧ key_pressed ≤ 122) then key_pressed - 32
        else key_pressed
      let key2 := if shift then shift_special key1 else key1
      let s1 := set_terminal s v { kb_store t t.kb_buf_i key2 with kb_buf_i := t.kb_buf_i + 1 }
      if print_allowed then putc s1 key2 1 else s1

/-- A run of keyboard interrupts, one `keyboard_handler` call per scan code. -/
def keyboard_run (s : kernel_state) (scan_codes : List Nat) : kernel_state :=
  scan_codes.foldl keyboard_handler s

/-! ## terminal.c: `terminal_read` -/

/-- Outcome of `terminal_read`: the value returned, the state afterwards and
the caller's buffer afterwards. -/
structure terminal_read_result where
  ret : Int
  state : kernel_state
  buf : Option (Nat → Nat)

/-- Lines 107-134 of `terminal_read`: what the function does once it has left
the wait loop.  The test `kb_buf_i > 0` of line 117 compares the pointer
`kb_buf_i`, which is never null, so its branch is always taken. -/
def terminal_read_finish (s0 : kernel_state) (b : Nat → Nat) (n_bytes : Int) :
    terminal_read_result :=
  let sched := s0.scheduled_terminal
  let s1 := set_terminal s0 sched { s0.terminals sched with in_terminal_read := 0 }
  let t1 := kb_note_load (s1.terminals sched) ((s1.terminals sched).kb_buf_i - 1)
  let t2 :=
    if kb_load t1 (t1.kb_buf_i - 1) ≠ 10 then
      { kb_store t1 (t1.kb_buf_i - 1) 0 with kb_buf_i := t1.kb_buf_i - 1 }
    else t1
  let b1 := strncpy b t2.kb_buf n_bytes.toNat
  let bytes_written := t2.kb_buf_i
  let s2 := { set_terminal s1 sched t2 with terminal_buf_n_bytes := (KEYBOARD_BUF_SIZE : Int) }
  { ret := bytes_written
    state := clear_keyboard_vars s2 (sched : Int)
    buf := some b1 }

/-- Translation of `terminal_read` (terminal.c lines 91-135).  `scan_codes` are
the keyboard interrupts delivered while the call sits in its wait loop
`while(!kb_enter_flag)` (line 104); the result is `none` when the flag is still
clear after them, i.e. the call is still blocked. -/
def terminal_read (s : kernel_state) (scan_codes : List Nat) (buf : Option (Nat → Nat))
    (n_bytes : Int) : Option terminal_read_result :=
  match buf with
  | none => some { ret := 0, state := s, buf := none }
  | some b =>
    if n_bytes ≤ 0 then some { ret := 0, state := s, buf := some b }
    else
      let s1 := { s with terminal_buf_n_bytes := n_bytes }
      let s2 := set_terminal s1 s1.scheduled_terminal
        { s1.terminals s1.scheduled_terminal with in_terminal_read := 1 }
      let s3 := keyboard_run s2 scan_codes
      if (s3.terminals s3.scheduled_terminal).kb_enter_flag = 0 then none
      else some (terminal_read_finish s3 b n_bytes)

/-- Translation of `init_terminal` (terminal.c lines 19-38) applied to a state
`s`: every terminal record is reset. -/
def init_terminal (s : kernel_state) : kernel_state :=
  { s with
    shell_count := 0
    scheduled_terminal := 0
    visible_terminal := 0
    terminals := fun i =>
      if i < MAX_TERMINALS then
        { terminal_pcb := 0
          terminal_id := i
          cursor_x := 0
          cursor_y := 0
          last_assigned_pid := -1
          kb_buf_i := 0
          kb_enter_flag := 0
          kb_buf := List.replicate KEYBOARD_BUF_SIZE 0
          in_terminal_read := 0
          rtc_active := 0
          rtc_virt_interrupt := 0
          rtc_freq := 0
          rtc_countdown := 0
          kb_oob := (s.terminals i).kb_oob }
      else s.terminals i }

/-! ## rtc.c -/

/-- The body of the loop of `RTC_interrupt` (lines 65-71) for one terminal
record.  The decrement is 32-bit; a division by a zero `rtc_freq`, a divide
error on the machine, yields `0` here. -/
def RTC_interrupt_terminal (t : terminal_t) : terminal_t :=
  if t.rtc_active ≠ 0 then
    let t1 := { t with rtc_countdown := (t.rtc_countdown + U32 - 1) % U32 }
    if t1.rtc_countdown = 0 then
      { t1 with rtc_virt_interrupt := 1, rtc_countdown := HIGHEST_FREQ / t1.rtc_freq }
    else t1
  else t

/-- Translation of `RTC_interrupt` (rtc.c lines 58-77): the loop body is run
for the terminals 0, 1 and 2, each body touching only its own record. -/
def RTC_interrupt (s : kernel_state) : kernel_state :=
  { s with terminals := fun i =>
      if i < MAX_TERMINALS then RTC_interrupt_terminal (s.terminals i) else s.terminals i }

/-- Translation of `RTC_open` (rtc.c lines 88-97). -/
def RTC_open (s : kernel_state) : Int × kernel_state :=
  let sched := s.scheduled_terminal
  let t1 := { s.terminals sched with rtc_freq := 2 }
  let t2 := { t1 with rtc_active := 1 }
  let t3 := { t2 with rtc_countdown := HIGHEST_FREQ / t2.rtc_freq }
  (0, set_terminal s sched t3)

/-- Translation of `RTC_close` (rtc.c lines 184-190). -/
def RTC_close (s : kernel_state) (_fd : Int) : Int × kernel_state :=
  let sched := s.scheduled_terminal
  (0, set_terminal s sched
    { s.terminals sched with rtc_freq := 0, rtc_active := 0, rtc_countdown := 0
                             rtc_virt_interrupt := 0 })

/-- Translation of `RTC_read` (rtc.c lines 108-114).  `ticks` is the number of
`RTC_interrupt` calls delivered while the call sits in its wait loop; the
result is `none` when the flag is still clear after them. -/
def RTC_read (s : kernel_state) (ticks : Nat) : Option (Int × kernel_state) :=
  let s1 := Nat.iterate RTC_interrupt ticks s
  let sched := s1.scheduled_terminal
  if (s1.terminals sched).rtc_virt_interrupt = 0 then none
  else some (0, set_terminal s1 sched { s1.terminals sched with rtc_virt_interrupt := 0 })

/-- The loop `while(freq)` of `RTC_write` (lines 150-167) with its 8-bit
`index` and `flag`.  `some true`: the loop ran to its end; `some false`: it
returned -1; `none`: out of fuel. -/
def RTC_write_loop : Nat → Nat → Nat → Nat → Option Bool
  | 0, _, _, _ => none
  | fuel + 1, freq, index, flag =>
    if freq = 0 then some true
    else if index > 10 then some false
    else
      let flag1 := if freq % 2 ≠ 0 then (flag + 1) % 256 else flag
      if flag1 > 1 then some false
      else RTC_write_loop fuel (freq / 2) ((index + 1) % 256) flag1

/-- Translation of `RTC_write` (rtc.c lines 125-173).  The frequency is the
single byte `*((uint8_t*)buf)`.  The loop is given fuel 33, one more than the
number of bits of `freq`; `none` would mean the fuel ran out. -/
def RTC_write (s : kernel_state) (_fd : Int) (buf : Option (Nat → Nat)) (_n_bytes : Int) :
    Option (Int × kernel_state) :=
  match buf with
  | none => some (-1, s)
  | some b =>
    let freq := b 0 % 256
    if freq % 2 ≠ 0 then some (-1, s)
    else
      let freq1 := freq / 2
      if freq1 = 0 then some (-1, s)
      else
        match RTC_write_loop 33 freq1 0 0 with
        | none => none
        | some false => some (-1, s)
        | some true =>
          let sched := s.scheduled_terminal
          let t1 := { s.terminals sched with rtc_freq := b 0 % 256 }
          some (0, set_terminal s sched { t1 with rtc_countdown := HIGHEST_FREQ / t1.rtc_freq })

/-- The four bytes of a 32-bit integer in memory (little-endian), as a caller
passing `&x` for a `uint32_t x` hands them over. -/
def uint32_bytes (x : Nat) : Nat → Nat := fun k => if k < 4 then (x / 256 ^ k) % 256 else 0

/-! ## file_system.c: directory lookup -/

/-- The loop of `read_dentry_by_name` (lines 34-45): search the dentries from
index `i`, `count` more of them, for one whose name compares equal to `fname`
over `FNAME_LENGTH` bytes; the copy handed back holds the name as `strncpy`
writes it, the type and the inode. -/
def read_dentry_loop (fs : file_system) (fname : List Nat) : Nat → Nat → Option dentry_t
  | 0, _ => none
  | count + 1, i =>
    if strncmp (bytes_at (fs.dentries i).fname) (bytes_at fname) FNAME_LENGTH 0 = 0 then
      some { fname := (List.range FNAME_LENGTH).map
                        (strncpy (fun _ => 0) (fs.dentries i).fname FNAME_LENGTH)
             ftype := (fs.dentries i).ftype
             inode := (fs.dentries i).inode }
    else read_dentry_loop fs fname count (i + 1)

/-- Translation of `read_dentry_by_name` (file_system.c lines 29-47) for a
non-null `dentry`: `none` stands for the return value -1, `some d` for 0 with
`d` stored through the pointer. -/
def read_dentry_by_name (fs : file_system) (fname : Option (List Nat)) : Option dentry_t :=
  match fname with
  | none => none
  | some name =>
    if strlen name > 32 then none
    else read_dentry_loop fs name fs.num_dentries 0

/-! ## system_calls.c: `execute` -/

/-- Conversion of an `int32_t` to `uint32_t`. -/
def to_uint32 (i : Int) : Nat := (i % (U32 : Int)).toNat

/-- Conversion of a `uint32_t` to `int32_t`. -/
def to_int32 (n : Nat) : Int :=
  if n % U32 < 2147483648 then ((n % U32 : Nat) : Int) else ((n % U32 : Nat) : Int) - (U32 : Int)

/-- The address `tss.esp0 & 0xFFFFE000` at which the system calls look for the
current PCB. -/
def current_pcb_addr (s : kernel_state) : Nat := Nat.land s.tss_esp0 0xFFFFE000

/-- Store a PCB at an address of the PCB memory. -/
def set_pcb (s : kernel_state) (a : Nat) (p : pcb_t) : kernel_state :=
  { s with pcb_mem := fun b => if b = a then p else s.pcb_mem b }

/-- The search for a free PID (lines 119-128): from index `i`, `count` more
slots; `none` stands for `return -1`. -/
def find_next_pid (processes : List Nat) : Nat → Nat → Option Nat
  | 0, _ => none
  | count + 1, i =>
    if processes.getD i 0 = 0 then some i
    else if i = MAX_PROCESSES - 1 then none
    else find_next_pid processes count (i + 1)

/-- The descriptor used for a slot the list does not have. -/
def bad_descriptor : file_descriptor_t :=
  { fops_table_ptr := fops_jump_table_t.bad_table, inode := 0, file_pos := 0, flags := 0 }

/-- Lines 135-148 of `execute`: the file-descriptor array after its
initialisation.  Slots 0 and 1 receive the stdin and stdout tables; the table
field of slots 2..7 is not written and keeps what the memory held. -/
def init_fda (old : List file_descriptor_t) : List file_descriptor_t :=
  (List.range 8).map (fun i =>
    if i = 0 then
      { fops_table_ptr := fops_jump_table_t.stdin_table, inode := 0, file_pos := 0, flags := 1 }
    else if i = 1 then
      { fops_table_ptr := fops_jump_table_t.stdout_table, inode := 0, file_pos := 0, flags := 1 }
    else
      { fops_table_ptr := (old.getD i bad_descriptor).fops_table_ptr
        inode := 0, file_pos := 0, flags := 0 })

/-- The first loop of the command parser (lines 159-172).  The first argument
is `command_length - i`; the result is the final `i` and `exec_name`. -/
def parse_exec_name (command : List Nat) : Nat → Nat → Nat → List Nat → Nat × List Nat
  | 0, i, _, exec_name => (i, exec_name)
  | remaining + 1, i, j, exec_name =>
    let c := command.getD i 0
    if c = 0 then (i, exec_name)
    else if c = 32 ∧ j = 0 then parse_exec_name command remaining (i + 1) j exec_name
    else if c = 32 ∧ j ≠ 0 then (i, exec_name)
    else parse_exec_name command remaining (i + 1) (j + 1) (exec_name.set j c)

/-- The second loop of the command parser (lines 179-188).  The first argument
is `command_length - i`; the result is the `arg` array. -/
def parse_arg (command : List Nat) : Nat → Nat → Nat → List Nat → List Nat
  | 0, _, _, arg => arg
  | remaining + 1, i, j, arg =>
    let c := command.getD i 0
    if c = 0 ∨ ¬ (j < MAX_ARGS) then arg
    else if c = 32 ∧ j = 0 then parse_arg command remaining (i + 1) j arg
    else parse_arg command remaining (i + 1) (j + 1) (arg.set j c)

/-- How a call of `execute` ends: it returns a value to its caller, or it
performs the `iret` into the loaded program at its entry point. -/
inductive execute_result where
  | returned (ret : Int) (s : kernel_state)
  | entered_user (entry : Nat) (s : kernel_state)

/-- The rewind performed on a failed executable check (lines 214-216). -/
def execute_rewind (s : kernel_state) (next_pid : Nat) : kernel_state :=
  let s1 := set_user_prog_page s next_pid 0
  set_user_prog_page s1
    (to_uint32 (s1.terminals s1.scheduled_terminal).last_assigned_pid) 1

/-- The executable name `execute` extracts from a command (lines 151-172):
the final index `i` of the first parser loop and the array `exec_name`. -/
def command_exec_name (cmd : List Nat) : Nat × List Nat :=
  parse_exec_name cmd (strlen cmd + 1) 0 0 (List.replicate (strlen cmd + 1) 0)

/-- The argument array `execute` extracts from a command (lines 175-189). -/
def command_arg (cmd : List Nat) : List Nat :=
  let i := (command_exec_name cmd).1
  if cmd.getD i 0 ≠ 0 then
    parse_arg cmd (strlen cmd + 1 - (i + 1)) (i + 1) 0 (List.replicate MAX_ARGS 0)
  else List.replicate MAX_ARGS 0

/-- Lines 132-189 of `execute`: the PCB of `next_pid` receives its initial
file-descriptor array and the parsed argument string. -/
def execute_init_pcb (s : kernel_state) (cmd : List Nat) (next_pid : Nat) : kernel_state :=
  let next_pcb_ptr := EIGHT_MB - (next_pid + 1) * EIGHT_KB
  let sa := set_pcb s next_pcb_ptr
    { s.pcb_mem next_pcb_ptr with fda := init_fda (s.pcb_mem next_pcb_ptr).fda }
  set_pcb sa next_pcb_ptr { sa.pcb_mem next_pcb_ptr with arg := command_arg cmd }

/-- Lines 200-203 of `execute`: map the user page of `next_pid` and copy up to
100000 bytes of the file to virtual `PROG_IMG_ADDR`, i.e. into the physical
frame the directory entry names.  The result is the state and the value `val`
returned by `read_data`. -/
def execute_load (s : kernel_state) (next_pid : Nat) (file_dentry : dentry_t) :
    kernel_state × Int :=
  let sc := set_user_prog_page s next_pid 1
  let frame := (sc.page_directory USER_PAGE_BASE_ADDR).base_addr
  let image_offset := PROG_IMG_ADDR % FOUR_MB
  let load := read_data sc.boot file_dentry.inode 0
    (some (fun k => sc.user_pages frame (image_offset + k))) 100000
  ({ sc with user_pages := fun f off =>
      if f = frame ∧ image_offset ≤ off ∧ off < image_offset + load.ret.toNat then
        (load.buf.getD (fun _ => 0)) (off - image_offset)
      else sc.user_pages f off }, load.ret)

/-- Lines 234-305 of `execute`: the PCB and the terminal record are completed,
the TSS is set, and the `iret` enters the program; the result is the entry
point and the state at the `iret`. -/
def execute_launch (sd : kernel_state) (next_pid : Nat) (file_dentry : dentry_t)
    (stack : Nat → Nat) : Nat × kernel_state :=
  let next_pcb_ptr := EIGHT_MB - (next_pid + 1) * EIGHT_KB
  let sched := sd.scheduled_terminal
  let parent :=
    if next_pid ≤ 2 then next_pid
    else to_uint32 (sd.terminals sched).last_assigned_pid
  let se := set_pcb sd next_pcb_ptr
    { sd.pcb_mem next_pcb_ptr with parent_process_id := parent, process_id := next_pid }
  let sf := { se with processes := se.processes.set next_pid 1 }
  let sg := set_terminal sf sched
    { sf.terminals sched with last_assigned_pid := (next_pid : Int) }
  let sh := set_pcb sg next_pcb_ptr { sg.pcb_mem next_pcb_ptr with called_vidmap := 0 }
  let prog_entry_buf :=
    (read_data sh.boot file_dentry.inode 24 (some stack) 4).buf.getD stack
  let prog_entry_addr := prog_entry_buf 0 + 256 * prog_entry_buf 1
    + 65536 * prog_entry_buf 2 + 16777216 * prog_entry_buf 3
  let si := { sh with tss_esp0 := EIGHT_MB - (next_pid * EIGHT_KB) - 4
                      tss_ss0 := KERNEL_DS }
  let term_pcb := si.pcb_mem (si.terminals sched).terminal_pcb
  let sj := set_pcb si next_pcb_ptr
    (if next_pid ≤ 2 then
      { si.pcb_mem next_pcb_ptr with curr_esp := term_pcb.curr_esp
                                     curr_ebp := term_pcb.curr_ebp }
     else { si.pcb_mem next_pcb_ptr with curr_esp := 0, curr_ebp := 0 })
  let sk := set_pcb sj next_pcb_ptr
    { sj.pcb_mem next_pcb_ptr with parent_esp := sj.reg_esp, parent_ebp := sj.reg_ebp }
  let sl := set_pcb sk next_pcb_ptr
    { sk.pcb_mem next_pcb_ptr with parent_pcb := (sk.terminals sched).terminal_pcb }
  let sm := set_terminal sl sched
    { sl.terminals sched with terminal_pcb := next_pcb_ptr }
  (prog_entry_addr, sm)

/-- Translation of `execute` (system_calls.c lines 110-310) up to the `iret`.
`command` is the string at the pointer (`none` for `NULL`); `stack` gives the
bytes found in the uninitialised local arrays: `elf_check` holds `stack 0..3`
and `prog_entry_buf` holds `stack 4..7` before `read_data` fills them. -/
def execute (s : kernel_state) (command : Option (List Nat)) (stack : Nat → Nat) :
    execute_result :=
  match command with
  | none => execute_result.returned (-1) s
  | some cmd =>
    match find_next_pid s.processes MAX_PROCESSES 0 with
    | none => execute_result.returned (-1) s
    | some next_pid =>
      let sb := execute_init_pcb s cmd next_pid
      match read_dentry_by_name sb.boot (some (command_exec_name cmd).2) with
      | none => execute_result.returned (-1) sb
      | some file_dentry =>
        let sd := (execute_load sb next_pid file_dentry).1
        if (execute_load sb next_pid file_dentry).2 = -1 then
          execute_result.returned (-1) (execute_rewind sd next_pid)
        else
          let elf_check := (read_data sd.boot file_dentry.inode 0 (some stack) 4).buf.getD stack
          if elf_check 0 ≠ 0x7f then execute_result.returned (-1) (execute_rewind sd next_pid)
          else if elf_check 1 ≠ 0x45 then execute_result.returned (-1) (execute_rewind sd next_pid)
          else if elf_check 2 ≠ 0x4c then execute_result.returned (-1) (execute_rewind sd next_pid)
          else if elf_check 3 ≠ 0x46 then execute_result.returned (-1) (execute_rewind sd next_pid)
          else
            let launched := execute_launch sd next_pid file_dentry (fun k => stack (k + 4))
            execute_result.entered_user launched.1 launched.2

/-! ## system_calls.c: `close`, `halt`, `getargs`, `vidmap` -/

/-- The `close` member of a dispatch record applied to `fd`: `RTC_close`,
`close_dir`, `close_file`, or `bad_call`. -/
def fops_close (s : kernel_state) (table : fops_jump_table_t) (fd : Int) : Int × kernel_state :=
  match table with
  | fops_jump_table_t.rtc_table => RTC_close s fd
  | fops_jump_table_t.directory_table => (0, s)
  | fops_jump_table_t.file_table => (0, s)
  | fops_jump_table_t.stdin_table => (-1, s)
  | fops_jump_table_t.stdout_table => (-1, s)
  | fops_jump_table_t.bad_table => (-1, s)

/-- Translation of `close` (system_calls.c lines 417-427). -/
def close (s : kernel_state) (fd : Int) : Int × kernel_state :=
  let a := current_pcb_addr s
  let pcb := s.pcb_mem a
  if fd < 2 ∨ fd > 7 ∨ (pcb.fda.getD fd.toNat bad_descriptor).flags = 0 then (-1, s)
  else
    let d := pcb.fda.getD fd.toNat bad_descriptor
    let s1 := set_pcb s a { pcb with fda := pcb.fda.set fd.toNat { d with flags := 0 } }
    fops_close s1 ((s1.pcb_mem a).fda.getD fd.toNat bad_descriptor).fops_table_ptr fd

/-- The loop of `halt` (lines 47-52) over the descriptors `i`, `count` more of
them, of the PCB at `pcb_ptr`. -/
def halt_close_loop (pcb_ptr : Nat) : Nat → Nat → kernel_state → kernel_state
  | 0, _, s => s
  | count + 1, i, s =>
    if ((s.pcb_mem pcb_ptr).fda.getD i bad_descriptor).flags = 1 then
      let s1 := (close s (i : Int)).2
      let p := s1.pcb_mem pcb_ptr
      let d := p.fda.getD i bad_descriptor
      let s2 := set_pcb s1 pcb_ptr
        { p with fda := p.fda.set i { d with fops_table_ptr := fops_jump_table_t.bad_table } }
      halt_close_loop pcb_ptr count (i + 1) s2
    else halt_close_loop pcb_ptr count (i + 1) s

/-- How a call of `halt` ends: it jumps to `EXECUTE_LABEL` of the parent with
the status in `eax`, or (for a base shell) the `execute("shell")` it calls
enters the new shell. -/
inductive halt_result where
  | returned_to_execute (status : Int) (s : kernel_state)
  | entered_user (entry : Nat) (s : kernel_state)

/-- The command `"shell"` as bytes. -/
def shell_command : List Nat := [115, 104, 101, 108, 108]

/-- Lines 63-77 of `halt`: the parent's page mapping, kernel stack, video
alias and PCB pointer are restored. -/
def halt_restore_parent (s : kernel_state) (pcb_ptr : Nat) : kernel_state :=
  let s1 := set_user_prog_page s (s.pcb_mem pcb_ptr).parent_process_id 1
  let s2 := { s1 with
    tss_esp0 := EIGHT_MB - ((s1.pcb_mem pcb_ptr).parent_process_id * EIGHT_KB) - 4
    tss_ss0 := KERNEL_DS }
  let parent_pcb_ptr := (s2.pcb_mem pcb_ptr).parent_pcb
  let s3 := if (s2.pcb_mem parent_pcb_ptr).called_vidmap ≠ 0 then set_user_video_page s2 1 else s2
  set_terminal s3 s3.scheduled_terminal
    { s3.terminals s3.scheduled_terminal with terminal_pcb := parent_pcb_ptr }

/-- Lines 63-98 of `halt`: the restoration of the parent, the choice of the
status and the jump to `EXECUTE_LABEL`. -/
def halt_restore (s : kernel_state) (pcb_ptr : Nat) (status : Nat) : halt_result :=
  let s4 := halt_restore_parent s pcb_ptr
  if s4.exception_flag ≠ 0 then
    halt_result.returned_to_execute 256 { s4 with exception_flag := 0 }
  else halt_result.returned_to_execute (status % 256 : Nat) s4

/-- Translation of `halt` (system_calls.c lines 41-100).  `stack` is passed to
the `execute("shell")` of a base shell. -/
def halt (s : kernel_state) (status : Nat) (stack : Nat → Nat) : halt_result :=
  let pcb_ptr := (s.terminals s.scheduled_terminal).terminal_pcb
  let s1 := halt_close_loop pcb_ptr 6 2 s
  let s2 := { s1 with processes := s1.processes.set (s1.pcb_mem pcb_ptr).process_id 0 }
  let s3 := set_terminal s2 s2.scheduled_terminal
    { s2.terminals s2.scheduled_terminal with
      last_assigned_pid := to_int32 (s2.pcb_mem pcb_ptr).parent_process_id }
  if (s3.pcb_mem pcb_ptr).parent_process_id = (s3.pcb_mem pcb_ptr).process_id then
    match execute s3 (some shell_command) stack with
    | execute_result.entered_user entry s4 => halt_result.entered_user entry s4
    | execute_result.returned _ s4 => halt_restore s4 pcb_ptr status
  else halt_restore s3 pcb_ptr status

/-- The memory found at `pcb->arg` of the PCB at address `a`: the 100 bytes of
the array, then what follows the array. -/
def arg_memory (s : kernel_state) (a : Nat) : Nat → Nat :=
  fun k => if k < MAX_ARGS then (s.pcb_mem a).arg.getD k 0 else s.pcb_tail a (k - MAX_ARGS)

/-- Result of `getargs`: the value returned, the caller's buffer afterwards,
and the ghost list of the offsets from `pcb->arg` that were read. -/
structure getargs_result where
  ret : Int
  buf : Option (Nat → Nat)
  reads : List Nat

/-- Translation of `getargs` (system_calls.c lines 437-448). -/
def getargs (s : kernel_state) (buf : Option (Nat → Nat)) (nbytes : Int) : getargs_result :=
  let a := current_pcb_addr s
  match buf with
  | none => { ret := -1, buf := none, reads := [] }
  | some b =>
    if nbytes < (MAX_ARGS : Int) ∨ (s.pcb_mem a).arg.getD 0 0 = 0 then
      { ret := -1, buf := some b, reads := [] }
    else
      { ret := 0
        buf := some (memcpy b (arg_memory s a) (to_uint32 nbytes))
        reads := List.range (to_uint32 nbytes) }

/-- A 32-bit store through a user pointer `addr`, little-endian.  The four
bytes must lie in 4 MiB pages marked present in the page directory; they land
in the physical frames those entries name.  `none`: the store does not
complete (page fault, or a table-mapped address, which is not modelled). -/
def store_user32 (s : kernel_state) (addr val : Nat) : Option kernel_state :=
  let mapped := fun (a : Nat) =>
    (s.page_directory (a / FOUR_MB)).present ≠ 0 ∧ (s.page_directory (a / FOUR_MB)).page_size ≠ 0
  if mapped addr ∧ mapped ((addr + 3) % U32) then
    some { s with user_pages := fun f off =>
      if f = (s.page_directory (addr / FOUR_MB)).base_addr ∧ off = addr % FOUR_MB then
        val % 256
      else if f = (s.page_directory ((addr + 1) % U32 / FOUR_MB)).base_addr
          ∧ off = (addr + 1) % U32 % FOUR_MB then val / 256 % 256
      else if f = (s.page_directory ((addr + 2) % U32 / FOUR_MB)).base_addr
          ∧ off = (addr + 2) % U32 % FOUR_MB then val / 65536 % 256
      else if f = (s.page_directory ((addr + 3) % U32 / FOUR_MB)).base_addr
          ∧ off = (addr + 3) % U32 % FOUR_MB then val / 16777216 % 256
      else s.user_pages f off }
  else none

/-- Translation of `vidmap` (system_calls.c lines 458-473) for the pointer
value `screen_start`.  The first component is the value returned, `none` when
the store through `screen_start` does not complete; the second is the state
reached. -/
def vidmap (s : kernel_state) (screen_start : Nat) : Option Int × kernel_state :=
  if screen_start > ONE_THREE_TWO_MB ∨ screen_start < ONE_TWO_EIGHT_MB then (some (-1), s)
  else
    let a := current_pcb_addr s
    let s1 := set_pcb s a { s.pcb_mem a with called_vidmap := 1 }
    let s2 := set_user_video_page s1 1
    match store_user32 s2 screen_start TWO_FIVE_SIX_MB with
    | none => (none, s2)
    | some s3 => (some 0, s3)

/-- Byte `k` of the file with inode number `inode`, as `read_data` locates it
(file_system.c lines 101-102). -/
def file_byte (fs : file_system) (inode k : Nat) : Nat :=
  fs.fs_data_block ((fs.fs_inode inode).index_num (k / BLOCK_SIZE)) (k % BLOCK_SIZE)

/-- Relation between two states: the second has the same process table, the
same scheduled terminal, the same PCB pointer and `last_assigned_pid` in every
terminal record, and the same `process_id`, `parent_process_id` and
`parent_pcb` in every PCB.  The system calls a running process makes between
its `execute` and its `halt` (`read`, `write`, `open`, `close`, `getargs`,
`vidmap`) and the interrupt handlers for the keyboard and the clock keep it. -/
def keeps_process_links (s s1 : kernel_state) : Prop :=
  s1.processes = s.processes
  ∧ s1.scheduled_terminal = s.scheduled_terminal
  ∧ (∀ i, (s1.terminals i).terminal_pcb = (s.terminals i).terminal_pcb
        ∧ (s1.terminals i).last_assigned_pid = (s.terminals i).last_assigned_pid)
  ∧ (∀ a, (s1.pcb_mem a).process_id = (s.pcb_mem a).process_id
        ∧ (s1.pcb_mem a).parent_process_id = (s.pcb_mem a).parent_process_id
        ∧ (s1.pcb_mem a).parent_pcb = (s.pcb_mem a).parent_pcb)

/-- Relation between two states, as seen by the process that runs on the
scheduled terminal: the second has the same process table, the same scheduled
terminal, the same PCB pointer in the record of that terminal, and the same
`process_id`, `parent_process_id` and `parent_pcb` in the PCB of every process
that is in use.  Everything else may differ: the other terminal records, the
descriptors, the paging structures, and the PCB blocks of free PIDs, which a
child that has run and halted leaves rewritten. -/
def keeps_live_links (s s1 : kernel_state) : Prop :=
  s1.processes = s.processes
  ∧ s1.scheduled_terminal = s.scheduled_terminal
  ∧ (s1.terminals s.scheduled_terminal).terminal_pcb
      = (s.terminals s.scheduled_terminal).terminal_pcb
  ∧ (∀ pid, pid < MAX_PROCESSES → s.processes.getD pid 0 ≠ 0 →
      (s1.pcb_mem (EIGHT_MB - (pid + 1) * EIGHT_KB)).process_id
          = (s.pcb_mem (EIGHT_MB - (pid + 1) * EIGHT_KB)).process_id
      ∧ (s1.pcb_mem (EIGHT_MB - (pid + 1) * EIGHT_KB)).parent_process_id
          = (s.pcb_mem (EIGHT_MB - (pid + 1) * EIGHT_KB)).parent_process_id
      ∧ (s1.pcb_mem (EIGHT_MB - (pid + 1) * EIGHT_KB)).parent_pcb
          = (s.pcb_mem (EIGHT_MB - (pid + 1) * EIGHT_KB)).parent_pcb)

/-! ## file_system.c: `read_dentry_by_index`, `read_file`, `read_dir` -/

/-- Translation of `read_dentry_by_index` (file_system.c lines 57-70) for a
non-null `dentry`: `none` stands for the return value -1, `some d` for 0 with
`d` stored through the pointer. -/
def read_dentry_by_index (fs : file_system) (index : Nat) : Option dentry_t :=
  if index ≥ fs.num_dentries then none
  else
    some { fname := (List.range FNAME_LENGTH).map
                      (strncpy (fun _ => 0) (fs.dentries index).fname FNAME_LENGTH)
           ftype := (fs.dentries index).ftype
           inode := (fs.dentries index).inode }

/-- Translation of `read_dentry_by_name` (file_system.c lines 29-47) with both
pointers: `dentry` is what the second pointer points at (`none` for `NULL`).
The result is the value returned and what the pointer points at afterwards. -/
def read_dentry_by_name_call (fs : file_system) (fname : Option (List Nat))
    (dentry : Option dentry_t) : Int × Option dentry_t :=
  match fname, dentry with
  | none, _ => (-1, dentry)
  | some _, none => (-1, none)
  | some name, some d0 =>
    match read_dentry_by_name fs (some name) with
    | none => (-1, some d0)
    | some d => (0, some d)

/-- Outcome of a read-type call: the value returned, the state afterwards and
the caller's buffer afterwards. -/
structure read_result where
  ret : Int
  state : kernel_state
  buf : Option (Nat → Nat)

/-- Translation of `read_file` (file_system.c lines 120-130). -/
def read_file (s : kernel_state) (fd : Int) (buf : Option (Nat → Nat)) (nbytes : Int) :
    read_result :=
  let a := current_pcb_addr s
  let pcb := s.pcb_mem a
  let d := pcb.fda.getD fd.toNat bad_descriptor
  let offset := d.file_pos
  let inode := d.inode
  let d1 := { d with file_pos := (d.file_pos + to_uint32 nbytes) % U32 }
  let s1 := set_pcb s a { pcb with fda := pcb.fda.set fd.toNat d1 }
  let r := read_data s1.boot inode offset buf (to_uint32 nbytes)
  { ret := r.ret, state := s1, buf := r.buf }

/-- Translation of `write_file` (file_system.c lines 140-142). -/
def write_file (s : kernel_state) : Int × kernel_state := (-1, s)

/-- Translation of `write_dir` (file_system.c lines 206-208). -/
def write_dir (s : kernel_state) : Int × kernel_state := (-1, s)

/-- Translation of `read_dir` (file_system.c lines 178-196). -/
def read_dir (s : kernel_state) (fd : Int) (buf : Option (Nat → Nat)) (nbytes : Int) :
    read_result :=
  let a := current_pcb_addr s
  let pcb := s.pcb_mem a
  let d := pcb.fda.getD fd.toNat bad_descriptor
  let position := d.file_pos
  let valid := read_dentry_by_index s.boot position
  match buf, valid with
  | some b, some dentry =>
    if position ≥ MAX_DENTRY then { ret := 0, state := s, buf := some b }
    else
      let d1 := { d with file_pos := (position + 1) % U32 }
      let s1 := set_pcb s a { pcb with fda := pcb.fda.set fd.toNat d1 }
      { ret := nbytes, state := s1, buf := some (memcpy b (bytes_at dentry.fname) FNAME_LENGTH) }
  | _, _ => { ret := 0, state := s, buf := buf }

/-! ## system_calls.c: `read`, `write`, `open` -/

/-- The `read` member of a dispatch record.  `scan_codes` and `ticks` are the
keyboard and clock interrupts delivered while `terminal_read` or `RTC_read`
waits; `none` means the call is still blocked after them. -/
def fops_read (s : kernel_state) (table : fops_jump_table_t) (fd : Int) (b : Nat → Nat)
    (nbytes : Int) (scan_codes : List Nat) (ticks : Nat) : Option read_result :=
  match table with
  | fops_jump_table_t.rtc_table =>
    (RTC_read s ticks).map (fun r => { ret := r.1, state := r.2, buf := some b })
  | fops_jump_table_t.directory_table => some (read_dir s fd (some b) nbytes)
  | fops_jump_table_t.file_table => some (read_file s fd (some b) nbytes)
  | fops_jump_table_t.stdin_table =>
    (terminal_read s scan_codes (some b) nbytes).map
      (fun r => { ret := r.ret, state := r.state, buf := r.buf })
  | fops_jump_table_t.stdout_table => some { ret := -1, state := s, buf := some b }
  | fops_jump_table_t.bad_table => some { ret := -1, state := s, buf := some b }

/-- Translation of `read` (system_calls.c lines 322-334). -/
def read (s : kernel_state) (fd : Int) (buf : Option (Nat → Nat)) (nbytes : Int)
    (scan_codes : List Nat) (ticks : Nat) : Option read_result :=
  let pcb := s.pcb_mem (current_pcb_addr s)
  if fd < 0 ∨ fd > 7 ∨ (pcb.fda.getD fd.toNat bad_descriptor).flags = 0 then
    some { ret := -1, state := s, buf := buf }
  else
    match buf with
    | none => some { ret := -1, state := s, buf := none }
    | some b =>
      fops_read s (pcb.fda.getD fd.toNat bad_descriptor).fops_table_ptr fd b nbytes
        scan_codes ticks

/-- The `write` member of a dispatch record; `fuel` bounds the recursion of
`terminal_write`. -/
def fops_write (s : kernel_state) (table : fops_jump_table_t) (fd : Int) (b : Nat → Nat)
    (nbytes : Int) (fuel : Nat) : Option (Int × kernel_state) :=
  match table with
  | fops_jump_table_t.rtc_table => RTC_write s fd (some b) nbytes
  | fops_jump_table_t.directory_table => some (write_dir s)
  | fops_jump_table_t.file_table => some (write_file s)
  | fops_jump_table_t.stdin_table => some (-1, s)
  | fops_jump_table_t.stdout_table => terminal_write fuel s (some b) nbytes
  | fops_jump_table_t.bad_table => some (-1, s)

/-- Translation of `write` (system_calls.c lines 345-355). -/
def write (s : kernel_state) (fd : Int) (buf : Option (Nat → Nat)) (nbytes : Int)
    (fuel : Nat) : Option (Int × kernel_state) :=
  let pcb := s.pcb_mem (current_pcb_addr s)
  if fd < 0 ∨ fd > 7 ∨ (pcb.fda.getD fd.toNat bad_descriptor).flags = 0 then some (-1, s)
  else
    match buf with
    | none => some (-1, s)
    | some b =>
      fops_write s (pcb.fda.getD fd.toNat bad_descriptor).fops_table_ptr fd b nbytes fuel

/-- The search of `open` for a free descriptor (lines 382-389): from index `i`,
`count` more slots. -/
def open_find_slot (fda : List file_descriptor_t) : Nat → Nat → Option Nat
  | 0, _ => none
  | count + 1, i =>
    if (fda.getD i bad_descriptor).flags = 0 then some i
    else open_find_slot fda count (i + 1)

/-- Translation of `open` (system_calls.c lines 364-408); `open` is a reserved
word, hence the name. -/
def sys_open (s : kernel_state) (filename : Option (List Nat)) : Int × kernel_state :=
  let a := current_pcb_addr s
  match filename with
  | none => (-1, s)
  | some name =>
    match read_dentry_by_name s.boot (some name) with
    | none => (-1, s)
    | some dentry =>
      match open_find_slot (s.pcb_mem a).fda 6 2 with
      | none => (-1, s)
      | some i =>
        let pcb := s.pcb_mem a
        let d := pcb.fda.getD i bad_descriptor
        let d1 := { d with file_pos := 0, flags := 1 }
        let d_rtc := { d1 with fops_table_ptr := fops_jump_table_t.rtc_table }
        let d_dir := { d1 with fops_table_ptr := fops_jump_table_t.directory_table }
        let d_file := { d1 with fops_table_ptr := fops_jump_table_t.file_table
                                inode := dentry.inode }
        if dentry.ftype = 0 then
          ((i : Int), (RTC_open (set_pcb s a { pcb with fda := pcb.fda.set i d_rtc })).2)
        else if dentry.ftype = 1 then
          ((i : Int), set_pcb s a { pcb with fda := pcb.fda.set i d_dir })
        else if dentry.ftype = 2 then
          ((i : Int), set_pcb s a { pcb with fda := pcb.fda.set i d_file })
        else ((i : Int), set_pcb s a { pcb with fda := pcb.fda.set i d1 })

/-! ## idt.c: `halt_wrapper` -/

/-- Translation of `halt_wrapper` (idt.c lines 173-176). -/
def halt_wrapper (s : kernel_state) (stack : Nat → Nat) : halt_result :=
  halt { s with exception_flag := 1 } 255 stack

/-! ## paging.c: `init_paging`; keyboard.c: `init_keyboard` -/

/-- Translation of `init_paging` (paging.c lines 29-128).  The first loop
blanks the directory, the second fills the two page tables (slots `0xB8` to
`0xBB` of the kernel table present), entries 0 and 1 are then written, and the
last loop blanks the entries from 2 on again.  Entry 0 is written through the
4 KiB variant, whose `page_table_addr` is the address of `page_table_one`
shifted right by 12. -/
def init_paging (s : kernel_state) : kernel_state :=
  let first_loop : Nat → page_dir_desc_t := fun i =>
    if i < ONE_KB then
      { present := 0, read_write := 1, user_supervisor := 1, page_write_through := 0
        page_cache_disabled := 1, accessed := 0, dirty := 0, page_size := 1, global_bit := 0
        available := 0, page_attr_index := 0, reserved := 0, base_addr := i % 1024 }
    else s.page_directory i
  let page : Nat → page_tab_desc_t := fun i =>
    { present := 0, read_write := 1, user_supervisor := 1, page_write_through := 0
      page_cache_disabled := 0, accessed := 0, dirty := 0, page_attr_tab_index := 0
      global_bit := 0, avail := 0, page_base_address := i }
  let entry_zero : page_dir_desc_t :=
    { first_loop 0 with
      present := 1, read_write := 1, user_supervisor := 0, page_write_through := 0
      page_cache_disabled := 0, accessed := 0, dirty := 0, page_size := 0, global_bit := 0
      available := 0
      page_attr_index := (s.page_table_one_addr / 4096) % 2
      reserved := (s.page_table_one_addr / 4096 / 2) % 512
      base_addr := (s.page_table_one_addr / 4096 / 1024) % 1024 }
  let entry_one : page_dir_desc_t :=
    { present := 1, read_write := 1, user_supervisor := 0, page_write_through := 0
      page_cache_disabled := 1, accessed := 0, dirty := 0, page_size := 1, global_bit := 1
      available := 0, page_attr_index := 0, reserved := 0, base_addr := 1 }
  { s with
    user_video_table := fun i => if i < ONE_KB then page i else s.user_video_table i
    page_table_one := fun i =>
      if i < ONE_KB then
        (if i ≥ VIDMEM_PAGE_BASE ∧ i ≤ VIDMEM_PAGE_BASE + 3 then { page i with present := 1 }
         else page i)
      else s.page_table_one i
    page_directory := fun i =>
      if 2 ≤ i ∧ i < ONE_KB then
        { present := 0, read_write := 1, user_supervisor := 0, page_write_through := 0
          page_cache_disabled := 0, accessed := 0, dirty := 0, page_size := 1, global_bit := 0
          available := 0, page_attr_index := 0, reserved := 0, base_addr := i % 1024 }
      else if i = 0 then entry_zero
      else if i = 1 then entry_one
      else first_loop i }

/-- Translation of `init_keyboard` (keyboard.c lines 18-21): the keyboard line
of the interrupt controller is enabled and its handler installed. -/
def init_keyboard (s : kernel_state) : kernel_state :=
  { s with keyboard_irq := true }

/-- Modelled from the spec: `printf` of lib.c, the console renderer the spec
leaves external; the call is recorded in the console trace. -/
def printf (s : kernel_state) (format : String) (args : List Int) : kernel_state :=
  { s with console := s.console ++ [console_event.printf format args] }

/-! ## scheduler.c -/

/-- How a call of `scheduler` ends: it returns to the interrupted context
(the next terminal is not booted yet), it has switched to the stack of the
next process, the `execute("shell")` of the bootstrap has entered the new
shell, or it stores through the `NULL` pointer `curr_pcb` (line 46). -/
inductive scheduler_result where
  | returned (s : kernel_state)
  | switched (s : kernel_state)
  | entered_user (entry : Nat) (s : kernel_state)
  | null_store (s : kernel_state)

/-- Lines 44-76 of `scheduler`: the stack registers are saved in the PCB at
`curr_pcb`, the scheduled terminal advances, and, when the next terminal has a
PCB, the user video page is presented, the user program page, the TSS and the
stack registers are switched to the next process. -/
def scheduler_switch (s : kernel_state) (curr_pcb : Nat) : scheduler_result :=
  if curr_pcb = 0 then scheduler_result.null_store s
  else
    let s1 := set_pcb s curr_pcb
      { s.pcb_mem curr_pcb with curr_esp := s.reg_esp, curr_ebp := s.reg_ebp }
    let s2 := { s1 with scheduled_terminal := (s1.scheduled_terminal + 1) % MAX_TERMINALS }
    if (s2.terminals s2.scheduled_terminal).terminal_pcb = 0 then scheduler_result.returned s2
    else
      let s3 := set_user_video_page s2 1
      let next_pcb := (s3.terminals s3.scheduled_terminal).terminal_pcb
      let s4 := set_user_prog_page s3 (s3.pcb_mem next_pcb).process_id 1
      let s5 := { s4 with
        tss_esp0 := to_uint32 ((EIGHT_MB : Int)
          - (((s4.pcb_mem next_pcb).process_id * EIGHT_KB : Nat) : Int) - 4)
        tss_ss0 := KERNEL_DS }
      scheduler_result.switched
        { s5 with reg_esp := (s5.pcb_mem next_pcb).curr_esp
                  reg_ebp := (s5.pcb_mem next_pcb).curr_ebp }

/-- Translation of `scheduler` (scheduler.c lines 18-78).  `temp_pcb` is the
address of the local `temp_pcb` of the bootstrap branch and `stack` gives the
bytes of the uninitialised locals of the `execute` it calls.  When that
`execute` returns, the function goes on to line 46 with `curr_pcb` still
`NULL`. -/
def scheduler (s : kernel_state) (temp_pcb : Nat) (stack : Nat → Nat) : scheduler_result :=
  let curr_pcb := (s.terminals s.scheduled_terminal).terminal_pcb
  if curr_pcb = 0 ∧ s.shell_count < 3 then
    let s1 := set_pcb s temp_pcb
      { s.pcb_mem temp_pcb with curr_esp := s.reg_esp, curr_ebp := s.reg_ebp }
    let s2 := { s1 with shell_count := s1.shell_count + 1 }
    let s3 := set_terminal s2 s2.scheduled_terminal
      { s2.terminals s2.scheduled_terminal with terminal_pcb := temp_pcb }
    let s4 := set_terminal s3 s3.scheduled_terminal
      { s3.terminals s3.scheduled_terminal with
        last_assigned_pid := (s3.scheduled_terminal : Int) }
    let s5 := switch_visible_terminal s4 s4.scheduled_terminal
    let s6 := if s5.shell_count = 3 then init_keyboard s5 else s5
    let s7 := printf s6 "Terminal %d booting...\n" [s6.shell_count]
    match execute s7 (some shell_command) stack with
    | execute_result.entered_user entry s8 => scheduler_result.entered_user entry s8
    | execute_result.returned _ s8 => scheduler_switch s8 curr_pcb
  else scheduler_switch s curr_pcb

/-- The state a call of `scheduler` leaves. -/
def scheduler_result.state : scheduler_result → kernel_state
  | scheduler_result.returned s => s
  | scheduler_result.switched s => s
  | scheduler_result.entered_user _ s => s
  | scheduler_result.null_store s => s

/-- A run of timer interrupts, one call of `scheduler` per tick, between which
user code runs without entering the kernel.  Each tick comes with the stack
registers at the moment `scheduler` reads them and the address of its local
`temp_pcb`; the run stops (`none`) at a store through `NULL`. -/
def scheduler_run (stack : Nat → Nat) : List (Nat × Nat × Nat) → kernel_state →
    Option kernel_state
  | [], s => some s
  | (esp, ebp, temp_pcb) :: rest, s =>
    match scheduler { s with reg_esp := esp, reg_ebp := ebp } temp_pcb stack with
    | scheduler_result.null_store _ => none
    | r => scheduler_run stack rest r.state

/-! ## Specification-side notions for names -/

/-- The string held in a byte array: its bytes up to the first NUL. -/
def c_string (l : List Nat) : List Nat := l.takeWhile (fun c => c != 0)

/-- Two byte arrays hold the same name when their strings agree over at most
`FNAME_LENGTH` bytes (the comparison the specification asks of a lookup). -/
def same_name (a b : List Nat) : Prop :=
  (c_string a).take FNAME_LENGTH = (c_string b).take FNAME_LENGTH

/-! ## Specification-side notions for the descriptor calls -/

/-- The dispatch record the specification assigns to a file type: clock for
type 0, directory for type 1, regular file for type 2. -/
def dispatch_of_type (ftype : Nat) : fops_jump_table_t :=
  if ftype = 0 then fops_jump_table_t.rtc_table
  else if ftype = 1 then fops_jump_table_t.directory_table
  else fops_jump_table_t.file_table

/-- The descriptor the specification expects in a slot after `open` of a
dentry `d` of type 0, 1 or 2: in use, position 0, the dispatch record of the
type, and the dentry's inode for a regular file (for the other two types the
inode field keeps what the slot held). -/
def opened_descriptor (old : file_descriptor_t) (d : dentry_t) : file_descriptor_t :=
  { fops_table_ptr := dispatch_of_type d.ftype
    inode := if d.ftype = 2 then d.inode else old.inode
    file_pos := 0
    flags := 1 }

/-- A call of `open` or `close`, as a user program issues them. -/
inductive fd_call where
  | open_call (filename : Option (List Nat))
  | close_call (fd : Int)

/-- The state after a sequence of `open` and `close` calls. -/
def run_fd_calls (s : kernel_state) : List fd_call → kernel_state
  | [] => s
  | fd_call.open_call filename :: rest => run_fd_calls (sys_open s filename).2 rest
  | fd_call.close_call fd :: rest => run_fd_calls (close s fd).2 rest

/-- A scan code of a key that types one printable character: a key press
(below `0x3E`) whose table entry is a printable character. -/
def printable_key (scan_code : Nat) : Prop :=
  scan_code < 0x3E ∧ 32 ≤ scan_code_to_ascii.getD scan_code 0

/-- The character a printable key types under the given caps-lock and shift
state: letters are capitalised when exactly one of the two is on, and shift
maps the number and punctuation rows to their shifted counterparts. -/
def key_char (caps shift : Bool) (scan_code : Nat) : Nat :=
  let key := scan_code_to_ascii.getD scan_code 0
  let key1 := if (xor caps shift) ∧ (key ≥ 97 ∧ key ≤ 122) then key - 32 else key
  if shift then shift_special key1 else key1

/-- The scan codes met while a line of printable characters is typed: printable
keys, the shift and caps-lock presses, and every release code. -/
def typing_code (scan_code : Nat) : Prop :=
  printable_key scan_code ∨ scan_code ≥ 0x3E ∨ scan_code = 0x2A ∨ scan_code = 0x36
    ∨ scan_code = 0x3A

/-- The printable characters a sequence of scan codes types, starting from the
given caps-lock, left-shift and right-shift state. -/
def typed_chars : Bool → Bool → Bool → List Nat → List Nat
  | _, _, _, [] => []
  | caps, lshift, rshift, sc :: rest =>
    if sc = 0x2A then typed_chars caps true rshift rest
    else if sc = 0xAA then typed_chars caps false rshift rest
    else if sc = 0x36 then typed_chars caps lshift true rest
    else if sc = 0xB6 then typed_chars caps lshift false rest
    else if sc = 0x3A then typed_chars (!caps) lshift rshift rest
    else if sc < 0x3E ∧ 32 ≤ scan_code_to_ascii.getD sc 0 then
      key_char caps (lshift || rshift) sc :: typed_chars caps lshift rshift rest
    else typed_chars caps lshift rshift rest

/-- The state of a terminal `v`, visible and scheduled, that sits in
`terminal_read` with buffer size `n` while the characters `acc` have been
typed and Enter has not: the line buffer holds `acc` followed by zero bytes. -/
def line_typed (s : kernel_state) (v : Nat) (n : Int) (acc : List Nat) : Prop :=
  s.visible_terminal = v ∧ s.scheduled_terminal = v ∧ s.terminal_buf_n_bytes = n
  ∧ s.ctrl_flag = false
  ∧ (s.terminals v).in_terminal_read = 1 ∧ (s.terminals v).kb_enter_flag = 0
  ∧ (s.terminals v).kb_buf_i = (acc.length : Int)
  ∧ (s.terminals v).kb_buf = acc ++ List.replicate (KEYBOARD_BUF_SIZE - acc.length) 0

/-! ## Specification-side notions for runs of calls -/

/-- The state in which `terminal_read` sits in its wait loop (terminal.c
lines 98-104) once the keyboard interrupts `scan_codes` have been handled
there: `terminal_buf_n_bytes` and `in_terminal_read` are set at entry. -/
def terminal_read_wait (s : kernel_state) (scan_codes : List Nat) (n_bytes : Int) :
    kernel_state :=
  let s1 := { s with terminal_buf_n_bytes := n_bytes }
  let s2 := set_terminal s1 s1.scheduled_terminal
    { s1.terminals s1.scheduled_terminal with in_terminal_read := 1 }
  keyboard_run s2 scan_codes

/-- A step of a run of the keyboard and the terminal reader: a keyboard
interrupt with its scan code, or a call of `terminal_read` together with the
keyboard interrupts that arrive while it waits. -/
inductive kb_call where
  | key (scan_code : Nat)
  | read (buf : Option (Nat → Nat)) (n_bytes : Int) (scan_codes : List Nat)

/-- The state after one step of a run; a `terminal_read` that is still blocked
after its interrupts leaves the state of its wait loop. -/
def run_kb_call (s : kernel_state) : kb_call → kernel_state
  | kb_call.key scan_code => keyboard_handler s scan_code
  | kb_call.read buf n_bytes scan_codes =>
    match terminal_read s scan_codes buf n_bytes with
    | some r => r.state
    | none => terminal_read_wait s scan_codes n_bytes

/-- The state after a run of keyboard interrupts and `terminal_read` calls. -/
def run_kb_calls (s : kernel_state) (calls : List kb_call) : kernel_state :=
  calls.foldl run_kb_call s

/-- A call of the clock driver: `RTC_open`, `RTC_write` with its buffer,
`RTC_close`, `RTC_read` with the number of interrupts that arrive while it
waits, or one `RTC_interrupt`. -/
inductive rtc_call where
  | rtc_open
  | rtc_write (fd : Int) (buf : Option (Nat → Nat)) (n_bytes : Int)
  | rtc_close (fd : Int)
  | rtc_read (ticks : Nat)
  | rtc_interrupt

/-- The state after one call of the clock driver; an `RTC_read` that is still
blocked after its interrupts leaves the state those interrupts produced. -/
def run_rtc_call (s : kernel_state) : rtc_call → kernel_state
  | rtc_call.rtc_open => (RTC_open s).2
  | rtc_call.rtc_write fd buf n_bytes =>
    match RTC_write s fd buf n_bytes with
    | some r => r.2
    | none => s
  | rtc_call.rtc_close fd => (RTC_close s fd).2
  | rtc_call.rtc_read ticks =>
    match RTC_read s ticks with
    | some r => r.2
    | none => Nat.iterate RTC_interrupt ticks s
  | rtc_call.rtc_interrupt => RTC_interrupt s

/-- The state after a run of calls of the clock driver. -/
def run_rtc_calls (s : kernel_state) (calls : List rtc_call) : kernel_state :=
  calls.foldl run_rtc_call s

/-- Successive `read` calls of `nbytes` bytes each on descriptor `fd`, `count`
of them, into a fresh buffer: for each call the value it returns and the
`file_pos` of the descriptor after it (`none` if a call blocks). -/
def read_chunks (fd : Int) (nbytes : Int) : Nat → kernel_state → Option (List (Int × Nat))
  | 0, _ => some []
  | count + 1, s =>
    match read s fd (some (fun _ => 0)) nbytes [] 0 with
    | none => none
    | some r =>
      (read_chunks fd nbytes count r.state).map (fun rest =>
        (r.ret, ((r.state.pcb_mem (current_pcb_addr r.state)).fda.getD fd.toNat
          bad_descriptor).file_pos) :: rest)

/-- The condition on the virtual clock of a terminal record: when the clock
is active its frequency is one of 2, 4, ..., 128 and its countdown lies between
1 and `1024 / rtc_freq`. -/
def rtc_ok (t : terminal_t) : Prop :=
  t.rtc_active ≠ 0 →
    t.rtc_freq ∈ [2, 4, 8, 16, 32, 64, 128]
    ∧ 1 ≤ t.rtc_countdown ∧ t.rtc_countdown ≤ HIGHEST_FREQ / t.rtc_freq

/-- The condition on the line buffer of a terminal record that every step of
a run keeps.  `past` says that an access to this line buffer was out of range
at some earlier state; the record of such accesses, `kb_oob`, only grows, so
it is non-empty then.  The index is never negative in the model and, as long
as `kb_oob` is empty, it is at most 128, and at most 127 while no Enter is
pending. -/
def kb_index_ok (past : Prop) (t : terminal_t) : Prop :=
  (past → t.kb_oob ≠ [])
  ∧ 0 ≤ t.kb_buf_i
  ∧ (t.kb_oob = [] →
      t.kb_buf_i ≤ (KEYBOARD_BUF_SIZE : Int)
      ∧ (t.kb_enter_flag = 0 → t.kb_buf_i ≤ (KEYBOARD_BUF_CHAR_MAX : Int)))

/-! ## Example file system -/

/-- A name padded with NUL bytes to the 32 bytes of a dentry name field. -/
def pad_name (name : List Nat) : List Nat := name ++ List.replicate (FNAME_LENGTH - name.length) 0

/-- An example image with three regular files: `shell` (inode 0) and `cat`
(inode 1) are executables of 40 bytes whose header starts `7F 45 4C 46` and
whose bytes 24..27 hold the entry point `0x080482E8`; `note` (inode 2) is an
8-byte file that starts `7F 45 4C 47`. -/
def fs_demo : file_system :=
  { num_dentries := 3
    num_inodes := 3
    dentries := fun i =>
      if i = 0 then { fname := pad_name [115, 104, 101, 108, 108], ftype := 2, inode := 0 }
      else if i = 1 then { fname := pad_name [99, 97, 116], ftype := 2, inode := 1 }
      else { fname := pad_name [110, 111, 116, 101], ftype := 2, inode := 2 }
    fs_inode := fun i =>
      if i = 2 then { file_size := 8, index_num := fun _ => 2 }
      else { file_size := 40, index_num := fun _ => i }
    fs_data_block := fun blk k =>
      if blk = 2 then [0x7f, 0x45, 0x4c, 0x47, 10, 10, 10, 10].getD k 0
      else if k = 0 then 0x7f else if k = 1 then 0x45 else if k = 2 then 0x4c
      else if k = 3 then 0x46
      else if k = 24 then 0xE8 else if k = 25 then 0x82 else if k = 26 then 0x04
      else if k = 27 then 0x08 else 0 }

/-- The state an `execute_result` carries. -/
def execute_result.state : execute_result → kernel_state
  | execute_result.returned _ s => s
  | execute_result.entered_user _ s => s

/-- The value an `execute_result` hands back to the caller of `execute`, if
the call returned. -/
def execute_result.ret : execute_result → Option Int
  | execute_result.returned r _ => some r
  | execute_result.entered_user _ _ => none

/-- The state a `halt_result` carries. -/
def halt_result.state : halt_result → kernel_state
  | halt_result.returned_to_execute _ s => s
  | halt_result.entered_user _ s => s

/-- The status a `halt_result` hands to the parent's `execute`, if any. -/
def halt_result.status : halt_result → Option Int
  | halt_result.returned_to_execute st _ => some st
  | halt_result.entered_user _ _ => none

/-! ## Example states -/

/-- The address at which `execute` places the PCB of process `pid`
(system_calls.c line 132). -/
def pcb_addr (pid : Nat) : Nat := EIGHT_MB - (pid + 1) * EIGHT_KB

/-- A file-descriptor array as `execute` leaves it: stdin, stdout and six free
slots. -/
def fresh_fda : List file_descriptor_t :=
  [{ fops_table_ptr := fops_jump_table_t.stdin_table, inode := 0, file_pos := 0, flags := 1 },
   { fops_table_ptr := fops_jump_table_t.stdout_table, inode := 0, file_pos := 0, flags := 1 }]
  ++ List.replicate 6
    { fops_table_ptr := fops_jump_table_t.bad_table, inode := 0, file_pos := 0, flags := 0 }

/-- The PCB of the base shell of terminal `i` (its own parent, no arguments). -/
def base_shell_pcb (i : Nat) : pcb_t :=
  { fda := fresh_fda
    process_id := i
    parent_process_id := i
    parent_esp := 0
    parent_ebp := 0
    curr_esp := 0
    curr_ebp := 0
    called_vidmap := 0
    arg := List.replicate MAX_ARGS 0
    parent_pcb := 0 }

/-- A directory entry as `init_paging` leaves the entries from 2 on. -/
def blank_pde (i : Nat) : page_dir_desc_t :=
  { present := 0, read_write := 1, user_supervisor := 0, page_write_through := 0
    page_cache_disabled := 0, accessed := 0, dirty := 0, page_size := 1, global_bit := 0
    available := 0, page_attr_index := 0, reserved := 0, base_addr := i }

/-- A table entry as `init_paging` leaves the user video table. -/
def blank_pte (i : Nat) : page_tab_desc_t :=
  { present := 0, read_write := 1, user_supervisor := 1, page_write_through := 0
    page_cache_disabled := 0, accessed := 0, dirty := 0, page_attr_tab_index := 0
    global_bit := 0, avail := 0, page_base_address := i }

/-- A terminal record as `init_terminal` leaves it. -/
def blank_terminal (i : Nat) : terminal_t :=
  { terminal_pcb := 0, terminal_id := i, cursor_x := 0, cursor_y := 0, last_assigned_pid := -1
    kb_buf_i := 0, kb_enter_flag := 0, kb_buf := List.replicate KEYBOARD_BUF_SIZE 0
    in_terminal_read := 0, rtc_active := 0, rtc_virt_interrupt := 0, rtc_freq := 0
    rtc_countdown := 0, kb_oob := [] }

/-- An example state: the three base shells are running (PIDs 0, 1, 2), one
per terminal, terminal 0 is both visible and scheduled, no key has been typed,
and the file system is `fs`. -/
def three_shells (fs : file_system) : kernel_state :=
  { boot := fs
    processes := [1, 1, 1, 0, 0, 0]
    terminals := fun i =>
      if i < MAX_TERMINALS then
        { blank_terminal i with terminal_pcb := pcb_addr i, last_assigned_pid := i }
      else blank_terminal i
    scheduled_terminal := 0
    visible_terminal := 0
    shell_count := 3
    terminal_buf_n_bytes := 128
    left_shift_flag := false
    right_shift_flag := false
    ctrl_flag := false
    caps_flag := false
    alt_flag := false
    exception_flag := 0
    pcb_mem := fun a =>
      if a = pcb_addr 0 then base_shell_pcb 0
      else if a = pcb_addr 1 then base_shell_pcb 1
      else if a = pcb_addr 2 then base_shell_pcb 2
      else base_shell_pcb 0
    pcb_tail := fun _ _ => 0xCC
    tss_esp0 := EIGHT_MB - 0 * EIGHT_KB - 4
    tss_ss0 := KERNEL_DS
    page_directory := fun i =>
      if i = USER_PAGE_BASE_ADDR then
        { blank_pde i with present := 1, user_supervisor := 1, page_cache_disabled := 1
                           base_addr := 2 }
      else blank_pde i
    page_table_one := fun i =>
      if VIDMEM_PAGE_BASE ≤ i ∧ i ≤ VIDMEM_PAGE_BASE + 3 then { blank_pte i with present := 1 }
      else blank_pte i
    user_video_table := blank_pte
    user_video_table_addr := 0x500000
    page_table_one_addr := 0x501000
    keyboard_irq := true
    video_frames := fun _ _ => 0
    user_pages := fun _ _ => 0
    user_mem := fun _ => 0
    console := []
    screen_x := 0
    screen_y := 0
    reg_esp := EIGHT_MB - 64
    reg_ebp := EIGHT_MB - 32 }

/-- An example image with a directory, the clock device and two regular
files: dentry 0 is `.` (type 1), dentry 1 is `rtc` (type 0), dentry 2 is
`shell` (type 2, inode 0, an executable as in `fs_demo`), dentry 3 is `note`
(type 2, inode 2, the 8-byte file of `fs_demo`). -/
def fs_dir : file_system :=
  { fs_demo with
    num_dentries := 4
    dentries := fun i =>
      if i = 0 then { fname := pad_name [46], ftype := 1, inode := 0 }
      else if i = 1 then { fname := pad_name [114, 116, 99], ftype := 0, inode := 0 }
      else if i = 2 then { fname := pad_name [115, 104, 101, 108, 108], ftype := 2, inode := 0 }
      else { fname := pad_name [110, 111, 116, 101], ftype := 2, inode := 2 } }

/-- An example of the kernel globals before the initialisers run: the statics
are zero, as is the memory the PCBs will occupy, and the file system is `fs`. -/
def zero_state (fs : file_system) : kernel_state :=
  { boot := fs
    processes := List.replicate MAX_PROCESSES 0
    terminals := fun _ =>
      { terminal_pcb := 0, terminal_id := 0, cursor_x := 0, cursor_y := 0
        last_assigned_pid := 0, kb_buf_i := 0, kb_enter_flag := 0
        kb_buf := List.replicate KEYBOARD_BUF_SIZE 0, in_terminal_read := 0, rtc_active := 0
        rtc_virt_interrupt := 0, rtc_freq := 0, rtc_countdown := 0, kb_oob := [] }
    scheduled_terminal := 0
    visible_terminal := 0
    shell_count := 0
    terminal_buf_n_bytes := 128
    left_shift_flag := false
    right_shift_flag := false
    ctrl_flag := false
    caps_flag := false
    alt_flag := false
    exception_flag := 0
    pcb_mem := fun _ =>
      { fda := List.replicate 8
          { fops_table_ptr := fops_jump_table_t.bad_table, inode := 0, file_pos := 0, flags := 0 }
        process_id := 0, parent_process_id := 0, parent_esp := 0, parent_ebp := 0
        curr_esp := 0, curr_ebp := 0, called_vidmap := 0
        arg := List.replicate MAX_ARGS 0, parent_pcb := 0 }
    pcb_tail := fun _ _ => 0
    tss_esp0 := 0
    tss_ss0 := KERNEL_DS
    page_directory := fun _ =>
      { present := 0, read_write := 0, user_supervisor := 0, page_write_through := 0
        page_cache_disabled := 0, accessed := 0, dirty := 0, page_size := 0, global_bit := 0
        available := 0, page_attr_index := 0, reserved := 0, base_addr := 0 }
    page_table_one := fun _ =>
      { present := 0, read_write := 0, user_supervisor := 0, page_write_through := 0
        page_cache_disabled := 0, accessed := 0, dirty := 0, page_attr_tab_index := 0
        global_bit := 0, avail := 0, page_base_address := 0 }
    user_video_table := fun _ =>
      { present := 0, read_write := 0, user_supervisor := 0, page_write_through := 0
        page_cache_disabled := 0, accessed := 0, dirty := 0, page_attr_tab_index := 0
        global_bit := 0, avail := 0, page_base_address := 0 }
    user_video_table_addr := 0x500000
    page_table_one_addr := 0x501000
    keyboard_irq := false
    video_frames := fun _ _ => 0
    user_pages := fun _ _ => 0
    user_mem := fun _ => 0
    console := []
    screen_x := 0
    screen_y := 0
    reg_esp := EIGHT_MB - 64
    reg_ebp := EIGHT_MB - 32 }

/-- An example of the state in which the timer starts to tick: on `zero_state`
the terminals are initialised and `init_paging` has run. -/
def boot_state (fs : file_system) : kernel_state :=
  init_paging (init_terminal (zero_state fs))

/-- Example stack registers and `temp_pcb` address for a timer tick that
arrives on the kernel stack of process `pid`. -/
def tick_on (pid : Nat) : Nat × Nat × Nat :=
  (EIGHT_MB - pid * EIGHT_KB - 0x200, EIGHT_MB - pid * EIGHT_KB - 0x40,
   EIGHT_MB - pid * EIGHT_KB - 0x1C0)

/-- The first five timer ticks after `boot_state`: terminal 0 is booted, the
scheduler advances to terminal 1, boots it, advances to terminal 2 and boots
it.  Each tick interrupts the shell booted last (the first, the kernel). -/
def boot_ticks : List (Nat × Nat × Nat) :=
  [tick_on 0, tick_on 0, tick_on 0, tick_on 1, tick_on 1]

/-- An example state for the video pages: `boot_state` in which every byte of
the physical frame number `f` holds `f`, so that the frames can be told apart. -/
def frames_demo : kernel_state :=
  { boot_state fs_demo with video_frames := fun f _ => f }

end Kernel

namespace Kernel

/-! ## Properties of `read_data` -/

/-- The loop of `read_data` adds `min remaining (file_size + 1 - offset)` to the
byte count when it starts at an offset not beyond `file_size`: it stops one
byte after the end of the file, not at the end. -/
theorem read_data_loop_bytes_read (fs : file_system) (ino : inode_t)
    (hsz : ino.file_size + 1 < U32) :
    ∀ (remaining : Nat) (st : read_data_state), st.offset ≤ ino.file_size + 1 →
      (read_data_loop fs ino remaining st).bytes_read
        = st.bytes_read + min remaining (ino.file_size + 1 - st.offset) := by
  intro remaining
  induction remaining with
  | zero => intro st _; simp [read_data_loop]
  | succ r ih =>
    intro st hst
    unfold read_data_loop
    by_cases h : st.offset > ino.file_size
    · have : ino.file_size + 1 - st.offset = 0 := by omega
      simp [h, this]
    · have hlt : st.offset + 1 < U32 := by omega
      simp only [h, if_false]
      rw [ih _ (by simp only [Nat.mod_eq_of_lt hlt]; omega)]
      simp only [Nat.mod_eq_of_lt hlt]
      omega

/-- The count `read_data` returns for a valid inode and an offset inside the
file: `min length (file_size + 1 - offset)`, one more than the bytes that
remain when `length` allows it. -/
theorem read_data_ret_eq (fs : file_system) (inode offset length : Nat) (b : Nat → Nat)
    (hino : inode < fs.num_inodes) (hoff : offset < (fs.fs_inode inode).file_size)
    (hsz : (fs.fs_inode inode).file_size + 1 < U32) :
    (read_data fs inode offset (some b) length).ret
      = ((min length ((fs.fs_inode inode).file_size + 1 - offset) : Nat) : Int) := by
  have h := read_data_loop_bytes_read fs (fs.fs_inode inode) hsz length
    { bytes_read := 0, offset := offset, buf := b, reads := [] } (by simp only; omega)
  simp only [read_data, ge_iff_le, not_le.mpr hino, if_false, not_le.mpr hoff]
  rw [h]
  simp

/-- C1 (evaluation at the failing input): on the 5-byte file, reading 10 bytes
from offset 0 returns 6, not `min 10 (5 - 0) = 5`, and the sixth byte stored in
the caller's buffer was fetched from file offset 5, which is not below the file
size. -/
theorem read_data_reads_one_past_end :
    (read_data fs_five 0 0 (some (fun _ => 0)) 10).ret = 6
    ∧ (read_data fs_five 0 0 (some (fun _ => 0)) 10).reads = [0, 1, 2, 3, 4, 5]
    ∧ ((read_data fs_five 0 0 (some (fun _ => 0)) 10).buf.map (fun b => b 5)) = some 70
    ∧ (read_data fs_five 0 0 (some (fun _ => 0)) 10).ret ≠ min 10 (5 - 0) := by
  refine ⟨by decide, by decide, by decide, by decide⟩

end Kernel

namespace Kernel

/-! ## `terminal_read` -/

/-- C2 (evaluation at the failing input): ten letters are typed before the
read begins, then `terminal_read` is called with `n_bytes = 5` and Enter is
pressed while it waits.  The call returns 11, although it wrote only five
bytes of the line (five letters, no newline) to the caller's buffer: the
bytes of the caller's buffer from index 5 on keep their old value `255`. -/
theorem terminal_read_returns_more_than_n :
    (terminal_read (keyboard_run (three_shells fs_five) (List.replicate 10 0x1E)) [0x1C]
        (some (fun _ => 255)) 5).map
      (fun r => (r.ret, r.buf.map (fun b => (List.range 12).map b)))
    = some (11, some [97, 97, 97, 97, 97, 255, 255, 255, 255, 255, 255, 255]) := by
  decide

end Kernel

namespace Kernel

/-! ## `terminal_write` -/

/-- The output loop of `terminal_write` only extends the console trace. -/
theorem terminal_write_loop_frame (buf : Nat → Nat) :
    ∀ (count i : Nat) (s : kernel_state),
      (terminal_write_loop buf count i s).shell_count = s.shell_count
      ∧ (terminal_write_loop buf count i s).terminals = s.terminals
      ∧ (terminal_write_loop buf count i s).scheduled_terminal = s.scheduled_terminal := by
  intro count
  induction count with
  | zero => intro i s; simp [terminal_write_loop]
  | succ c ih =>
    intro i s
    simp only [terminal_write_loop]
    obtain ⟨h1, h2, h3⟩ := ih (i + 1) (putc s (buf i) 0)
    exact ⟨h1.trans rfl, h2.trans rfl, h3.trans rfl⟩

/-- When all three shells are booted and the line buffer of the scheduled
terminal begins with the prompt, a `terminal_write` of a buffer that begins
with the prompt does not return at any recursion depth. -/
theorem terminal_write_diverges (s : kernel_state) (hc : s.shell_count = 3)
    (hk : strncmp (bytes_at (s.terminals s.scheduled_terminal).kb_buf)
            (bytes_at shell_prompt) 7 0 = 0)
    (hi : 0 ≤ (s.terminals s.scheduled_terminal).kb_buf_i) :
    ∀ (fuel : Nat) (s1 : kernel_state) (b : Nat → Nat) (n : Int),
      s1.shell_count = s.shell_count → s1.terminals = s.terminals →
      s1.scheduled_terminal = s.scheduled_terminal →
      strncmp b (bytes_at shell_prompt) 7 0 = 0 → 0 ≤ n →
      terminal_write fuel s1 (some b) n = none := by
  intro fuel
  induction fuel with
  | zero => intro s1 b n _ _ _ _ _; rfl
  | succ f ih =>
    intro s1 b n h1 h2 h3 hb hn
    obtain ⟨g1, g2, g3⟩ := terminal_write_loop_frame b n.toNat 0 s1
    simp only [terminal_write, not_lt.mpr hn, if_false, hb, g1, h1, hc, and_self, if_true]
    rw [ih (terminal_write_loop b n.toNat 0 s1) _ _ (g1.trans h1) (g2.trans h2) (g3.trans h3)]
    · rw [g2, g3, h2, h3]; exact hk
    · rw [g2, g3, h2, h3]; exact hi

/-- C3 (evaluation at the failing input): with the three shells booted, the
user types `391OS> ` (3, 9, 1, Shift+o, Shift+s, Shift+., space) while no read
is pending; the next `terminal_write` of the seven prompt bytes then recurses
on the line buffer without end: at no recursion depth does it return. -/
theorem terminal_write_prompt_in_line_buffer_never_returns :
    ∀ fuel : Nat,
      terminal_write fuel
        (keyboard_run (three_shells fs_five) [0x04, 0x0A, 0x02, 0x2A, 0x18, 0x1F, 0x34, 0xAA, 0x39])
        (some (bytes_at shell_prompt)) 7 = none := by
  intro fuel
  exact terminal_write_diverges
    (keyboard_run (three_shells fs_five) [0x04, 0x0A, 0x02, 0x2A, 0x18, 0x1F, 0x34, 0xAA, 0x39])
    (by decide) (by decide) (by decide) fuel _ _ 7 rfl rfl rfl (by decide) (by decide)

/-- When the written buffer does not begin with the prompt, or not all three
shells are booted, `terminal_write` returns `n_bytes` at depth one. -/
theorem terminal_write_returns_n (s : kernel_state) (b : Nat → Nat) (n : Int) (hn : 0 ≤ n)
    (h : ¬ (strncmp b (bytes_at shell_prompt) 7 0 = 0 ∧ s.shell_count = 3)) :
    (terminal_write 1 s (some b) n).map Prod.fst = some n := by
  obtain ⟨g1, _, _⟩ := terminal_write_loop_frame b n.toNat 0 s
  simp only [terminal_write, not_lt.mpr hn, if_false, g1, h, Option.map]

end Kernel

namespace Kernel

/-! ## `RTC_write` -/

set_option maxRecDepth 100000 in
/-- The value `RTC_write` returns depends only on the first byte of the
buffer: it is `0` for the bytes 2, 4, 8, 16, 32, 64, 128 and `-1` otherwise. -/
theorem RTC_write_ret_byte :
    ∀ v : Fin 256,
      (if v.val % 2 ≠ 0 then some false
       else if v.val / 2 = 0 then some false
       else RTC_write_loop 33 (v.val / 2) 0 0)
      = some (decide (v.val ∈ [2, 4, 8, 16, 32, 64, 128])) := by
  decide

end Kernel

namespace Kernel

/-- C8: for a non-null buffer `RTC_write` returns 0 when its first byte is one
of 2, 4, 8, 16, 32, 64, 128 (exactly one bit set, and not bit 0) and returns -1
for every other byte value; for a null buffer it returns -1. -/
theorem RTC_write_accepts_exactly_the_single_bit_bytes (s : kernel_state) (fd n_bytes : Int)
    (b : Nat → Nat) :
    (RTC_write s fd (some b) n_bytes).map Prod.fst
        = some (if b 0 % 256 ∈ [2, 4, 8, 16, 32, 64, 128] then 0 else -1)
    ∧ (RTC_write s fd none n_bytes).map Prod.fst = some (-1) := by
  refine ⟨?_, rfl⟩
  have h := RTC_write_ret_byte ⟨b 0 % 256, Nat.mod_lt _ (by decide)⟩
  simp only at h
  unfold RTC_write
  simp only
  by_cases h1 : b 0 % 256 % 2 ≠ 0
  · rw [if_pos h1] at h
    rw [if_pos h1]
    have hm : ¬ (b 0 % 256 ∈ [2, 4, 8, 16, 32, 64, 128]) := by
      intro hmem
      have := Option.some.inj h
      simp [hmem] at this
    simp [hm]
  · rw [if_neg h1] at h
    rw [if_neg h1]
    by_cases h2 : b 0 % 256 / 2 = 0
    · rw [if_pos h2] at h
      rw [if_pos h2]
      have hm : ¬ (b 0 % 256 ∈ [2, 4, 8, 16, 32, 64, 128]) := by
        intro hmem
        have := Option.some.inj h
        simp [hmem] at this
      simp [hm]
    · rw [if_neg h2] at h
      rw [if_neg h2, h]
      by_cases hmem : b 0 % 256 ∈ [2, 4, 8, 16, 32, 64, 128]
      · simp [hmem]
      · simp [hmem]

/-- C7 (evaluation at the failing input): handed the 32-bit integer 512, the
value of the repository's own `test_RTC_write`, `RTC_write` looks at the low
byte only, which is 0: it returns -1 and leaves the state, `rtc_freq` and
`rtc_countdown` included, as it was.  The same happens for 256 and 1024. -/
theorem RTC_write_rejects_512_as_uint32 (s : kernel_state) (fd n_bytes : Int) :
    RTC_write s fd (some (uint32_bytes 512)) n_bytes = some (-1, s)
    ∧ RTC_write s fd (some (uint32_bytes 256)) n_bytes = some (-1, s)
    ∧ RTC_write s fd (some (uint32_bytes 1024)) n_bytes = some (-1, s) := by
  refine ⟨rfl, rfl, rfl⟩

end Kernel

namespace Kernel

/-! ## `RTC_interrupt` -/

end Kernel

namespace Kernel

/-! ## `vidmap` -/

/-- Below 128 MiB and above 132 MiB `vidmap` returns -1 and changes nothing. -/
theorem vidmap_rejects_beyond (s : kernel_state) (screen_start : Nat)
    (h : screen_start < ONE_TWO_EIGHT_MB ∨ ONE_THREE_TWO_MB < screen_start) :
    vidmap s screen_start = (some (-1), s) := by
  unfold vidmap
  rw [if_pos]
  rcases h with h | h
  · exact Or.inr h
  · exact Or.inl h

/-- C4 (evaluation at the failing input): for `screen_start = 0x08400000`, the
first address past the range, the bounds check of `vidmap` lets the call
through: it does not return -1; it sets `called_vidmap` in the current PCB and
marks directory entry 64 and slot 0 of the user video table present, both of
which were clear before; the store through the pointer then hits directory
entry 33, which is not present. -/
theorem vidmap_accepts_132MB :
    (vidmap (three_shells fs_demo) 0x08400000).1 ≠ some (-1)
    ∧ ((three_shells fs_demo).pcb_mem (current_pcb_addr (three_shells fs_demo))).called_vidmap = 0
    ∧ ((vidmap (three_shells fs_demo) 0x08400000).2.pcb_mem
        (current_pcb_addr (three_shells fs_demo))).called_vidmap = 1
    ∧ ((three_shells fs_demo).page_directory 64).present = 0
    ∧ ((vidmap (three_shells fs_demo) 0x08400000).2.page_directory 64).present = 1
    ∧ ((three_shells fs_demo).user_video_table 0).present = 0
    ∧ ((vidmap (three_shells fs_demo) 0x08400000).2.user_video_table 0).present = 1
    ∧ ((vidmap (three_shells fs_demo) 0x08400000).2.page_directory 33).present = 0 := by
  refine ⟨by decide, by decide, by decide, by decide, by decide, by decide, by decide, by decide⟩

/-! ## `getargs` -/

/-- C10 (evaluation at the failing input): after `execute("cat note")` the new
process calls `getargs` with a 128-byte buffer.  The call returns 0 and copies
128 bytes starting at `pcb->arg`: the offsets 100..127 it reads lie past the
100-byte array, and the caller receives the bytes stored there (`0xCC` in this
state) at `buf[100..127]`. -/
theorem getargs_reads_past_arg :
    (getargs (execute (three_shells fs_demo) (some [99, 97, 116, 32, 110, 111, 116, 101])
        (fun _ => 0)).state (some (fun _ => 0)) 128).ret = 0
    ∧ (getargs (execute (three_shells fs_demo) (some [99, 97, 116, 32, 110, 111, 116, 101])
        (fun _ => 0)).state (some (fun _ => 0)) 128).reads = List.range 128
    ∧ (getargs (execute (three_shells fs_demo) (some [99, 97, 116, 32, 110, 111, 116, 101])
        (fun _ => 0)).state (some (fun _ => 0)) 128).buf.map
          (fun b => [b 0, b 1, b 2, b 3, b 4, b 99, b 100, b 127])
        = some [110, 111, 116, 101, 0, 0, 0xCC, 0xCC]
    ∧ ¬ (∀ k ∈ (getargs (execute (three_shells fs_demo)
          (some [99, 97, 116, 32, 110, 111, 116, 101]) (fun _ => 0)).state
          (some (fun _ => 0)) 128).reads, k < MAX_ARGS) := by
  refine ⟨by decide, by decide, by decide, by decide⟩

end Kernel

namespace Kernel

/-! ## `execute`: auxiliary facts -/

/-- What a successful search for a free PID returns: a free slot, at most 5,
all slots before it being in use. -/
theorem find_next_pid_some (p : List Nat) :
    ∀ (count i n : Nat), find_next_pid p count i = some n →
      p.getD n 0 = 0 ∧ i ≤ n ∧ (∀ k, i ≤ k → k < n → p.getD k 0 ≠ 0) ∧ (i ≤ 5 → n ≤ 5) := by
  intro count
  induction count with
  | zero => intro i n h; simp [find_next_pid] at h
  | succ c ih =>
    intro i n h
    unfold find_next_pid at h
    by_cases h0 : p.getD i 0 = 0
    · rw [if_pos h0] at h
      have hn : i = n := Option.some.inj h
      subst hn
      exact ⟨h0, le_refl _, fun k h1 h2 => absurd h1 (by omega), fun h5 => h5⟩
    · rw [if_neg h0] at h
      by_cases h5 : i = MAX_PROCESSES - 1
      · rw [if_pos h5] at h; exact absurd h (by simp)
      · rw [if_neg h5] at h
        obtain ⟨a, b, c', d⟩ := ih (i + 1) n h
        refine ⟨a, by omega, ?_, ?_⟩
        · intro k hk1 hk2
          by_cases hki : k = i
          · rw [hki]; exact h0
          · exact c' k (by omega) hk2
        · intro hi5
          have : i ≠ 5 := h5
          exact d (by omega)

/-- A failed search for a free PID means that the slots inspected are all in
use. -/
theorem find_next_pid_none (p : List Nat) :
    ∀ (count i : Nat), find_next_pid p count i = none →
      ∀ k, i ≤ k → k < i + count → k ≤ 5 → p.getD k 0 ≠ 0 := by
  intro count
  induction count with
  | zero => intro i _ k h1 h2 _; omega
  | succ c ih =>
    intro i h k hk1 hk2 hk5
    unfold find_next_pid at h
    by_cases h0 : p.getD i 0 = 0
    · rw [if_pos h0] at h; exact absurd h (by simp)
    · rw [if_neg h0] at h
      by_cases h5 : i = MAX_PROCESSES - 1
      · have : i = 5 := h5
        have hki : k = i := by omega
        rw [hki]; exact h0
      · rw [if_neg h5] at h
        by_cases hki : k = i
        · rw [hki]; exact h0
        · exact ih (i + 1) h k (by omega) (by omega) hk5

/-- Reading the first four bytes of a file of at least four bytes delivers
`file_byte 0..3`. -/
theorem read_data_first_four (fs : file_system) (inode : Nat) (b : Nat → Nat)
    (h1 : inode < fs.num_inodes) (h2 : 4 ≤ (fs.fs_inode inode).file_size) :
    ∀ k, k < 4 → ((read_data fs inode 0 (some b) 4).buf.getD b) k = file_byte fs inode k := by
  have e1 : (0 + 1) % U32 = 1 := rfl
  have e2 : (1 + 1) % U32 = 2 := rfl
  have e3 : (2 + 1) % U32 = 3 := rfl
  have g0 : ¬ (0 > (fs.fs_inode inode).file_size) := by omega
  have g1 : ¬ (1 > (fs.fs_inode inode).file_size) := by omega
  have g2 : ¬ (2 > (fs.fs_inode inode).file_size) := by omega
  have g3 : ¬ (3 > (fs.fs_inode inode).file_size) := by omega
  have g4 : ¬ (0 ≥ (fs.fs_inode inode).file_size) := by omega
  intro k hk
  simp only [read_data, not_le.mpr h1, if_false, g4, read_data_loop, g0, g1, g2, g3, e1, e2, e3,
    Option.getD_some, file_byte, ge_iff_le]
  interval_cases k <;> simp

/-- The rewind of `execute` leaves the process table and the terminals alone
and maps directory entry 32, present, to `2 + last_assigned_pid` (as the bit
field keeps it). -/
theorem execute_rewind_spec (s : kernel_state) (n : Nat) :
    (execute_rewind s n).processes = s.processes
    ∧ (execute_rewind s n).terminals = s.terminals
    ∧ (execute_rewind s n).scheduled_terminal = s.scheduled_terminal
    ∧ ((execute_rewind s n).page_directory USER_PAGE_BASE_ADDR).present = 1
    ∧ ((execute_rewind s n).page_directory USER_PAGE_BASE_ADDR).base_addr
        = (2 + to_uint32 (s.terminals s.scheduled_terminal).last_assigned_pid) % 1024 := by
  refine ⟨rfl, rfl, rfl, ?_, ?_⟩
  · simp [execute_rewind, set_user_prog_page]
  · simp [execute_rewind, set_user_prog_page]

end Kernel

namespace Kernel

/-- When a free PID exists and the named file is found, a file whose first
four bytes are not the magic number makes `execute` return -1 from the rewound
state. -/
theorem execute_non_elf_rewinds (s : kernel_state) (cmd : List Nat) (stack : Nat → Nat)
    (d : dentry_t) (n : Nat)
    (hpid : find_next_pid s.processes MAX_PROCESSES 0 = some n)
    (hfile : read_dentry_by_name s.boot (some (command_exec_name cmd).2) = some d)
    (hino : d.inode < s.boot.num_inodes)
    (hsize : 4 ≤ (s.boot.fs_inode d.inode).file_size)
    (hmagic : ¬ (file_byte s.boot d.inode 0 = 0x7f ∧ file_byte s.boot d.inode 1 = 0x45
                ∧ file_byte s.boot d.inode 2 = 0x4c ∧ file_byte s.boot d.inode 3 = 0x46)) :
    execute s (some cmd) stack
      = execute_result.returned (-1)
          (execute_rewind (execute_load (execute_init_pcb s cmd n) n d).1 n) := by
  have hboot : (execute_init_pcb s cmd n).boot = s.boot := rfl
  have hboot2 : (execute_load (execute_init_pcb s cmd n) n d).1.boot = s.boot := rfl
  have hb := read_data_first_four s.boot d.inode stack hino hsize
  simp only [execute, hpid, hboot, hfile, hboot2]
  by_cases hv : (execute_load (execute_init_pcb s cmd n) n d).2 = -1
  · rw [if_pos hv]
  · rw [if_neg hv]
    by_cases c0 : (read_data s.boot d.inode 0 (some stack) 4).buf.getD stack 0 ≠ 0x7f
    · rw [if_pos c0]
    · rw [if_neg c0]
      by_cases c1 : (read_data s.boot d.inode 0 (some stack) 4).buf.getD stack 1 ≠ 0x45
      · rw [if_pos c1]
      · rw [if_neg c1]
        by_cases c2 : (read_data s.boot d.inode 0 (some stack) 4).buf.getD stack 2 ≠ 0x4c
        · rw [if_pos c2]
        · rw [if_neg c2]
          by_cases c3 : (read_data s.boot d.inode 0 (some stack) 4).buf.getD stack 3 ≠ 0x46
          · rw [if_pos c3]
          · exfalso
            apply hmagic
            rw [← hb 0 (by decide), ← hb 1 (by decide), ← hb 2 (by decide), ← hb 3 (by decide)]
            exact ⟨not_not.mp c0, not_not.mp c1, not_not.mp c2, not_not.mp c3⟩

/-- C6: if the command names an existing file of at least 4 bytes whose first
four bytes are not `0x7F 'E' 'L' 'F'`, then `execute` returns -1 and leaves
`processes[]`, the scheduled terminal's `last_assigned_pid` and its
`terminal_pcb` unchanged, and directory entry 32 is present with base
`2 + last_assigned_pid` of the scheduled terminal.  (When no PID is free the
call returns before touching the directory, so the entry is as it was.) -/
theorem execute_non_elf_returns_minus_one (s : kernel_state) (cmd : List Nat)
    (stack : Nat → Nat) (d : dentry_t) (l : Nat)
    (hfile : read_dentry_by_name s.boot (some (command_exec_name cmd).2) = some d)
    (hino : d.inode < s.boot.num_inodes)
    (hsize : 4 ≤ (s.boot.fs_inode d.inode).file_size)
    (hmagic : ¬ (file_byte s.boot d.inode 0 = 0x7f ∧ file_byte s.boot d.inode 1 = 0x45
                ∧ file_byte s.boot d.inode 2 = 0x4c ∧ file_byte s.boot d.inode 3 = 0x46))
    (hl : (s.terminals s.scheduled_terminal).last_assigned_pid = (l : Int))
    (hl6 : l < MAX_PROCESSES)
    (hpre : (∃ i, i < MAX_PROCESSES ∧ s.processes.getD i 0 = 0)
      ∨ ((s.page_directory USER_PAGE_BASE_ADDR).present = 1
          ∧ (s.page_directory USER_PAGE_BASE_ADDR).base_addr = 2 + l)) :
    (execute s (some cmd) stack).ret = some (-1)
    ∧ (execute s (some cmd) stack).state.processes = s.processes
    ∧ (execute s (some cmd) stack).state.scheduled_terminal = s.scheduled_terminal
    ∧ ((execute s (some cmd) stack).state.terminals s.scheduled_terminal).last_assigned_pid
        = (s.terminals s.scheduled_terminal).last_assigned_pid
    ∧ ((execute s (some cmd) stack).state.terminals s.scheduled_terminal).terminal_pcb
        = (s.terminals s.scheduled_terminal).terminal_pcb
    ∧ ((execute s (some cmd) stack).state.page_directory USER_PAGE_BASE_ADDR).present = 1
    ∧ ((execute s (some cmd) stack).state.page_directory USER_PAGE_BASE_ADDR).base_addr
        = 2 + l := by
  have hl6' : l < 6 := hl6
  cases hpid : find_next_pid s.processes MAX_PROCESSES 0 with
  | none =>
    have hex : execute s (some cmd) stack = execute_result.returned (-1) s := by
      simp only [execute, hpid]
    rw [hex]
    rcases hpre with ⟨i, hi, hfree⟩ | ⟨hp, hb⟩
    · exact absurd hfree
        (find_next_pid_none s.processes MAX_PROCESSES 0 hpid i (Nat.zero_le _)
          (by simpa using hi) (by have : i < 6 := hi; omega))
    · exact ⟨rfl, rfl, rfl, rfl, rfl, hp, hb⟩
  | some n =>
    rw [execute_non_elf_rewinds s cmd stack d n hpid hfile hino hsize hmagic]
    obtain ⟨r1, r2, r3, r4, r5⟩ :=
      execute_rewind_spec (execute_load (execute_init_pcb s cmd n) n d).1 n
    have hterm : (execute_load (execute_init_pcb s cmd n) n d).1.terminals = s.terminals := rfl
    have hsched : (execute_load (execute_init_pcb s cmd n) n d).1.scheduled_terminal
        = s.scheduled_terminal := rfl
    have hconv : (2 + to_uint32 (l : Int)) % 1024 = 2 + l := by
      have : to_uint32 (l : Int) = l := by
        unfold to_uint32 U32
        omega
      rw [this]
      omega
    refine ⟨rfl, ?_, ?_, ?_, ?_, ?_, ?_⟩
    · exact r1
    · exact r3.trans hsched
    · show ((execute_rewind _ n).terminals s.scheduled_terminal).last_assigned_pid = _
      rw [r2, hterm]
    · show ((execute_rewind _ n).terminals s.scheduled_terminal).terminal_pcb = _
      rw [r2, hterm]
    · exact r4
    · show ((execute_rewind _ n).page_directory USER_PAGE_BASE_ADDR).base_addr = _
      rw [r5, hterm, hsched, hl, hconv]

end Kernel

namespace Kernel

/-! ## `execute` followed by `halt` -/

/-- Every state is linked to itself. -/
theorem keeps_process_links_refl (s : kernel_state) : keeps_process_links s s :=
  ⟨rfl, rfl, fun _ => ⟨rfl, rfl⟩, fun _ => ⟨rfl, rfl, rfl⟩⟩

/-- The relation `keeps_process_links` composes. -/
theorem keeps_process_links_trans {s s1 s2 : kernel_state}
    (h1 : keeps_process_links s s1) (h2 : keeps_process_links s1 s2) :
    keeps_process_links s s2 := by
  obtain ⟨a1, a2, a3, a4⟩ := h1
  obtain ⟨b1, b2, b3, b4⟩ := h2
  refine ⟨b1.trans a1, b2.trans a2, fun i => ⟨(b3 i).1.trans (a3 i).1, (b3 i).2.trans (a3 i).2⟩,
    fun a => ⟨(b4 a).1.trans (a4 a).1, (b4 a).2.1.trans (a4 a).2.1,
      (b4 a).2.2.trans (a4 a).2.2⟩⟩

/-- The system call `close` keeps the process links. -/
theorem close_keeps_links (s : kernel_state) (fd : Int) :
    keeps_process_links s (close s fd).2 := by
  unfold close
  simp only
  split
  · exact keeps_process_links_refl s
  · generalize ((set_pcb s (current_pcb_addr s) _).pcb_mem (current_pcb_addr s)).fda.getD
      fd.toNat bad_descriptor = dd
    cases hdd : dd.fops_table_ptr <;>
      refine ⟨rfl, rfl, ?_, ?_⟩ <;> intro x <;>
      simp only [fops_close, RTC_close, set_pcb, set_terminal] <;>
      first
        | (split <;> simp_all)
        | simp

end Kernel

namespace Kernel

/-- Rewriting the dispatch record of one descriptor keeps the process links. -/
theorem set_fda_keeps_links (s : kernel_state) (a : Nat) (fda : List file_descriptor_t) :
    keeps_process_links s (set_pcb s a { s.pcb_mem a with fda := fda }) := by
  refine ⟨rfl, rfl, fun _ => ⟨rfl, rfl⟩, fun b => ?_⟩
  simp only [set_pcb]
  split
  · rename_i h; subst h; exact ⟨rfl, rfl, rfl⟩
  · exact ⟨rfl, rfl, rfl⟩

/-- The descriptor-closing loop of `halt` keeps the process links. -/
theorem halt_close_loop_keeps_links (pcb_ptr : Nat) :
    ∀ (count i : Nat) (s : kernel_state),
      keeps_process_links s (halt_close_loop pcb_ptr count i s) := by
  intro count
  induction count with
  | zero => intro i s; exact keeps_process_links_refl s
  | succ c ih =>
    intro i s
    unfold halt_close_loop
    split
    · exact keeps_process_links_trans
        (keeps_process_links_trans (close_keeps_links s (i : Int))
          (set_fda_keeps_links (close s (i : Int)).2 pcb_ptr _))
        (ih (i + 1) _)
    · exact ih (i + 1) s

/-- Writing 0 into a slot of the process table that holds 0 changes nothing. -/
theorem set_zero_of_getD_zero (l : List Nat) (n : Nat) (h : l.getD n 0 = 0) : l.set n 0 = l := by
  apply List.ext_getElem
  · simp
  · intro i h1 h2
    rw [List.getElem_set]
    split
    · rename_i hni
      subst hni
      rw [List.getD_eq_getElem l 0 h2] at h
      exact h.symm
    · rfl

/-- A call of `execute` that enters the program found a free PID `n` and a
dentry `d`, and the state at the `iret` is the one `execute_launch` builds. -/
theorem execute_entered_user_inv (s : kernel_state) (cmd : List Nat) (stack : Nat → Nat)
    (entry : Nat) (s1 : kernel_state)
    (h : execute s (some cmd) stack = execute_result.entered_user entry s1) :
    ∃ n d, find_next_pid s.processes MAX_PROCESSES 0 = some n
      ∧ s1 = (execute_launch (execute_load (execute_init_pcb s cmd n) n d).1 n d
                (fun k => stack (k + 4))).2 := by
  unfold execute at h
  simp only at h
  split at h
  · cases h
  · rename_i n hn
    split at h
    · cases h
    · rename_i d hd
      split_ifs at h
      injection h with h1 h2
      exact ⟨n, d, hn, h2.symm⟩

/-- The state `execute_launch` builds for a PID `n > 2`: the process table has
slot `n` set, the scheduled terminal points at the new PCB, and the new PCB
records `n`, the previous `last_assigned_pid` and the previous PCB pointer. -/
theorem execute_launch_spec (sd : kernel_state) (n : Nat) (d : dentry_t) (stack : Nat → Nat)
    (hn : 2 < n) :
    (execute_launch sd n d stack).2.processes = sd.processes.set n 1
    ∧ (execute_launch sd n d stack).2.scheduled_terminal = sd.scheduled_terminal
    ∧ ((execute_launch sd n d stack).2.terminals sd.scheduled_terminal).terminal_pcb
        = EIGHT_MB - (n + 1) * EIGHT_KB
    ∧ ((execute_launch sd n d stack).2.pcb_mem (EIGHT_MB - (n + 1) * EIGHT_KB)).process_id = n
    ∧ ((execute_launch sd n d stack).2.pcb_mem (EIGHT_MB - (n + 1) * EIGHT_KB)).parent_process_id
        = to_uint32 (sd.terminals sd.scheduled_terminal).last_assigned_pid
    ∧ ((execute_launch sd n d stack).2.pcb_mem (EIGHT_MB - (n + 1) * EIGHT_KB)).parent_pcb
        = (sd.terminals sd.scheduled_terminal).terminal_pcb := by
  have h2 : ¬ n ≤ 2 := by omega
  refine ⟨rfl, rfl, ?_, ?_, ?_, ?_⟩ <;>
    simp [execute_launch, set_pcb, set_terminal, h2]

end Kernel

namespace Kernel

/-- Lines 63-77 of `halt` leave the process table, the scheduled terminal and
its `last_assigned_pid` alone and make the halting PCB's `parent_pcb` the
terminal's PCB. -/
theorem halt_restore_parent_spec (s : kernel_state) (p : Nat) :
    (halt_restore_parent s p).processes = s.processes
    ∧ (halt_restore_parent s p).scheduled_terminal = s.scheduled_terminal
    ∧ ((halt_restore_parent s p).terminals s.scheduled_terminal).terminal_pcb
        = (s.pcb_mem p).parent_pcb
    ∧ ((halt_restore_parent s p).terminals s.scheduled_terminal).last_assigned_pid
        = (s.terminals s.scheduled_terminal).last_assigned_pid := by
  unfold halt_restore_parent
  simp only
  split <;> simp [set_terminal, set_user_video_page, set_user_prog_page]

/-- The restoring half of `halt` always jumps back to `execute`; it leaves the
process table, the scheduled terminal and its `last_assigned_pid` alone and
makes the halting PCB's `parent_pcb` the terminal's PCB. -/
theorem halt_restore_spec (s : kernel_state) (p status : Nat) :
    ∃ st s4, halt_restore s p status = halt_result.returned_to_execute st s4
      ∧ s4.processes = s.processes
      ∧ s4.scheduled_terminal = s.scheduled_terminal
      ∧ (s4.terminals s.scheduled_terminal).terminal_pcb = (s.pcb_mem p).parent_pcb
      ∧ (s4.terminals s.scheduled_terminal).last_assigned_pid
          = (s.terminals s.scheduled_terminal).last_assigned_pid := by
  obtain ⟨h1, h2, h3, h4⟩ := halt_restore_parent_spec s p
  unfold halt_restore
  simp only
  split
  · exact ⟨_, _, rfl, h1, h2, h3, h4⟩
  · exact ⟨_, _, rfl, h1, h2, h3, h4⟩

end Kernel

namespace Kernel

/-- When the halting PCB is not its own parent, `halt` closes the descriptors,
frees the PID, restores `last_assigned_pid` and goes on to restore the parent. -/
theorem halt_of_child (s : kernel_state) (status : Nat) (stack : Nat → Nat) (p : Nat)
    (hp : (s.terminals s.scheduled_terminal).terminal_pcb = p)
    (hne : (s.pcb_mem p).parent_process_id ≠ (s.pcb_mem p).process_id) :
    ∃ s3, halt s status stack = halt_restore s3 p status
      ∧ s3.processes = s.processes.set (s.pcb_mem p).process_id 0
      ∧ s3.scheduled_terminal = s.scheduled_terminal
      ∧ (s3.terminals s.scheduled_terminal).last_assigned_pid
          = to_int32 (s.pcb_mem p).parent_process_id
      ∧ (s3.pcb_mem p).parent_pcb = (s.pcb_mem p).parent_pcb := by
  obtain ⟨c1, c2, c3, c4⟩ := halt_close_loop_keeps_links p 6 2 s
  obtain ⟨d1, d2, d3⟩ := c4 p
  unfold halt
  simp only [hp]
  have hcond : ¬ ((halt_close_loop p 6 2 s).pcb_mem p).parent_process_id
      = ((halt_close_loop p 6 2 s).pcb_mem p).process_id := by
    rw [d1, d2]; exact hne
  simp only [set_terminal]
  rw [if_neg hcond]
  refine ⟨_, rfl, ?_, ?_, ?_, ?_⟩
  · simp only [c1, d1]
  · exact c2
  · simp only [c2, d2, if_true]
  · exact d3

/-- Every state keeps its own live links. -/
theorem keeps_live_links_refl (s : kernel_state) : keeps_live_links s s :=
  ⟨rfl, rfl, rfl, fun _ _ _ => ⟨rfl, rfl, rfl⟩⟩

/-- The relation `keeps_live_links` composes. -/
theorem keeps_live_links_trans {s s1 s2 : kernel_state}
    (h1 : keeps_live_links s s1) (h2 : keeps_live_links s1 s2) :
    keeps_live_links s s2 := by
  obtain ⟨a1, a2, a3, a4⟩ := h1
  obtain ⟨b1, b2, b3, b4⟩ := h2
  refine ⟨b1.trans a1, b2.trans a2, ?_, ?_⟩
  · rw [a2] at b3
    exact b3.trans a3
  · intro pid hpid hlive
    obtain ⟨c1, c2, c3⟩ := a4 pid hpid hlive
    obtain ⟨d1, d2, d3⟩ := b4 pid hpid (by rw [a1]; exact hlive)
    exact ⟨d1.trans c1, d2.trans c2, d3.trans c3⟩

/-- What keeps the links of every PCB and terminal keeps the live links: so do
the system calls of a running process and the keyboard and clock handlers. -/
theorem keeps_live_links_of_links {s s1 : kernel_state} (h : keeps_process_links s s1) :
    keeps_live_links s s1 := by
  obtain ⟨a1, a2, a3, a4⟩ := h
  exact ⟨a1, a2, (a3 _).1, fun pid _ _ => a4 _⟩

/-- The PCB blocks other than the one of the new PID are untouched by a call
of `execute` that enters the program. -/
theorem execute_launch_other_pcb (s : kernel_state) (cmd : List Nat) (n : Nat) (d : dentry_t)
    (stack : Nat → Nat) (a : Nat) (ha : a ≠ EIGHT_MB - (n + 1) * EIGHT_KB) :
    ((execute_launch (execute_load (execute_init_pcb s cmd n) n d).1 n d stack).2.pcb_mem a)
      = s.pcb_mem a := by
  by_cases h2 : n ≤ 2 <;>
    simp [execute_launch, execute_load, execute_init_pcb, set_pcb, set_terminal,
      set_user_prog_page, ha, h2]

/-- The restoring half of `halt` leaves the PCB memory alone. -/
theorem halt_restore_pcb_mem (s : kernel_state) (p status : Nat) :
    (halt_restore s p status).state.pcb_mem = s.pcb_mem := by
  unfold halt_restore halt_restore_parent
  simp only
  split <;> split <;> rfl

/-- When the halting PCB is not its own parent, `halt` changes the
`process_id`, `parent_process_id` and `parent_pcb` of no PCB. -/
theorem halt_of_child_pcb (s : kernel_state) (status : Nat) (stack : Nat → Nat)
    (hne : (s.pcb_mem (s.terminals s.scheduled_terminal).terminal_pcb).parent_process_id
      ≠ (s.pcb_mem (s.terminals s.scheduled_terminal).terminal_pcb).process_id) (a : Nat) :
    ((halt s status stack).state.pcb_mem a).process_id = (s.pcb_mem a).process_id
    ∧ ((halt s status stack).state.pcb_mem a).parent_process_id
        = (s.pcb_mem a).parent_process_id
    ∧ ((halt s status stack).state.pcb_mem a).parent_pcb = (s.pcb_mem a).parent_pcb := by
  obtain ⟨c1, c2, c3, c4⟩ :=
    halt_close_loop_keeps_links (s.terminals s.scheduled_terminal).terminal_pcb 6 2 s
  obtain ⟨d1, d2, d3⟩ := c4 (s.terminals s.scheduled_terminal).terminal_pcb
  have hcond : ¬ ((halt_close_loop (s.terminals s.scheduled_terminal).terminal_pcb 6 2 s).pcb_mem
        (s.terminals s.scheduled_terminal).terminal_pcb).parent_process_id
      = ((halt_close_loop (s.terminals s.scheduled_terminal).terminal_pcb 6 2 s).pcb_mem
        (s.terminals s.scheduled_terminal).terminal_pcb).process_id := by
    rw [d1, d2]; exact hne
  unfold halt
  simp only [set_terminal]
  rw [if_neg hcond, halt_restore_pcb_mem]
  exact c4 a

/-- C5: in a state where `processes[]` has its six entries, PIDs 0..2 are in
use (the three base shells) and the scheduled terminal's `last_assigned_pid` names its running process, if
`execute` succeeds and the new process later calls `halt` in a state that
keeps the live links `execute` left (the same process table, every process the
new one started having halted, the terminal pointing at the new PCB, and the
PCBs of the processes in use keeping their identity), then `halt` jumps back
to `execute` and `processes[]`, the scheduled terminal's `terminal_pcb` and its
`last_assigned_pid` equal their values from just before the `execute`.  The
state `halt` leaves keeps the live links of the state before the `execute`, so
the same holds for the caller when it halts in turn. -/
theorem execute_then_halt_restores (s s1 s2 : kernel_state) (cmd : List Nat)
    (stack stack2 : Nat → Nat) (entry status l : Nat)
    (hlen6 : s.processes.length = MAX_PROCESSES)
    (hbase : s.processes.getD 0 0 ≠ 0 ∧ s.processes.getD 1 0 ≠ 0 ∧ s.processes.getD 2 0 ≠ 0)
    (hl : (s.terminals s.scheduled_terminal).last_assigned_pid = (l : Int))
    (hl6 : l < MAX_PROCESSES)
    (hlive : s.processes.getD l 0 ≠ 0)
    (hexec : execute s (some cmd) stack = execute_result.entered_user entry s1)
    (hrun : keeps_live_links s1 s2) :
    (halt s2 status stack2).status ≠ none
    ∧ (halt s2 status stack2).state.processes = s.processes
    ∧ (halt s2 status stack2).state.scheduled_terminal = s.scheduled_terminal
    ∧ ((halt s2 status stack2).state.terminals s.scheduled_terminal).terminal_pcb
        = (s.terminals s.scheduled_terminal).terminal_pcb
    ∧ ((halt s2 status stack2).state.terminals s.scheduled_terminal).last_assigned_pid
        = (s.terminals s.scheduled_terminal).last_assigned_pid
    ∧ keeps_live_links s (halt s2 status stack2).state := by
  obtain ⟨n, d, hn, hs1⟩ := execute_entered_user_inv s cmd stack entry s1 hexec
  obtain ⟨f0, _, _, f3⟩ := find_next_pid_some s.processes MAX_PROCESSES 0 n hn
  have hn5 : n ≤ 5 := f3 (by omega)
  have hn2 : 2 < n := by
    obtain ⟨b0, b1, b2⟩ := hbase
    by_contra hcon
    have : n = 0 ∨ n = 1 ∨ n = 2 := by omega
    rcases this with h | h | h <;> subst h
    · exact b0 f0
    · exact b1 f0
    · exact b2 f0
  have hln : l ≠ n := by
    intro h; subst h; exact hlive f0
  have hl6' : l < 6 := hl6
  obtain ⟨e1, e2, e3, e4, e5, e6⟩ :=
    execute_launch_spec (execute_load (execute_init_pcb s cmd n) n d).1 n d
      (fun k => stack (k + 4)) hn2
  rw [← hs1] at e1 e2 e3 e4 e5 e6
  have hsd_sched : (execute_load (execute_init_pcb s cmd n) n d).1.scheduled_terminal
      = s.scheduled_terminal := rfl
  have hsd_term : (execute_load (execute_init_pcb s cmd n) n d).1.terminals = s.terminals := rfl
  have hsd_proc : (execute_load (execute_init_pcb s cmd n) n d).1.processes = s.processes := rfl
  rw [hsd_sched] at e2 e3
  rw [hsd_sched, hsd_term] at e5 e6
  rw [hsd_proc] at e1
  obtain ⟨r1, r2, r3, r4⟩ := hrun
  have hnlive : s1.processes.getD n 0 ≠ 0 := by
    rw [e1]
    have hlen : n < s.processes.length := by
      rw [hlen6]
      show n < 6
      omega
    rw [List.getD_eq_getElem _ _ (by rw [List.length_set]; exact hlen), List.getElem_set_self]
    decide
  obtain ⟨q1, q2, q3⟩ := r4 n (by show n < 6; omega) hnlive
  have hs2sched : s2.scheduled_terminal = s.scheduled_terminal := r2.trans e2
  have hto : to_uint32 (l : Int) = l := by
    unfold to_uint32 U32
    omega
  have hback : to_int32 l = (l : Int) := by
    unfold to_int32 U32
    have : l % 4294967296 = l := Nat.mod_eq_of_lt (by omega)
    rw [this, if_pos (by omega)]
  have hp : (s2.terminals s2.scheduled_terminal).terminal_pcb = EIGHT_MB - (n + 1) * EIGHT_KB := by
    rw [hs2sched, ← e2, r3, e2, e3]
  have hparent : (s2.pcb_mem (EIGHT_MB - (n + 1) * EIGHT_KB)).parent_process_id = l := by
    rw [q2, e5, hl, hto]
  have hpid : (s2.pcb_mem (EIGHT_MB - (n + 1) * EIGHT_KB)).process_id = n := by
    rw [q1, e4]
  have hchild : (s2.pcb_mem (s2.terminals s2.scheduled_terminal).terminal_pcb).parent_process_id
      ≠ (s2.pcb_mem (s2.terminals s2.scheduled_terminal).terminal_pcb).process_id := by
    rw [hp, hparent, hpid]; exact hln
  have hpcbs := halt_of_child_pcb s2 status stack2 hchild
  obtain ⟨s3, g0, g1, g2, g3, g4⟩ := halt_of_child s2 status stack2 _ hp
    (by rw [hparent, hpid]; exact hln)
  obtain ⟨st, s4, k0, k1, k2, k3, k4⟩ :=
    halt_restore_spec s3 (EIGHT_MB - (n + 1) * EIGHT_KB) status
  rw [g0.trans k0] at hpcbs ⊢
  simp only [halt_result.state] at hpcbs
  have hproc : s4.processes = s.processes := by
    rw [k1, g1, hpid, r1, e1, List.set_set]
    exact set_zero_of_getD_zero s.processes n f0
  have hsched : s4.scheduled_terminal = s.scheduled_terminal := by
    rw [k2, g2, hs2sched]
  have hterm : (s4.terminals s.scheduled_terminal).terminal_pcb
      = (s.terminals s.scheduled_terminal).terminal_pcb := by
    rw [g2, hs2sched] at k3
    rw [k3, g4, q3, e6]
  refine ⟨by simp [halt_result.status], ?_, ?_, ?_, ?_, ?_⟩ <;> simp only [halt_result.state]
  · exact hproc
  · exact hsched
  · exact hterm
  · rw [g2, hs2sched] at k4
    rw [hs2sched] at g3
    rw [k4, g3, hparent, hback, hl]
  · refine ⟨hproc, hsched, hterm, ?_⟩
    intro pid hpid6 hpidlive
    have hpidn : pid ≠ n := by
      intro h; subst h; exact hpidlive f0
    have hpid6' : pid < 6 := hpid6
    have haddr : EIGHT_MB - (pid + 1) * EIGHT_KB ≠ EIGHT_MB - (n + 1) * EIGHT_KB := by
      unfold EIGHT_MB EIGHT_KB
      omega
    have hs1live : s1.processes.getD pid 0 ≠ 0 := by
      rw [e1, List.getD_eq_getElem?_getD, List.getElem?_set_ne (Ne.symm hpidn),
        ← List.getD_eq_getElem?_getD]
      exact hpidlive
    obtain ⟨u1, u2, u3⟩ := r4 pid hpid6 hs1live
    obtain ⟨v1, v2, v3⟩ := hpcbs (EIGHT_MB - (pid + 1) * EIGHT_KB)
    have hs1pcb : s1.pcb_mem (EIGHT_MB - (pid + 1) * EIGHT_KB)
        = s.pcb_mem (EIGHT_MB - (pid + 1) * EIGHT_KB) := by
      rw [hs1]
      exact execute_launch_other_pcb s cmd n d _ _ haddr
    rw [hs1pcb] at u1 u2 u3
    exact ⟨v1.trans u1, v2.trans u2, v3.trans u3⟩

end Kernel

namespace Kernel

/-! ## Instances of the conditional theorems -/

/-- Instance of C5 with a child in between: from the three base shells,
`execute("cat")` enters the program as PID 3; that process starts `cat` once
more (PID 4), which halts; the `halt(0)` of PID 3 then restores the process
table and the terminal record of the shell. -/
theorem execute_then_halt_restores_witness :
    execute (three_shells fs_demo) (some [99, 97, 116]) (fun _ => 0)
        = execute_result.entered_user 134513384
            (execute (three_shells fs_demo) (some [99, 97, 116]) (fun _ => 0)).state
    ∧ (execute (execute (three_shells fs_demo) (some [99, 97, 116]) (fun _ => 0)).state
        (some [99, 97, 116]) (fun _ => 0)).state.processes = [1, 1, 1, 1, 1, 0]
    ∧ (halt (halt (execute (execute (three_shells fs_demo) (some [99, 97, 116])
        (fun _ => 0)).state (some [99, 97, 116]) (fun _ => 0)).state 0 (fun _ => 0)).state 0
        (fun _ => 0)).status ≠ none
    ∧ (halt (halt (execute (execute (three_shells fs_demo) (some [99, 97, 116])
        (fun _ => 0)).state (some [99, 97, 116]) (fun _ => 0)).state 0 (fun _ => 0)).state 0
        (fun _ => 0)).state.processes = (three_shells fs_demo).processes
    ∧ ((halt (halt (execute (execute (three_shells fs_demo) (some [99, 97, 116])
        (fun _ => 0)).state (some [99, 97, 116]) (fun _ => 0)).state 0 (fun _ => 0)).state 0
        (fun _ => 0)).state.terminals 0).terminal_pcb
        = ((three_shells fs_demo).terminals 0).terminal_pcb
    ∧ ((halt (halt (execute (execute (three_shells fs_demo) (some [99, 97, 116])
        (fun _ => 0)).state (some [99, 97, 116]) (fun _ => 0)).state 0 (fun _ => 0)).state 0
        (fun _ => 0)).state.terminals 0).last_assigned_pid
        = ((three_shells fs_demo).terminals 0).last_assigned_pid := by
  have h := execute_then_halt_restores (three_shells fs_demo)
    (execute (three_shells fs_demo) (some [99, 97, 116]) (fun _ => 0)).state
    (halt (execute (execute (three_shells fs_demo) (some [99, 97, 116]) (fun _ => 0)).state
      (some [99, 97, 116]) (fun _ => 0)).state 0 (fun _ => 0)).state
    [99, 97, 116] (fun _ => 0) (fun _ => 0) 134513384 0 0
    (by decide) (by decide) (by decide) (by decide) (by decide) rfl
    ⟨by decide, by decide, by decide, by decide⟩
  exact ⟨rfl, by decide, h.1, h.2.1, h.2.2.2.1, h.2.2.2.2.1⟩

/-- Instance of C6: from the three base shells, `execute("note")` finds the
8-byte file that starts `7F 45 4C 47` and returns -1 with directory entry 32
present and mapped to frame 2. -/
theorem execute_non_elf_returns_minus_one_witness :
    read_dentry_by_name (three_shells fs_demo).boot
        (some (command_exec_name [110, 111, 116, 101]).2)
      = some { fname := pad_name [110, 111, 116, 101], ftype := 2, inode := 2 }
    ∧ (execute (three_shells fs_demo) (some [110, 111, 116, 101]) (fun _ => 0)).ret = some (-1)
    ∧ (execute (three_shells fs_demo) (some [110, 111, 116, 101]) (fun _ => 0)).state.processes
        = [1, 1, 1, 0, 0, 0]
    ∧ ((execute (three_shells fs_demo) (some [110, 111, 116, 101])
        (fun _ => 0)).state.page_directory USER_PAGE_BASE_ADDR).present = 1
    ∧ ((execute (three_shells fs_demo) (some [110, 111, 116, 101])
        (fun _ => 0)).state.page_directory USER_PAGE_BASE_ADDR).base_addr = 2 + 0 := by
  have h := execute_non_elf_returns_minus_one (three_shells fs_demo) [110, 111, 116, 101]
    (fun _ => 0) { fname := pad_name [110, 111, 116, 101], ftype := 2, inode := 2 } 0
    (by decide) (by decide) (by decide) (by decide) (by decide) (by decide)
    (Or.inl ⟨3, by decide, by decide⟩)
  exact ⟨by decide, h.1, h.2.1, h.2.2.2.2.2.1, h.2.2.2.2.2.2⟩

end Kernel

namespace Kernel

/-- The loop of `read_data` stores, at each index from the starting count up to
the final count, the file byte at the corresponding offset, and leaves the
other bytes of the buffer alone. -/
theorem read_data_loop_buf (fs : file_system) (inode : Nat)
    (hsz : (fs.fs_inode inode).file_size + 1 < U32) :
    ∀ (remaining : Nat) (st : read_data_state),
      st.offset ≤ (fs.fs_inode inode).file_size + 1 →
      ∀ k, (read_data_loop fs (fs.fs_inode inode) remaining st).buf k
        = if st.bytes_read ≤ k
              ∧ k < (read_data_loop fs (fs.fs_inode inode) remaining st).bytes_read
          then file_byte fs inode (st.offset + (k - st.bytes_read))
          else st.buf k := by
  intro remaining
  induction remaining with
  | zero =>
    intro st _ k
    simp only [read_data_loop]
    rw [if_neg (by omega)]
  | succ r ih =>
    intro st hst k
    have hcount := read_data_loop_bytes_read fs (fs.fs_inode inode) hsz
    unfold read_data_loop
    by_cases h : st.offset > (fs.fs_inode inode).file_size
    · simp only [h, if_true]
      rw [if_neg (by omega)]
    · have hlt : st.offset + 1 < U32 := by omega
      simp only [h, if_false]
      rw [ih _ (by simp only [Nat.mod_eq_of_lt hlt]; omega) k]
      have hge := hcount r
        { bytes_read := st.bytes_read + 1
          offset := (st.offset + 1) % U32
          buf := fun k => if k = st.bytes_read then
              fs.fs_data_block ((fs.fs_inode inode).index_num (st.offset / BLOCK_SIZE))
                (st.offset % BLOCK_SIZE)
            else st.buf k
          reads := st.reads ++ [st.offset] }
        (by simp only [Nat.mod_eq_of_lt hlt]; omega)
      simp only [Nat.mod_eq_of_lt hlt] at hge ⊢
      by_cases hk : k = st.bytes_read
      · subst hk
        have hX : st.bytes_read < (read_data_loop fs (fs.fs_inode inode) r
              { bytes_read := st.bytes_read + 1
                offset := st.offset + 1
                buf := fun k => if k = st.bytes_read then
                    fs.fs_data_block ((fs.fs_inode inode).index_num (st.offset / BLOCK_SIZE))
                      (st.offset % BLOCK_SIZE)
                  else st.buf k
                reads := st.reads ++ [st.offset] }).bytes_read := by
          rw [hge]; omega
        simp [file_byte, hX]
      · by_cases hk2 : st.bytes_read + 1 ≤ k
            ∧ k < (read_data_loop fs (fs.fs_inode inode) r
              { bytes_read := st.bytes_read + 1
                offset := st.offset + 1
                buf := fun k => if k = st.bytes_read then
                    fs.fs_data_block ((fs.fs_inode inode).index_num (st.offset / BLOCK_SIZE))
                      (st.offset % BLOCK_SIZE)
                  else st.buf k
                reads := st.reads ++ [st.offset] }).bytes_read
        · rw [if_pos hk2, if_pos ⟨by omega, hk2.2⟩]
          congr 1
          omega
        · rw [if_neg hk2, if_neg hk, if_neg (fun hc => hk2 ⟨by omega, hc.2⟩)]

/-- C17: for a valid inode (whose size fits its 1023 data blocks) and an offset
inside the file, each byte `read_data` stores at `buf[k]`, for `k` below the
returned count, is byte `(offset + k) mod 4096` of data block
`index_num[(offset + k) div 4096]`; in particular reading `file_size` bytes
from offset 0 returns `file_size` and leaves the whole file in `buf`, in order. -/
theorem read_data_stores_file_bytes (fs : file_system) (inode : Nat) (b : Nat → Nat)
    (hino : inode < fs.num_inodes)
    (hsz : (fs.fs_inode inode).file_size ≤ 1023 * BLOCK_SIZE) :
    (∀ offset length k : Nat, offset < (fs.fs_inode inode).file_size →
      (k : Int) < (read_data fs inode offset (some b) length).ret →
      ((read_data fs inode offset (some b) length).buf.getD b) k
        = fs.fs_data_block ((fs.fs_inode inode).index_num ((offset + k) / BLOCK_SIZE))
            ((offset + k) % BLOCK_SIZE))
    ∧ (read_data fs inode 0 (some b) (fs.fs_inode inode).file_size).ret
        = ((fs.fs_inode inode).file_size : Int)
    ∧ (∀ k : Nat, k < (fs.fs_inode inode).file_size →
      ((read_data fs inode 0 (some b) (fs.fs_inode inode).file_size).buf.getD b) k
        = fs.fs_data_block ((fs.fs_inode inode).index_num (k / BLOCK_SIZE)) (k % BLOCK_SIZE)) := by
  have hsz32 : (fs.fs_inode inode).file_size + 1 < U32 := by
    unfold BLOCK_SIZE at hsz
    unfold U32
    omega
  have key : ∀ offset length k : Nat, offset < (fs.fs_inode inode).file_size →
      (k : Int) < (read_data fs inode offset (some b) length).ret →
      ((read_data fs inode offset (some b) length).buf.getD b) k
        = file_byte fs inode (offset + k) := by
    intro offset length k hoff hk
    have hb := read_data_loop_buf fs inode hsz32 length
      { bytes_read := 0, offset := offset, buf := b, reads := [] } (by simp only; omega) k
    simp only [read_data, ge_iff_le, not_le.mpr hino, if_false, not_le.mpr hoff,
      Option.getD_some] at hk ⊢
    rw [hb, if_pos ⟨Nat.zero_le _, by exact_mod_cast hk⟩]
    simp
  refine ⟨fun offset length k hoff hk => key offset length k hoff hk, ?_, ?_⟩
  · by_cases h0 : (fs.fs_inode inode).file_size = 0
    · simp [read_data, h0]
    · rw [read_data_ret_eq fs inode 0 _ b hino (by omega) hsz32]
      simp
  · intro k hk
    have h := key 0 (fs.fs_inode inode).file_size k (by omega)
      (by rw [read_data_ret_eq fs inode 0 _ b hino (by omega) hsz32]; simp; omega)
    rw [h]
    simp [file_byte]

/-- Instance of C17 on the 5-byte example file. -/
theorem read_data_stores_file_bytes_witness :
    (read_data fs_five 0 0 (some (fun _ => 0)) 5).ret = (5 : Int)
    ∧ (∀ k : Nat, k < 5 →
      ((read_data fs_five 0 0 (some (fun _ => 0)) 5).buf.getD (fun _ => 0)) k = 65 + k % 4096) := by
  have h := read_data_stores_file_bytes fs_five 0 (fun _ => 0) (by decide) (by decide)
  exact ⟨h.2.1, fun k hk => h.2.2 k hk⟩

end Kernel

namespace Kernel

/-! ## `read_dir` -/

/-- C20 (evaluation at the failing input): the base shell opens the directory
`.` (descriptor 2, `file_pos` 0, a valid dentry index) and reads it with
`nbytes = 4` into a buffer filled with `255`: the call returns 4 but writes 32
bytes, the whole name field, so `buf[4..31]` are overwritten too.  Read with
`nbytes = 1024` instead, it returns 1024, not the at most 32 bytes it wrote. -/
theorem read_dir_ignores_nbytes :
    (sys_open (three_shells fs_dir) (some [46])).1 = 2
    ∧ (read (sys_open (three_shells fs_dir) (some [46])).2 2 (some (fun _ => 255)) 4 [] 0).map
        (fun r => (r.ret, r.buf.map (fun b => (List.range 34).map b)))
      = some (4, some ([46] ++ List.replicate 31 0 ++ [255, 255]))
    ∧ (read (sys_open (three_shells fs_dir) (some [46])).2 2 (some (fun _ => 255)) 1024 [] 0).map
        (fun r => r.ret) = some 1024 := by
  refine ⟨by decide, by decide, by decide⟩

end Kernel

namespace Kernel

/-! ## `read_dentry_by_name` -/

/-- Comparing from index `i + 1` is comparing the shifted strings from `i`. -/
theorem strncmp_shift (s1 s2 : Nat → Nat) :
    ∀ (n i : Nat), strncmp s1 s2 n (i + 1)
      = strncmp (fun k => s1 (k + 1)) (fun k => s2 (k + 1)) n i := by
  intro n
  induction n with
  | zero => intro i; rfl
  | succ m ih =>
    intro i
    simp only [strncmp]
    rw [ih (i + 1)]

/-- The bytes found one past the start of `x :: l` are the bytes of `l`. -/
theorem bytes_at_cons_shift (x : Nat) (l : List Nat) :
    (fun k => bytes_at (x :: l) (k + 1)) = bytes_at l := by
  funext k
  simp [bytes_at]

/-- The bytes found past the start of the empty array are NUL as well. -/
theorem bytes_at_nil_shift : (fun k => bytes_at [] (k + 1)) = bytes_at [] := by
  funext k
  simp [bytes_at]

/-- The comparison of `strncmp` over `n` bytes yields 0 exactly when the two
strings agree over at most `n` bytes. -/
theorem strncmp_eq_zero_iff :
    ∀ (n : Nat) (a b : List Nat),
      strncmp (bytes_at a) (bytes_at b) n 0 = 0 ↔ (c_string a).take n = (c_string b).take n := by
  intro n
  induction n with
  | zero => intro a b; simp [strncmp]
  | succ m ih =>
    intro a b
    cases a with
    | nil =>
      cases b with
      | nil => simp [strncmp, bytes_at, c_string]
      | cons y b1 =>
        by_cases hy : y = 0
        · simp [strncmp, bytes_at, c_string, hy]
        · simp [strncmp, bytes_at, c_string, hy]
    | cons x a1 =>
      cases b with
      | nil =>
        by_cases hx : x = 0
        · simp [strncmp, bytes_at, c_string, hx]
        · simp [strncmp, bytes_at, c_string, hx]
      | cons y b1 =>
        simp only [strncmp]
        by_cases hc : bytes_at (x :: a1) 0 ≠ bytes_at (y :: b1) 0 ∨ bytes_at (x :: a1) 0 = 0
        · rw [if_pos hc]
          simp only [bytes_at, List.getD_cons_zero, ne_eq] at hc ⊢
          by_cases hx : x = 0
          · by_cases hy : y = 0
            · simp [c_string, hx, hy]
            · simp [c_string, hx, hy]
          · have hxy : ¬ x = y := by
              rcases hc with h | h
              · exact h
              · exact absurd h hx
            by_cases hy : y = 0
            · simp [c_string, hx, hy]
            · simp [c_string, hx, hy, hxy]
              omega
        · rw [if_neg hc]
          simp only [bytes_at, List.getD_cons_zero, ne_eq, not_or, not_not] at hc
          obtain ⟨hxy, hx⟩ := hc
          subst hxy
          rw [strncmp_shift, bytes_at_cons_shift, bytes_at_cons_shift, ih a1 b1]
          simp [c_string, hx]

/-- The name field `strncpy` leaves in the caller's dentry: the string of the
source field over at most 32 bytes, padded with NUL bytes. -/
theorem copied_name_eq (src : List Nat) :
    (List.range FNAME_LENGTH).map (strncpy (fun _ => 0) src FNAME_LENGTH)
      = pad_name ((c_string src).take FNAME_LENGTH) := by
  have hpre : c_string src <+: src := List.takeWhile_prefix _
  apply List.ext_getElem
  · simp only [List.length_map, List.length_range, pad_name, List.length_append,
      List.length_replicate, List.length_take]
    omega
  · intro k h1 h2
    simp only [List.length_map, List.length_range] at h1
    simp only [List.getElem_map, List.getElem_range, strncpy, h1, if_true, strlen, pad_name]
    by_cases hk : k < (List.takeWhile (fun c => c != 0) src).length
    · have hk2 : k < (List.take FNAME_LENGTH (c_string src)).length := by
        simp only [List.length_take, c_string]
        omega
      have hk3 : k < src.length := lt_of_lt_of_le hk hpre.length_le
      rw [if_pos hk, List.getElem_append_left hk2, List.getElem_take,
        List.getD_eq_getElem src 0 hk3]
      exact (List.IsPrefix.getElem hpre hk).symm
    · have hk2 : ¬ k < (List.take FNAME_LENGTH (c_string src)).length := by
        simp only [List.length_take, c_string]
        omega
      rw [if_neg hk, List.getElem_append_right (by omega)]
      simp

/-- What the search loop of `read_dentry_by_name` returns: the copy of the
first dentry, among those inspected, whose name compares equal. -/
theorem read_dentry_loop_spec (fs : file_system) (name : List Nat) :
    ∀ (count i : Nat),
      (∀ d, read_dentry_loop fs name count i = some d →
        ∃ j, i ≤ j ∧ j < i + count ∧ same_name (fs.dentries j).fname name
          ∧ (∀ k, i ≤ k → k < j → ¬ same_name (fs.dentries k).fname name)
          ∧ d = { fname := pad_name ((c_string (fs.dentries j).fname).take FNAME_LENGTH)
                  ftype := (fs.dentries j).ftype
                  inode := (fs.dentries j).inode })
      ∧ (read_dentry_loop fs name count i = none →
        ∀ k, i ≤ k → k < i + count → ¬ same_name (fs.dentries k).fname name) := by
  intro count
  induction count with
  | zero =>
    intro i
    refine ⟨fun d h => by simp [read_dentry_loop] at h, fun _ k h1 h2 => by omega⟩
  | succ c ih =>
    intro i
    obtain ⟨ih1, ih2⟩ := ih (i + 1)
    unfold read_dentry_loop
    by_cases hm : strncmp (bytes_at (fs.dentries i).fname) (bytes_at name) FNAME_LENGTH 0 = 0
    · have hs : same_name (fs.dentries i).fname name := (strncmp_eq_zero_iff _ _ _).mp hm
      rw [if_pos hm]
      refine ⟨fun d h => ?_, fun h => by simp at h⟩
      refine ⟨i, le_refl _, by omega, hs, fun k h1 h2 => by omega, ?_⟩
      rw [← copied_name_eq]
      exact (Option.some.inj h).symm
    · have hs : ¬ same_name (fs.dentries i).fname name :=
        fun h => hm ((strncmp_eq_zero_iff _ _ _).mpr h)
      rw [if_neg hm]
      refine ⟨fun d h => ?_, fun h k h1 h2 => ?_⟩
      · obtain ⟨j, a1, a2, a3, a4, a5⟩ := ih1 d h
        refine ⟨j, by omega, by omega, a3, fun k h1 h2 => ?_, a5⟩
        by_cases hki : k = i
        · rw [hki]; exact hs
        · exact a4 k (by omega) h2
      · by_cases hki : k = i
        · rw [hki]; exact hs
        · exact ih2 h k (by omega) (by omega)

/-- C18: `read_dentry_by_name(fname, d)` returns 0 exactly when `fname` and `d`
are non-null, `fname` is at most 32 characters long and some dentry with index
below `num_dentries` has the same name as `fname` (as strings over at most 32
bytes), and -1 in every other case; on 0, `d` holds the name, type and inode of
the lowest-indexed such dentry. -/
theorem read_dentry_by_name_spec (fs : file_system) (fname : Option (List Nat))
    (dentry : Option dentry_t) :
    ((read_dentry_by_name_call fs fname dentry).1 = 0
      ∨ (read_dentry_by_name_call fs fname dentry).1 = -1)
    ∧ ((read_dentry_by_name_call fs fname dentry).1 = 0 ↔
        ∃ name, fname = some name ∧ dentry ≠ none ∧ (c_string name).length ≤ 32
          ∧ ∃ i, i < fs.num_dentries ∧ same_name (fs.dentries i).fname name)
    ∧ ((read_dentry_by_name_call fs fname dentry).1 = 0 →
        ∃ name i, fname = some name ∧ i < fs.num_dentries
          ∧ same_name (fs.dentries i).fname name
          ∧ (∀ k, k < i → ¬ same_name (fs.dentries k).fname name)
          ∧ (read_dentry_by_name_call fs fname dentry).2
              = some { fname := pad_name ((c_string (fs.dentries i).fname).take FNAME_LENGTH)
                       ftype := (fs.dentries i).ftype
                       inode := (fs.dentries i).inode }) := by
  cases fname with
  | none => simp [read_dentry_by_name_call]
  | some name =>
    cases dentry with
    | none => simp [read_dentry_by_name_call]
    | some d0 =>
      obtain ⟨l1, l2⟩ := read_dentry_loop_spec fs name fs.num_dentries 0
      by_cases hlen : strlen name > 32
      · have hlen2 : ¬ (c_string name).length ≤ 32 := by
          have : strlen name = (c_string name).length := rfl
          omega
        simp [read_dentry_by_name_call, read_dentry_by_name, hlen, hlen2]
      · have hlen2 : (c_string name).length ≤ 32 := by
          have : strlen name = (c_string name).length := rfl
          omega
        cases hloop : read_dentry_loop fs name fs.num_dentries 0 with
        | none =>
          have hno := l2 hloop
          have hret : read_dentry_by_name_call fs (some name) (some d0) = (-1, some d0) := by
            simp only [read_dentry_by_name_call, read_dentry_by_name, hlen, if_false, hloop]
          rw [hret]
          have hne : ¬ ((-1 : Int) = 0) := by decide
          refine ⟨Or.inr rfl, ⟨fun h => absurd h hne, ?_⟩, fun h => absurd h hne⟩
          rintro ⟨nm, hnm, _, _, i, hi, hs⟩
          cases hnm
          exact absurd hs (hno i (Nat.zero_le _) (by omega))
        | some d =>
          obtain ⟨j, a1, a2, a3, a4, a5⟩ := l1 d hloop
          have hret : read_dentry_by_name_call fs (some name) (some d0) = (0, some d) := by
            simp only [read_dentry_by_name_call, read_dentry_by_name, hlen, if_false, hloop]
          rw [hret]
          refine ⟨Or.inl rfl, ⟨fun _ => ⟨name, rfl, by simp, hlen2, j, by omega, a3⟩,
            fun _ => rfl⟩, fun _ => ⟨name, j, rfl, by omega, a3,
              fun k hk => a4 k (Nat.zero_le _) hk, by rw [a5]⟩⟩

end Kernel

namespace Kernel

/-! ## `open` and `close` -/

/-- The slot search of `open` finds the first free slot of the range. -/
theorem open_find_slot_some (fda : List file_descriptor_t) :
    ∀ (count i0 i : Nat), i0 ≤ i → i < i0 + count →
      (fda.getD i bad_descriptor).flags = 0 →
      (∀ j, i0 ≤ j → j < i → (fda.getD j bad_descriptor).flags ≠ 0) →
      open_find_slot fda count i0 = some i := by
  intro count
  induction count with
  | zero => intro i0 i h1 h2; omega
  | succ c ih =>
    intro i0 i h1 h2 hfree hbusy
    unfold open_find_slot
    by_cases h0 : (fda.getD i0 bad_descriptor).flags = 0
    · rw [if_pos h0]
      by_cases hi : i = i0
      · rw [hi]
      · exact absurd h0 (hbusy i0 (le_refl _) (by omega))
    · rw [if_neg h0]
      have hi : i ≠ i0 := fun h => h0 (h ▸ hfree)
      exact ih (i0 + 1) i (by omega) (by omega) hfree
        (fun j hj1 hj2 => hbusy j (by omega) hj2)

/-- The slot search of `open` fails when every slot of the range is in use. -/
theorem open_find_slot_none (fda : List file_descriptor_t) :
    ∀ (count i0 : Nat),
      (∀ j, i0 ≤ j → j < i0 + count → (fda.getD j bad_descriptor).flags ≠ 0) →
      open_find_slot fda count i0 = none := by
  intro count
  induction count with
  | zero => intro i0 _; rfl
  | succ c ih =>
    intro i0 hbusy
    unfold open_find_slot
    rw [if_neg (hbusy i0 (le_refl _) (by omega))]
    exact ih (i0 + 1) (fun j hj1 hj2 => hbusy j (by omega) (by omega))

/-- A successful `open`: with the named dentry `d` of type 0, 1 or 2 and `i` the
first free slot, the call returns `i`, leaves `tss.esp0` alone and changes the
PCB memory only in slot `i` of the current PCB, which receives
`opened_descriptor`. -/
theorem sys_open_fills_slot (s : kernel_state) (name : List Nat) (d : dentry_t) (i : Nat)
    (hfound : read_dentry_by_name s.boot (some name) = some d)
    (htype : d.ftype ≤ 2)
    (h2 : 2 ≤ i) (h7 : i ≤ 7)
    (hfree : ((s.pcb_mem (current_pcb_addr s)).fda.getD i bad_descriptor).flags = 0)
    (hbusy : ∀ j, 2 ≤ j → j < i →
      ((s.pcb_mem (current_pcb_addr s)).fda.getD j bad_descriptor).flags ≠ 0) :
    (sys_open s (some name)).1 = (i : Int)
    ∧ (sys_open s (some name)).2.tss_esp0 = s.tss_esp0
    ∧ (sys_open s (some name)).2.pcb_mem
        = (set_pcb s (current_pcb_addr s)
            { s.pcb_mem (current_pcb_addr s) with
              fda := (s.pcb_mem (current_pcb_addr s)).fda.set i
                (opened_descriptor
                  ((s.pcb_mem (current_pcb_addr s)).fda.getD i bad_descriptor) d) }).pcb_mem := by
  have hslot := open_find_slot_some (s.pcb_mem (current_pcb_addr s)).fda 6 2 i h2 (by omega)
    hfree hbusy
  have ht : d.ftype = 0 ∨ d.ftype = 1 ∨ d.ftype = 2 := by omega
  simp only [sys_open, hfound, hslot]
  rcases ht with h | h | h <;>
    simp [h, opened_descriptor, dispatch_of_type, RTC_open, set_pcb, set_terminal]

/-- C12: when `filename` names an existing dentry `d` of type 0, 1 or 2, `open`
returns the smallest index `i` in 2..7 whose slot was free; slot `i` of the
file-descriptor array then is in use with `file_pos` 0 and the clock, directory
or file dispatch record of the type (and the dentry's inode for type 2), and
all other slots are unchanged.  When `filename` is null, no dentry has that
name, or slots 2..7 are all in use, it returns -1 and changes nothing. -/
theorem sys_open_spec (s : kernel_state) (name : List Nat) (d : dentry_t)
    (hlen : (s.pcb_mem (current_pcb_addr s)).fda.length = 8)
    (hfound : read_dentry_by_name s.boot (some name) = some d)
    (htype : d.ftype ≤ 2) :
    (∀ i, 2 ≤ i → i ≤ 7 →
      ((s.pcb_mem (current_pcb_addr s)).fda.getD i bad_descriptor).flags = 0 →
      (∀ j, 2 ≤ j → j < i →
        ((s.pcb_mem (current_pcb_addr s)).fda.getD j bad_descriptor).flags ≠ 0) →
      (sys_open s (some name)).1 = (i : Int)
      ∧ ((sys_open s (some name)).2.pcb_mem (current_pcb_addr s)).fda
          = (s.pcb_mem (current_pcb_addr s)).fda.set i
              (opened_descriptor
                ((s.pcb_mem (current_pcb_addr s)).fda.getD i bad_descriptor) d)
      ∧ ((sys_open s (some name)).2.pcb_mem (current_pcb_addr s)).fda.getD i bad_descriptor
          = opened_descriptor ((s.pcb_mem (current_pcb_addr s)).fda.getD i bad_descriptor) d
      ∧ (∀ j, j ≠ i →
          ((sys_open s (some name)).2.pcb_mem (current_pcb_addr s)).fda.getD j bad_descriptor
            = (s.pcb_mem (current_pcb_addr s)).fda.getD j bad_descriptor))
    ∧ ((∀ j, 2 ≤ j → j ≤ 7 →
        ((s.pcb_mem (current_pcb_addr s)).fda.getD j bad_descriptor).flags ≠ 0) →
      sys_open s (some name) = (-1, s))
    ∧ sys_open s none = (-1, s)
    ∧ (∀ other : List Nat, read_dentry_by_name s.boot (some other) = none →
        sys_open s (some other) = (-1, s)) := by
  refine ⟨?_, ?_, rfl, ?_⟩
  · intro i h2 h7 hfree hbusy
    obtain ⟨r1, _, r3⟩ := sys_open_fills_slot s name d i hfound htype h2 h7 hfree hbusy
    have hfda : ((sys_open s (some name)).2.pcb_mem (current_pcb_addr s)).fda
        = (s.pcb_mem (current_pcb_addr s)).fda.set i
            (opened_descriptor
              ((s.pcb_mem (current_pcb_addr s)).fda.getD i bad_descriptor) d) := by
      rw [r3]
      simp [set_pcb]
    refine ⟨r1, hfda, ?_, ?_⟩
    · rw [hfda, List.getD_eq_getElem _ _ (by rw [List.length_set]; omega),
        List.getElem_set_self]
    · intro j hj
      rw [hfda]
      simp only [List.getD_eq_getElem?_getD]
      rw [List.getElem?_set_ne (fun h => hj h.symm)]
  · intro hbusy
    have hnone := open_find_slot_none (s.pcb_mem (current_pcb_addr s)).fda 6 2
      (fun j hj1 hj2 => hbusy j hj1 (by omega))
    simp only [sys_open, hfound, hnone]
  · intro other hother
    simp only [sys_open, hother]

/-- Instance of C12: the base shell of terminal 0 opens the file `note` of the
example image and receives descriptor 2, the file dispatch record and inode 2. -/
theorem sys_open_spec_witness :
    (sys_open (three_shells fs_dir) (some [110, 111, 116, 101])).1 = ((2 : Nat) : Int)
    ∧ ((sys_open (three_shells fs_dir) (some [110, 111, 116, 101])).2.pcb_mem
        (current_pcb_addr (three_shells fs_dir))).fda.getD 2 bad_descriptor
      = { fops_table_ptr := fops_jump_table_t.file_table, inode := 2, file_pos := 0, flags := 1 } := by
  have h := (sys_open_spec (three_shells fs_dir) [110, 111, 116, 101]
    { fname := pad_name [110, 111, 116, 101], ftype := 2, inode := 2 }
    (by decide) (by decide) (by decide)).1 2 (by decide) (by decide) (by decide)
    (fun j h1 h2 => absurd h2 (by omega))
  exact ⟨h.1, h.2.2.1⟩

/-- The slot search of `open` returns an index of its range. -/
theorem open_find_slot_ge (fda : List file_descriptor_t) :
    ∀ (count i0 i : Nat), open_find_slot fda count i0 = some i → i0 ≤ i := by
  intro count
  induction count with
  | zero => intro i0 i h; simp [open_find_slot] at h
  | succ c ih =>
    intro i0 i h
    unfold open_find_slot at h
    split at h
    · have := Option.some.inj h; omega
    · have := ih (i0 + 1) i h; omega

/-- Whatever its outcome, `open` keeps `tss.esp0` and the descriptors 0 and 1
of the current PCB. -/
theorem sys_open_keeps_std (s : kernel_state) (filename : Option (List Nat)) :
    (sys_open s filename).2.tss_esp0 = s.tss_esp0
    ∧ ∀ j, j < 2 →
      ((sys_open s filename).2.pcb_mem (current_pcb_addr s)).fda.getD j bad_descriptor
        = (s.pcb_mem (current_pcb_addr s)).fda.getD j bad_descriptor := by
  unfold sys_open
  simp only
  split
  · exact ⟨rfl, fun _ _ => rfl⟩
  · split
    · exact ⟨rfl, fun _ _ => rfl⟩
    · split
      · exact ⟨rfl, fun _ _ => rfl⟩
      · rename_i i hi
        have hge := open_find_slot_ge _ _ _ _ hi
        split_ifs <;> refine ⟨rfl, fun j hj => ?_⟩ <;>
          simp only [RTC_open, set_pcb, set_terminal, if_true, List.getD_eq_getElem?_getD] <;>
          rw [List.getElem?_set_ne (by omega)]

/-- Whatever its outcome, `close` keeps `tss.esp0` and the descriptors 0 and 1
of the current PCB. -/
theorem close_keeps_std (s : kernel_state) (fd : Int) :
    (close s fd).2.tss_esp0 = s.tss_esp0
    ∧ ∀ j, j < 2 →
      ((close s fd).2.pcb_mem (current_pcb_addr s)).fda.getD j bad_descriptor
        = (s.pcb_mem (current_pcb_addr s)).fda.getD j bad_descriptor := by
  unfold close
  simp only
  split
  · exact ⟨rfl, fun _ _ => rfl⟩
  · rename_i hfd
    have h2 : 2 ≤ fd.toNat := by omega
    generalize ((set_pcb s (current_pcb_addr s) _).pcb_mem (current_pcb_addr s)).fda.getD
      fd.toNat bad_descriptor = dd
    cases dd.fops_table_ptr <;> refine ⟨rfl, fun j hj => ?_⟩ <;>
      simp only [fops_close, RTC_close, set_pcb, set_terminal, if_true,
        List.getD_eq_getElem?_getD] <;>
      rw [List.getElem?_set_ne (by omega)]

/-- Under every sequence of `open` and `close` calls `tss.esp0` and the
descriptors 0 and 1 of the current PCB stay as they are. -/
theorem run_fd_calls_keeps_std :
    ∀ (calls : List fd_call) (s : kernel_state),
      (run_fd_calls s calls).tss_esp0 = s.tss_esp0
      ∧ ∀ j, j < 2 →
        ((run_fd_calls s calls).pcb_mem (current_pcb_addr s)).fda.getD j bad_descriptor
          = (s.pcb_mem (current_pcb_addr s)).fda.getD j bad_descriptor := by
  intro calls
  induction calls with
  | nil => intro s; exact ⟨rfl, fun _ _ => rfl⟩
  | cons c rest ih =>
    intro s
    cases c with
    | open_call filename =>
      obtain ⟨a1, a2⟩ := sys_open_keeps_std s filename
      obtain ⟨b1, b2⟩ := ih (sys_open s filename).2
      have haddr : current_pcb_addr (sys_open s filename).2 = current_pcb_addr s := by
        unfold current_pcb_addr; rw [a1]
      simp only [run_fd_calls]
      rw [haddr] at b2
      exact ⟨b1.trans a1, fun j hj => (b2 j hj).trans (a2 j hj)⟩
    | close_call fd =>
      obtain ⟨a1, a2⟩ := close_keeps_std s fd
      obtain ⟨b1, b2⟩ := ih (close s fd).2
      have haddr : current_pcb_addr (close s fd).2 = current_pcb_addr s := by
        unfold current_pcb_addr; rw [a1]
      simp only [run_fd_calls]
      rw [haddr] at b2
      exact ⟨b1.trans a1, fun j hj => (b2 j hj).trans (a2 j hj)⟩

/-- Closing a descriptor in 2..7 that is in use and holds the clock, directory
or file dispatch record returns 0 and clears the `flags` of exactly that slot. -/
theorem close_in_use (s : kernel_state) (i : Nat) (h2 : 2 ≤ i) (h7 : i ≤ 7)
    (hlen : (s.pcb_mem (current_pcb_addr s)).fda.length = 8)
    (huse : ((s.pcb_mem (current_pcb_addr s)).fda.getD i bad_descriptor).flags ≠ 0)
    (htab : ((s.pcb_mem (current_pcb_addr s)).fda.getD i bad_descriptor).fops_table_ptr
        = fops_jump_table_t.rtc_table
      ∨ ((s.pcb_mem (current_pcb_addr s)).fda.getD i bad_descriptor).fops_table_ptr
        = fops_jump_table_t.directory_table
      ∨ ((s.pcb_mem (current_pcb_addr s)).fda.getD i bad_descriptor).fops_table_ptr
        = fops_jump_table_t.file_table) :
    (close s (i : Int)).1 = 0
    ∧ (close s (i : Int)).2.tss_esp0 = s.tss_esp0
    ∧ ((close s (i : Int)).2.pcb_mem (current_pcb_addr s)).fda
        = (s.pcb_mem (current_pcb_addr s)).fda.set i
            { (s.pcb_mem (current_pcb_addr s)).fda.getD i bad_descriptor with flags := 0 } := by
  have hcond : ¬ ((i : Int) < 2 ∨ (i : Int) > 7
      ∨ ((s.pcb_mem (current_pcb_addr s)).fda.getD (i : Int).toNat bad_descriptor).flags = 0) := by
    simp only [Int.toNat_ofNat]
    omega
  have hget : ((s.pcb_mem (current_pcb_addr s)).fda.set i
      { (s.pcb_mem (current_pcb_addr s)).fda.getD i bad_descriptor with flags := 0 }).getD i
        bad_descriptor
      = { (s.pcb_mem (current_pcb_addr s)).fda.getD i bad_descriptor with flags := 0 } := by
    rw [List.getD_eq_getElem _ _ (by rw [List.length_set]; omega), List.getElem_set_self]
  unfold close
  simp only [hcond, if_false]
  simp only [Int.toNat_ofNat, set_pcb, if_true, hget]
  rcases htab with h | h | h <;> rw [h] <;>
    simp [fops_close, RTC_close, set_terminal]

/-- The validation of `close`: a descriptor below 2, above 7 or not in use is
rejected with -1 and nothing changes. -/
theorem close_rejects (s : kernel_state) (fd : Int)
    (h : fd < 2 ∨ fd > 7
      ∨ ((s.pcb_mem (current_pcb_addr s)).fda.getD fd.toNat bad_descriptor).flags = 0) :
    close s fd = (-1, s) := by
  unfold close
  simp only [h, if_true]

/-- The validation of `read`: a descriptor outside 0..7 or not in use is
rejected with -1 and nothing changes. -/
theorem read_rejects (s : kernel_state) (fd : Int) (buf : Option (Nat → Nat)) (nbytes : Int)
    (scan_codes : List Nat) (ticks : Nat)
    (h : fd < 0 ∨ fd > 7
      ∨ ((s.pcb_mem (current_pcb_addr s)).fda.getD fd.toNat bad_descriptor).flags = 0) :
    read s fd buf nbytes scan_codes ticks = some { ret := -1, state := s, buf := buf } := by
  unfold read
  simp only [h, if_true]

/-- The validation of `write`: a descriptor outside 0..7 or not in use is
rejected with -1 and nothing changes. -/
theorem write_rejects (s : kernel_state) (fd : Int) (buf : Option (Nat → Nat)) (nbytes : Int)
    (fuel : Nat)
    (h : fd < 0 ∨ fd > 7
      ∨ ((s.pcb_mem (current_pcb_addr s)).fda.getD fd.toNat bad_descriptor).flags = 0) :
    write s fd buf nbytes fuel = some (-1, s) := by
  unfold write
  simp only [h, if_true]

/-- C13: `close(fd)` returns -1 and changes nothing when `fd < 2`, `fd > 7` or
slot `fd` is not in use; so under every sequence of `open` and `close` calls
the slots 0 and 1 stay as they are.  For a slot that `open` filled, `close`
returns 0 and marks exactly that slot free, after which `read`, `write` and
`close` on that descriptor return -1 and change nothing. -/
theorem close_spec (s : kernel_state) :
    (∀ fd : Int,
      (fd < 2 ∨ fd > 7
        ∨ ((s.pcb_mem (current_pcb_addr s)).fda.getD fd.toNat bad_descriptor).flags = 0) →
      close s fd = (-1, s))
    ∧ (∀ (calls : List fd_call) (j : Nat), j < 2 →
      ((run_fd_calls s calls).pcb_mem (current_pcb_addr (run_fd_calls s calls))).fda.getD j
          bad_descriptor
        = (s.pcb_mem (current_pcb_addr s)).fda.getD j bad_descriptor)
    ∧ (∀ (name : List Nat) (d : dentry_t) (i : Nat),
      (s.pcb_mem (current_pcb_addr s)).fda.length = 8 →
      read_dentry_by_name s.boot (some name) = some d → d.ftype ≤ 2 →
      2 ≤ i → i ≤ 7 →
      ((s.pcb_mem (current_pcb_addr s)).fda.getD i bad_descriptor).flags = 0 →
      (∀ j, 2 ≤ j → j < i →
        ((s.pcb_mem (current_pcb_addr s)).fda.getD j bad_descriptor).flags ≠ 0) →
      (close (sys_open s (some name)).2 (i : Int)).1 = 0
      ∧ (((close (sys_open s (some name)).2 (i : Int)).2.pcb_mem
            (current_pcb_addr s)).fda.getD i bad_descriptor).flags = 0
      ∧ (∀ j, j ≠ i →
          ((close (sys_open s (some name)).2 (i : Int)).2.pcb_mem
              (current_pcb_addr s)).fda.getD j bad_descriptor
            = ((sys_open s (some name)).2.pcb_mem (current_pcb_addr s)).fda.getD j
                bad_descriptor)
      ∧ (∀ (buf : Option (Nat → Nat)) (nbytes : Int) (scan_codes : List Nat) (ticks fuel : Nat),
          (read (close (sys_open s (some name)).2 (i : Int)).2 (i : Int) buf nbytes
              scan_codes ticks).map (fun r => r.ret) = some (-1)
          ∧ (write (close (sys_open s (some name)).2 (i : Int)).2 (i : Int) buf nbytes fuel).map
              Prod.fst = some (-1)
          ∧ close (close (sys_open s (some name)).2 (i : Int)).2 (i : Int)
              = (-1, (close (sys_open s (some name)).2 (i : Int)).2))) := by
  refine ⟨?_, ?_, ?_⟩
  · intro fd hfd
    exact close_rejects s fd hfd
  · intro calls j hj
    obtain ⟨a1, a2⟩ := run_fd_calls_keeps_std calls s
    have haddr : current_pcb_addr (run_fd_calls s calls) = current_pcb_addr s := by
      unfold current_pcb_addr; rw [a1]
    rw [haddr]
    exact a2 j hj
  · intro name d i hlen hfound htype h2 h7 hfree hbusy
    obtain ⟨r1, r2, r3⟩ := sys_open_fills_slot s name d i hfound htype h2 h7 hfree hbusy
    have haddr : current_pcb_addr (sys_open s (some name)).2 = current_pcb_addr s := by
      unfold current_pcb_addr; rw [r2]
    have hfda : ((sys_open s (some name)).2.pcb_mem (current_pcb_addr s)).fda
        = (s.pcb_mem (current_pcb_addr s)).fda.set i
            (opened_descriptor
              ((s.pcb_mem (current_pcb_addr s)).fda.getD i bad_descriptor) d) := by
      rw [r3]
      simp [set_pcb]
    have hslot : ((sys_open s (some name)).2.pcb_mem (current_pcb_addr s)).fda.getD i
        bad_descriptor
        = opened_descriptor ((s.pcb_mem (current_pcb_addr s)).fda.getD i bad_descriptor) d := by
      rw [hfda, List.getD_eq_getElem _ _ (by rw [List.length_set]; omega),
        List.getElem_set_self]
    have ht : d.ftype = 0 ∨ d.ftype = 1 ∨ d.ftype = 2 := by omega
    obtain ⟨c1, c2, c3⟩ := close_in_use (sys_open s (some name)).2 i h2 h7
      (by rw [haddr, hfda, List.length_set]; exact hlen)
      (by rw [haddr, hslot]; simp [opened_descriptor])
      (by
        rw [haddr, hslot]
        rcases ht with h | h | h <;> simp [opened_descriptor, dispatch_of_type, h])
    rw [haddr] at c3
    have haddr2 : current_pcb_addr (close (sys_open s (some name)).2 (i : Int)).2
        = current_pcb_addr s := by
      unfold current_pcb_addr; rw [c2, r2]
    have hfree2 : (((close (sys_open s (some name)).2 (i : Int)).2.pcb_mem
        (current_pcb_addr s)).fda.getD i bad_descriptor).flags = 0 := by
      rw [c3, List.getD_eq_getElem _ _ (by rw [List.length_set, hfda, List.length_set]; omega),
        List.getElem_set_self]
    have hrej : (i : Int) < 0 ∨ (i : Int) > 7
        ∨ (((close (sys_open s (some name)).2 (i : Int)).2.pcb_mem
            (current_pcb_addr (close (sys_open s (some name)).2 (i : Int)).2)).fda.getD
              (i : Int).toNat bad_descriptor).flags = 0 := by
      rw [haddr2, Int.toNat_ofNat]
      exact Or.inr (Or.inr hfree2)
    have hrej2 : (i : Int) < 2 ∨ (i : Int) > 7
        ∨ (((close (sys_open s (some name)).2 (i : Int)).2.pcb_mem
            (current_pcb_addr (close (sys_open s (some name)).2 (i : Int)).2)).fda.getD
              (i : Int).toNat bad_descriptor).flags = 0 := by
      rw [haddr2, Int.toNat_ofNat]
      exact Or.inr (Or.inr hfree2)
    refine ⟨c1, hfree2, ?_, ?_⟩
    · intro j hj
      rw [c3]
      simp only [List.getD_eq_getElem?_getD]
      rw [List.getElem?_set_ne (fun h => hj h.symm)]
    · intro buf nbytes scan_codes ticks fuel
      refine ⟨?_, ?_, ?_⟩
      · rw [read_rejects _ _ _ _ _ _ hrej]; rfl
      · rw [write_rejects _ _ _ _ _ hrej]; rfl
      · exact close_rejects _ _ hrej2

/-- Instance of C13: the base shell of terminal 0 opens `note`, obtains
descriptor 2 and closes it: `close` returns 0 and the slot is free again. -/
theorem close_spec_witness :
    (close (sys_open (three_shells fs_dir) (some [110, 111, 116, 101])).2 ((2 : Nat) : Int)).1 = 0
    ∧ (((close (sys_open (three_shells fs_dir) (some [110, 111, 116, 101])).2
          ((2 : Nat) : Int)).2.pcb_mem
        (current_pcb_addr (three_shells fs_dir))).fda.getD 2 bad_descriptor).flags = 0 := by
  have h := (close_spec (three_shells fs_dir)).2.2 [110, 111, 116, 101]
    { fname := pad_name [110, 111, 116, 101], ftype := 2, inode := 2 } 2
    (by decide) (by decide) (by decide) (by decide) (by decide) (by decide)
    (fun j h1 h2 => absurd h2 (by omega))
  exact ⟨h.1, h.2.1⟩

end Kernel

namespace Kernel

/-! ## `execute`: the choice of the PID -/

/-- The PID search returns the smallest free index. -/
theorem find_next_pid_smallest (p : List Nat) :
    ∀ (count i0 n : Nat), i0 ≤ n → n < i0 + count → n ≤ 5 → p.getD n 0 = 0 →
      (∀ i, i0 ≤ i → i < n → p.getD i 0 ≠ 0) →
      find_next_pid p count i0 = some n := by
  intro count
  induction count with
  | zero => intro i0 n h1 h2; omega
  | succ c ih =>
    intro i0 n h1 h2 h5 hfree hbusy
    unfold find_next_pid
    by_cases h0 : p.getD i0 0 = 0
    · rw [if_pos h0]
      by_cases hi : n = i0
      · rw [hi]
      · exact absurd h0 (hbusy i0 (le_refl _) (by omega))
    · rw [if_neg h0]
      have hi : n ≠ i0 := fun h => h0 (h ▸ hfree)
      have hne : ¬ i0 = MAX_PROCESSES - 1 := by
        have : MAX_PROCESSES - 1 = 5 := rfl
        omega
      rw [if_neg hne]
      exact ih (i0 + 1) n (by omega) (by omega) h5 hfree
        (fun j hj1 hj2 => hbusy j (by omega) hj2)

/-- The state `execute_launch` builds for PID `n`: slot `n` of the process
table is set, the scheduled terminal records `n` and the PCB of `n`, that PCB
records `n`, and the ring-0 stack is the one of `n`. -/
theorem execute_launch_pid (sd : kernel_state) (n : Nat) (d : dentry_t) (stack : Nat → Nat) :
    (execute_launch sd n d stack).2.processes = sd.processes.set n 1
    ∧ ((execute_launch sd n d stack).2.terminals sd.scheduled_terminal).last_assigned_pid
        = (n : Int)
    ∧ ((execute_launch sd n d stack).2.terminals sd.scheduled_terminal).terminal_pcb
        = EIGHT_MB - (n + 1) * EIGHT_KB
    ∧ ((execute_launch sd n d stack).2.pcb_mem (EIGHT_MB - (n + 1) * EIGHT_KB)).process_id = n
    ∧ (execute_launch sd n d stack).2.tss_esp0 = EIGHT_MB - (n * EIGHT_KB) - 4 := by
  refine ⟨rfl, ?_, ?_, ?_, rfl⟩ <;>
    by_cases h2 : n ≤ 2 <;> simp [execute_launch, set_pcb, set_terminal, h2]

/-- C15: `execute` takes as the new PID the smallest index `n` in 0..5 with
`processes[n] = 0` (a call that enters the program has marked slot `n`, made
`n` the terminal's `last_assigned_pid`, installed the PCB and the kernel stack
of `n`); when all six slots are in use it returns -1 and the whole state, hence
the process table, every terminal record, the page directory and the
task-state segment, is unchanged. -/
theorem execute_pid_allocation (s : kernel_state) (cmd : List Nat) (stack : Nat → Nat) :
    ((∀ i, i < MAX_PROCESSES → s.processes.getD i 0 ≠ 0) →
      execute s (some cmd) stack = execute_result.returned (-1) s)
    ∧ (∀ n, n < MAX_PROCESSES → s.processes.getD n 0 = 0 →
        (∀ i, i < n → s.processes.getD i 0 ≠ 0) →
        find_next_pid s.processes MAX_PROCESSES 0 = some n
        ∧ ∀ entry s1, execute s (some cmd) stack = execute_result.entered_user entry s1 →
            s1.processes = s.processes.set n 1
            ∧ (s1.terminals s.scheduled_terminal).last_assigned_pid = (n : Int)
            ∧ (s1.terminals s.scheduled_terminal).terminal_pcb = EIGHT_MB - (n + 1) * EIGHT_KB
            ∧ (s1.pcb_mem (EIGHT_MB - (n + 1) * EIGHT_KB)).process_id = n
            ∧ s1.tss_esp0 = EIGHT_MB - (n * EIGHT_KB) - 4) := by
  constructor
  · intro hfull
    cases hpid : find_next_pid s.processes MAX_PROCESSES 0 with
    | none => simp only [execute, hpid]
    | some n =>
      obtain ⟨f0, _, _, f3⟩ := find_next_pid_some s.processes MAX_PROCESSES 0 n hpid
      have hn : n < MAX_PROCESSES := by
        have := f3 (by omega)
        show n < 6
        omega
      exact absurd f0 (hfull n hn)
  · intro n hn hfree hbusy
    have hn6 : n < 6 := hn
    have hfind := find_next_pid_smallest s.processes MAX_PROCESSES 0 n (Nat.zero_le _)
      (by show n < 0 + 6; omega) (by omega) hfree (fun i _ hi => hbusy i hi)
    refine ⟨hfind, fun entry s1 hexec => ?_⟩
    obtain ⟨m, d, hm, hs1⟩ := execute_entered_user_inv s cmd stack entry s1 hexec
    have hmn : m = n := by
      rw [hfind] at hm
      exact (Option.some.inj hm).symm
    subst hmn
    obtain ⟨e1, e2, e3, e4, e5⟩ :=
      execute_launch_pid (execute_load (execute_init_pcb s cmd m) m d).1 m d
        (fun k => stack (k + 4))
    rw [← hs1] at e1 e2 e3 e4 e5
    exact ⟨e1, e2, e3, e4, e5⟩

/-- Instance of C15: with PIDs 0..2 taken by the base shells, `execute("cat")`
takes PID 3. -/
theorem execute_pid_allocation_witness :
    find_next_pid (three_shells fs_demo).processes MAX_PROCESSES 0 = some 3
    ∧ (execute (three_shells fs_demo) (some [99, 97, 116]) (fun _ => 0)).state.processes
        = [1, 1, 1, 1, 0, 0]
    ∧ ((execute (three_shells fs_demo) (some [99, 97, 116]) (fun _ => 0)).state.terminals
        0).last_assigned_pid = 3 := by
  have h := (execute_pid_allocation (three_shells fs_demo) [99, 97, 116] (fun _ => 0)).2 3
    (by decide) (by decide) (by decide)
  have h2 := h.2 134513384
    (execute (three_shells fs_demo) (some [99, 97, 116]) (fun _ => 0)).state rfl
  exact ⟨h.1, h2.1, h2.2.1⟩

end Kernel

namespace Kernel

/-! ## `halt`: the status handed back -/

/-- The system call `close` does not touch `exception_flag`. -/
theorem close_exception_flag (s : kernel_state) (fd : Int) :
    (close s fd).2.exception_flag = s.exception_flag := by
  unfold close
  simp only
  split
  · rfl
  · generalize ((set_pcb s (current_pcb_addr s) _).pcb_mem (current_pcb_addr s)).fda.getD
      fd.toNat bad_descriptor = dd
    cases dd.fops_table_ptr <;> rfl

/-- The descriptor-closing loop of `halt` does not touch `exception_flag`. -/
theorem halt_close_loop_exception_flag (pcb_ptr : Nat) :
    ∀ (count i : Nat) (s : kernel_state),
      (halt_close_loop pcb_ptr count i s).exception_flag = s.exception_flag := by
  intro count
  induction count with
  | zero => intro i s; rfl
  | succ c ih =>
    intro i s
    unfold halt_close_loop
    split
    · rw [ih]
      exact close_exception_flag s (i : Int)
    · exact ih (i + 1) s

/-- No path through `execute` touches `exception_flag`. -/
theorem execute_exception_flag (s : kernel_state) (command : Option (List Nat))
    (stack : Nat → Nat) :
    (execute s command stack).state.exception_flag = s.exception_flag := by
  have hload : ∀ (n : Nat) (d : dentry_t) (cmd : List Nat),
      (execute_load (execute_init_pcb s cmd n) n d).1.exception_flag = s.exception_flag :=
    fun _ _ _ => rfl
  have hrew : ∀ (t : kernel_state) (n : Nat),
      (execute_rewind t n).exception_flag = t.exception_flag := fun _ _ => rfl
  have hlaunch : ∀ (t : kernel_state) (n : Nat) (d : dentry_t) (st : Nat → Nat),
      (execute_launch t n d st).2.exception_flag = t.exception_flag := fun _ _ _ _ => rfl
  unfold execute
  split
  · rfl
  · split
    · rfl
    · simp only
      split
      · rfl
      · split_ifs <;> simp only [execute_result.state, hrew, hlaunch, hload]

/-- Lines 63-77 of `halt` do not touch `exception_flag`. -/
theorem halt_restore_parent_exception_flag (s : kernel_state) (p : Nat) :
    (halt_restore_parent s p).exception_flag = s.exception_flag := by
  unfold halt_restore_parent
  simp only
  split <;> rfl

/-- The status chosen by lines 79-98 of `halt`: 256 with the flag cleared when
`exception_flag` is set, the 8-bit status otherwise. -/
theorem halt_restore_status (s : kernel_state) (p status : Nat) :
    (s.exception_flag ≠ 0 →
      (halt_restore s p status).status = some 256
      ∧ (halt_restore s p status).state.exception_flag = 0)
    ∧ (s.exception_flag = 0 →
      (halt_restore s p status).status = some ((status % 256 : Nat) : Int)) := by
  have hf := halt_restore_parent_exception_flag s p
  unfold halt_restore
  simp only [hf]
  constructor
  · intro h
    rw [if_pos h]
    exact ⟨rfl, rfl⟩
  · intro h
    rw [if_neg (not_not.mpr h)]
    rfl

/-- Every `halt` either enters a new shell (the base-shell case) or runs lines
63-98 from a state with the `exception_flag` it was entered with. -/
theorem halt_cases (s : kernel_state) (status : Nat) (stack : Nat → Nat) :
    (halt s status stack).status = none
    ∨ ∃ s3 p, halt s status stack = halt_restore s3 p status
        ∧ s3.exception_flag = s.exception_flag := by
  have hloop := halt_close_loop_exception_flag
    (s.terminals s.scheduled_terminal).terminal_pcb 6 2 s
  by_cases hcond :
      ((halt_close_loop (s.terminals s.scheduled_terminal).terminal_pcb 6 2 s).pcb_mem
          (s.terminals s.scheduled_terminal).terminal_pcb).parent_process_id
        = ((halt_close_loop (s.terminals s.scheduled_terminal).terminal_pcb 6 2 s).pcb_mem
          (s.terminals s.scheduled_terminal).terminal_pcb).process_id
  · unfold halt
    simp only [set_terminal]
    rw [if_pos hcond]
    split
    · left; rfl
    · rename_i r s4 hex
      right
      have h := congrArg execute_result.state hex
      simp only [execute_result.state] at h
      refine ⟨s4, _, rfl, ?_⟩
      rw [← h]
      exact (execute_exception_flag _ _ _).trans hloop
  · unfold halt
    simp only [set_terminal]
    rw [if_neg hcond]
    exact Or.inr ⟨_, _, rfl, hloop⟩

/-- C16: whenever `halt` hands a status back to `execute`, that status is 256
if `exception_flag` was set on entry (and the flag is then clear), and
otherwise the 8-bit status argument, an integer in 0..255; a process that is
not a base shell always gets a status handed back; in particular a process
ended through `halt_wrapper` is reported as 256 and never as 255. -/
theorem halt_status_spec (s : kernel_state) (status : Nat) (stack : Nat → Nat) :
    (∀ st : Int, (halt s status stack).status = some st →
      (s.exception_flag ≠ 0 → st = 256 ∧ (halt s status stack).state.exception_flag = 0)
      ∧ (s.exception_flag = 0 → st = ((status % 256 : Nat) : Int) ∧ 0 ≤ st ∧ st ≤ 255))
    ∧ ((s.pcb_mem (s.terminals s.scheduled_terminal).terminal_pcb).parent_process_id
          ≠ (s.pcb_mem (s.terminals s.scheduled_terminal).terminal_pcb).process_id →
        (halt s status stack).status ≠ none
        ∧ (halt_wrapper s stack).status = some 256)
    ∧ (halt_wrapper s stack).status ≠ some 255 := by
  have hgen : ∀ (t : kernel_state) (code : Nat) (st : Int),
      (halt t code stack).status = some st →
      (t.exception_flag ≠ 0 → st = 256 ∧ (halt t code stack).state.exception_flag = 0)
      ∧ (t.exception_flag = 0 → st = ((code % 256 : Nat) : Int)) := by
    intro t code st hst
    rcases halt_cases t code stack with hnone | ⟨s3, p, heq, hflag⟩
    · rw [hnone] at hst; exact absurd hst (by simp)
    · obtain ⟨k1, k2⟩ := halt_restore_status s3 p code
      rw [heq] at hst ⊢
      rw [hflag] at k1 k2
      constructor
      · intro hne
        obtain ⟨a1, a2⟩ := k1 hne
        rw [a1] at hst
        exact ⟨(Option.some.inj hst).symm, a2⟩
      · intro h0
        rw [k2 h0] at hst
        exact (Option.some.inj hst).symm
  have hchild : ∀ (t : kernel_state) (code : Nat),
      (t.pcb_mem (t.terminals t.scheduled_terminal).terminal_pcb).parent_process_id
        ≠ (t.pcb_mem (t.terminals t.scheduled_terminal).terminal_pcb).process_id →
      (halt t code stack).status ≠ none := by
    intro t code hne
    obtain ⟨s3, g0, _⟩ := halt_of_child t code stack _ rfl hne
    obtain ⟨st, s4, k0, _⟩ := halt_restore_spec s3
      (t.terminals t.scheduled_terminal).terminal_pcb code
    rw [g0, k0]
    simp [halt_result.status]
  refine ⟨?_, ?_, ?_⟩
  · intro st hst
    obtain ⟨h1, h2⟩ := hgen s status st hst
    refine ⟨h1, fun h0 => ?_⟩
    have := h2 h0
    refine ⟨this, ?_, ?_⟩ <;> rw [this] <;> omega
  · intro hne
    refine ⟨hchild s status hne, ?_⟩
    have hsome := hchild { s with exception_flag := 1 } 255 hne
    cases hw : (halt { s with exception_flag := 1 } 255 stack).status with
    | none => exact absurd hw hsome
    | some st =>
      have := (hgen { s with exception_flag := 1 } 255 st hw).1 (by simp)
      show (halt { s with exception_flag := 1 } 255 stack).status = some 256
      rw [hw, this.1]
  · intro h255
    have := (hgen { s with exception_flag := 1 } 255 255 h255).1 (by simp)
    exact absurd this.1 (by decide)

/-- Instance of C16: the process started by `execute("cat")` halts with status
7 and 7 is handed back; ended through `halt_wrapper`, 256 is handed back. -/
theorem halt_status_spec_witness :
    (halt (execute (three_shells fs_demo) (some [99, 97, 116]) (fun _ => 0)).state 7
        (fun _ => 0)).status = some 7
    ∧ (halt_wrapper (execute (three_shells fs_demo) (some [99, 97, 116]) (fun _ => 0)).state
        (fun _ => 0)).status = some 256 := by
  have h := halt_status_spec
    (execute (three_shells fs_demo) (some [99, 97, 116]) (fun _ => 0)).state 7 (fun _ => 0)
  have h2 := h.2.1 (by decide)
  refine ⟨?_, h2.2⟩
  cases hs : (halt (execute (three_shells fs_demo) (some [99, 97, 116]) (fun _ => 0)).state 7
      (fun _ => 0)).status with
  | none => exact absurd hs h2.1
  | some st =>
    have := ((h.1 st hs).2 (by decide)).1
    rw [this]
    rfl

end Kernel

namespace Kernel

/-! ## `execute`: the command parser -/

/-- NUL bytes appended to a string without NUL do not change its length. -/
theorem strlen_append_zeros (name : List Nat) (n : Nat) (hname : ∀ c ∈ name, c ≠ 0) :
    strlen (name ++ List.replicate n 0) = strlen name := by
  unfold strlen
  have h1 : ∀ a ∈ name, (fun c => c != 0) a = true := by
    intro a ha
    simp [hname a ha]
  rw [List.takeWhile_append_of_pos h1, List.takeWhile_eq_self_iff.mpr h1]
  cases n with
  | zero => simp
  | succ m => simp [List.replicate_succ]

end Kernel

namespace Kernel

/-! ## Typing a line and reading it back -/

set_option maxRecDepth 100000 in
/-- Facts about the scan codes of printable keys, checked over the table: none
is a modifier or a function key, the table entry is neither backspace, tab,
Enter nor NUL, and the character typed is never NUL nor a newline. -/
theorem printable_key_facts :
    ∀ sc : Fin 62, 32 ≤ scan_code_to_ascii.getD sc.val 0 →
      sc.val ≠ 0x2A ∧ sc.val ≠ 0x36 ∧ sc.val ≠ 0x3A ∧ sc.val ≠ 0x1D ∧ sc.val ≠ 0x38
      ∧ sc.val ≠ 0x3B ∧ sc.val ≠ 0x3C ∧ sc.val ≠ 0x3D
      ∧ scan_code_to_ascii.getD sc.val 0 ≠ 8 ∧ scan_code_to_ascii.getD sc.val 0 ≠ 9
      ∧ scan_code_to_ascii.getD sc.val 0 ≠ 10 ∧ scan_code_to_ascii.getD sc.val 0 ≠ 0
      ∧ ∀ caps shift : Bool, key_char caps shift sc.val ≠ 0 ∧ key_char caps shift sc.val ≠ 10 := by
  decide

/-- Storing at the first free slot of a zero-padded line appends to it. -/
theorem set_append_replicate (acc : List Nat) (c m : Nat) (h : acc.length < m) :
    (acc ++ List.replicate (m - acc.length) 0).set acc.length c
      = (acc ++ [c]) ++ List.replicate (m - (acc ++ [c]).length) 0 := by
  have hm : m - acc.length = (m - (acc.length + 1)) + 1 := by omega
  rw [hm, List.replicate_succ, List.set_append_right _ _ (Nat.le_refl _)]
  simp

/-- A printable key pressed while a line is being typed, with room left in the
line buffer, appends its character to the line and keeps the modifier flags. -/
theorem keyboard_handler_printable (s : kernel_state) (v : Nat) (n : Int) (acc : List Nat)
    (sc : Nat) (h : line_typed s v n acc) (hsc : printable_key sc)
    (hroom : acc.length < 127) (hn : (acc.length : Int) + 1 < n) :
    line_typed (keyboard_handler s sc) v n
      (acc ++ [key_char s.caps_flag (s.left_shift_flag || s.right_shift_flag) sc])
    ∧ (keyboard_handler s sc).caps_flag = s.caps_flag
    ∧ (keyboard_handler s sc).left_shift_flag = s.left_shift_flag
    ∧ (keyboard_handler s sc).right_shift_flag = s.right_shift_flag := by
  obtain ⟨hv, hs, hnb, hctrl, hin, hent, hi, hbuf⟩ := h
  obtain ⟨hlt, hpr⟩ := hsc
  obtain ⟨f1, f2, f3, f4, f5, f6, f7, f8, f9, f10, f11, f12, -⟩ :=
    printable_key_facts ⟨sc, hlt⟩ hpr
  simp only at f1 f2 f3 f4 f5 f6 f7 f8 f9 f10 f11 f12
  have hflags : keyboard_set_flags s sc = s := by
    unfold keyboard_set_flags
    have g1 : sc ≠ 0xAA := by omega
    have g2 : sc ≠ 0xB6 := by omega
    have g3 : sc ≠ 0x9D := by omega
    have g4 : sc ≠ 0xB8 := by omega
    simp [f1, f2, f3, f4, f5, g1, g2, g3, g4]
  have hge : ¬ (sc ≥ 0x3E) := by omega
  have hcond : ¬ (sc ≥ 0x3E ∨ sc = 0x2A ∨ sc = 0x36 ∨ sc = 0x3A ∨ sc = 0x1D ∨ sc = 0x38) := by
    rintro (h1 | h1 | h1 | h1 | h1 | h1)
    · exact hge h1
    · exact f1 h1
    · exact f2 h1
    · exact f3 h1
    · exact f4 h1
    · exact f5 h1
  have hmax : ¬ ((s.terminals s.visible_terminal).kb_buf_i = (KEYBOARD_BUF_CHAR_MAX : Int)
      ∨ (s.terminals s.visible_terminal).kb_buf_i = s.terminal_buf_n_bytes - 1) := by
    rw [hv, hi, hnb]
    simp only [KEYBOARD_BUF_CHAR_MAX]
    omega
  have hstore : kb_store (s.terminals v) (acc.length : Int)
      (key_char s.caps_flag (s.left_shift_flag || s.right_shift_flag) sc)
      = { s.terminals v with
          kb_buf := (acc ++ [key_char s.caps_flag (s.left_shift_flag || s.right_shift_flag) sc])
            ++ List.replicate (KEYBOARD_BUF_SIZE
                - (acc ++ [key_char s.caps_flag (s.left_shift_flag || s.right_shift_flag) sc]).length) 0 } := by
    unfold kb_store
    have hr : (0 : Int) ≤ (acc.length : Int) ∧ (acc.length : Int) < (KEYBOARD_BUF_SIZE : Int) := by
      simp only [KEYBOARD_BUF_SIZE]
      omega
    rw [if_pos hr, hbuf, Int.toNat_ofNat, set_append_replicate acc _ KEYBOARD_BUF_SIZE
      (by simp only [KEYBOARD_BUF_SIZE]; omega)]
  have hres : keyboard_handler s sc
      = putc (set_terminal s v
          { kb_store (s.terminals v) (acc.length : Int)
              (key_char s.caps_flag (s.left_shift_flag || s.right_shift_flag) sc) with
            kb_buf_i := (acc.length : Int) + 1 })
          (key_char s.caps_flag (s.left_shift_flag || s.right_shift_flag) sc) 1 := by
    unfold keyboard_handler
    simp only [hflags]
    rw [if_neg hcond, if_neg f9, if_neg f11,
      if_neg (by rw [hctrl]; simp), if_neg (by intro hh; exact f6 hh.2),
      if_neg (by intro hh; exact f7 hh.2), if_neg (by intro hh; exact f8 hh.2),
      if_neg f12, if_neg hmax, if_neg f10]
    simp only [hv, hin, hi, key_char]
    rfl
  rw [hres, hstore]
  refine ⟨⟨hv, hs, hnb, hctrl, ?_, ?_, ?_, ?_⟩, rfl, rfl, rfl⟩
  · simp [putc, set_terminal, hin]
  · simp [putc, set_terminal, hent]
  · simp [putc, set_terminal]
  · simp [putc, set_terminal]

/-- A modifier press or any release code only changes the modifier flags. -/
theorem keyboard_handler_modifier (s : kernel_state) (sc : Nat)
    (hsc : sc ≥ 0x3E ∨ sc = 0x2A ∨ sc = 0x36 ∨ sc = 0x3A) :
    keyboard_handler s sc = keyboard_set_flags s sc := by
  unfold keyboard_handler
  have hcond : sc ≥ 0x3E ∨ sc = 0x2A ∨ sc = 0x36 ∨ sc = 0x3A ∨ sc = 0x1D ∨ sc = 0x38 := by
    rcases hsc with h | h | h | h
    · exact Or.inl h
    · exact Or.inr (Or.inl h)
    · exact Or.inr (Or.inr (Or.inl h))
    · exact Or.inr (Or.inr (Or.inr (Or.inl h)))
  simp only [if_pos hcond]

/-- The modifier flags are no part of the typed line: changing them, other
than by pressing control, keeps the line. -/
theorem keyboard_set_flags_line_typed (s : kernel_state) (v : Nat) (n : Int) (acc : List Nat)
    (sc : Nat) (h : line_typed s v n acc) (hsc : sc ≠ 0x1D) :
    line_typed (keyboard_set_flags s sc) v n acc := by
  obtain ⟨hv, hs, hnb, hctrl, hin, hent, hi, hbuf⟩ := h
  unfold keyboard_set_flags
  split_ifs
  all_goals first
    | exact ⟨hv, hs, hnb, hctrl, hin, hent, hi, hbuf⟩
    | exact ⟨hv, hs, hnb, rfl, hin, hent, hi, hbuf⟩

/-- Typing a line: after the scan codes of a run of printable keys, shift and
caps-lock presses and releases, the line buffer holds the characters typed,
as long as they fit the line buffer and the reader's size. -/
theorem keyboard_run_typing (v : Nat) (n : Int) :
    ∀ (scs : List Nat) (s : kernel_state) (acc : List Nat),
      line_typed s v n acc → (∀ sc ∈ scs, typing_code sc) →
      acc.length + (typed_chars s.caps_flag s.left_shift_flag s.right_shift_flag scs).length
        ≤ 127 →
      ((acc.length + (typed_chars s.caps_flag s.left_shift_flag s.right_shift_flag scs).length
        : Nat) : Int) + 1 ≤ n →
      line_typed (keyboard_run s scs) v n
        (acc ++ typed_chars s.caps_flag s.left_shift_flag s.right_shift_flag scs) := by
  intro scs
  induction scs with
  | nil =>
    intro s acc h _ _ _
    simpa [keyboard_run, typed_chars] using h
  | cons sc rest ih =>
    intro s acc h hcodes hlen hn
    have hrest : ∀ c ∈ rest, typing_code c := fun c hc => hcodes c (List.mem_cons_of_mem _ hc)
    have hrun : keyboard_run s (sc :: rest) = keyboard_run (keyboard_handler s sc) rest := rfl
    rw [hrun]
    by_cases h1 : sc = 0x2A
    · have hk := keyboard_handler_modifier s sc (Or.inr (Or.inl h1))
      have hl := keyboard_set_flags_line_typed s v n acc sc h (by omega)
      rw [← hk] at hl
      have hf : keyboard_handler s sc = { s with left_shift_flag := true } := by
        rw [hk]; simp [keyboard_set_flags, h1]
      simp only [typed_chars, if_pos h1] at hlen hn ⊢
      have := ih (keyboard_handler s sc) acc hl hrest
      rw [hf] at this ⊢
      exact this hlen hn
    by_cases h2 : sc = 0xAA
    · have hk := keyboard_handler_modifier s sc (Or.inl (by omega))
      have hl := keyboard_set_flags_line_typed s v n acc sc h (by omega)
      rw [← hk] at hl
      have hf : keyboard_handler s sc = { s with left_shift_flag := false } := by
        rw [hk]; simp [keyboard_set_flags, h2]
      simp only [typed_chars, if_neg h1, if_pos h2] at hlen hn ⊢
      have := ih (keyboard_handler s sc) acc hl hrest
      rw [hf] at this ⊢
      exact this hlen hn
    by_cases h3 : sc = 0x36
    · have hk := keyboard_handler_modifier s sc (Or.inr (Or.inr (Or.inl h3)))
      have hl := keyboard_set_flags_line_typed s v n acc sc h (by omega)
      rw [← hk] at hl
      have hf : keyboard_handler s sc = { s with right_shift_flag := true } := by
        rw [hk]; simp [keyboard_set_flags, h3]
      simp only [typed_chars, if_neg h1, if_neg h2, if_pos h3] at hlen hn ⊢
      have := ih (keyboard_handler s sc) acc hl hrest
      rw [hf] at this ⊢
      exact this hlen hn
    by_cases h4 : sc = 0xB6
    · have hk := keyboard_handler_modifier s sc (Or.inl (by omega))
      have hl := keyboard_set_flags_line_typed s v n acc sc h (by omega)
      rw [← hk] at hl
      have hf : keyboard_handler s sc = { s with right_shift_flag := false } := by
        rw [hk]; simp [keyboard_set_flags, h4]
      simp only [typed_chars, if_neg h1, if_neg h2, if_neg h3, if_pos h4] at hlen hn ⊢
      have := ih (keyboard_handler s sc) acc hl hrest
      rw [hf] at this ⊢
      exact this hlen hn
    by_cases h5 : sc = 0x3A
    · have hk := keyboard_handler_modifier s sc (Or.inr (Or.inr (Or.inr h5)))
      have hl := keyboard_set_flags_line_typed s v n acc sc h (by omega)
      rw [← hk] at hl
      have hf : keyboard_handler s sc = { s with caps_flag := !s.caps_flag } := by
        rw [hk]; simp [keyboard_set_flags, h5]
      simp only [typed_chars, if_neg h1, if_neg h2, if_neg h3, if_neg h4, if_pos h5] at hlen hn ⊢
      have := ih (keyboard_handler s sc) acc hl hrest
      rw [hf] at this ⊢
      exact this hlen hn
    by_cases h6 : sc < 0x3E ∧ 32 ≤ scan_code_to_ascii.getD sc 0
    · simp only [typed_chars, if_neg h1, if_neg h2, if_neg h3, if_neg h4, if_neg h5, if_pos h6,
        List.length_cons] at hlen hn ⊢
      obtain ⟨hl, hc, hls, hrs⟩ := keyboard_handler_printable s v n acc sc h h6
        (by omega) (by omega)
      have := ih (keyboard_handler s sc) _ hl hrest
      rw [hc, hls, hrs] at this
      have hgoal := this (by simp only [List.length_append, List.length_singleton]; omega)
        (by simp only [List.length_append, List.length_singleton]; omega)
      simpa [List.append_assoc] using hgoal
    · have hge : sc ≥ 0x3E := by
        rcases hcodes sc (List.mem_cons_self _ _) with hp | hp | hp | hp | hp
        · exact absurd hp h6
        · exact hp
        · exact absurd hp h1
        · exact absurd hp h3
        · exact absurd hp h5
      have hk := keyboard_handler_modifier s sc (Or.inl hge)
      have hl := keyboard_set_flags_line_typed s v n acc sc h (by omega)
      rw [← hk] at hl
      have hfc : (keyboard_handler s sc).caps_flag = s.caps_flag := by
        rw [hk]; unfold keyboard_set_flags; split_ifs <;> rfl
      have hfl : (keyboard_handler s sc).left_shift_flag = s.left_shift_flag := by
        rw [hk]; unfold keyboard_set_flags; split_ifs <;> rfl
      have hfr : (keyboard_handler s sc).right_shift_flag = s.right_shift_flag := by
        rw [hk]; unfold keyboard_set_flags; split_ifs <;> rfl
      simp only [typed_chars, if_neg h1, if_neg h2, if_neg h3, if_neg h4, if_neg h5, if_neg h6]
        at hlen hn ⊢
      have := ih (keyboard_handler s sc) acc hl hrest
      rw [hfc, hfl, hfr] at this
      exact this hlen hn

/-- No character typed is NUL. -/
theorem typed_chars_ne_zero :
    ∀ (scs : List Nat) (caps lshift rshift : Bool),
      ∀ c ∈ typed_chars caps lshift rshift scs, c ≠ 0 := by
  intro scs
  induction scs with
  | nil =>
    intro caps lshift rshift c hc
    simp [typed_chars] at hc
  | cons sc rest ih =>
    intro caps lshift rshift c hc
    unfold typed_chars at hc
    split_ifs at hc with h1 h2 h3 h4 h5 h6
    · exact ih _ _ _ c hc
    · exact ih _ _ _ c hc
    · exact ih _ _ _ c hc
    · exact ih _ _ _ c hc
    · exact ih _ _ _ c hc
    · rcases List.mem_cons.mp hc with hc | hc
      · have hf := printable_key_facts ⟨sc, h6.1⟩ h6.2
        rw [hc]
        exact (hf.2.2.2.2.2.2.2.2.2.2.2.2 caps (lshift || rshift)).1
      · exact ih _ _ _ c hc
    · exact ih _ _ _ c hc

/-- Enter pressed at the end of a typed line stores the newline after the
line and raises the Enter flag. -/
theorem keyboard_handler_enter (s : kernel_state) (v : Nat) (n : Int) (acc : List Nat)
    (h : line_typed s v n acc) (hroom : acc.length ≤ 127) :
    (keyboard_handler s 0x1C).scheduled_terminal = v
    ∧ ((keyboard_handler s 0x1C).terminals v).kb_enter_flag = 1
    ∧ ((keyboard_handler s 0x1C).terminals v).kb_buf_i = (acc.length : Int) + 1
    ∧ ((keyboard_handler s 0x1C).terminals v).kb_buf
        = (acc ++ [10]) ++ List.replicate (KEYBOARD_BUF_SIZE - (acc ++ [10]).length) 0 := by
  obtain ⟨hv, hs, hnb, hctrl, hin, hent, hi, hbuf⟩ := h
  have hflags : keyboard_set_flags s 0x1C = s := by
    simp [keyboard_set_flags]
  have hkey : scan_code_to_ascii.getD 0x1C 0 = 10 := by decide
  have hstore : kb_store (s.terminals v) (acc.length : Int) 10
      = { s.terminals v with
          kb_buf := (acc ++ [10]) ++ List.replicate (KEYBOARD_BUF_SIZE - (acc ++ [10]).length) 0 } := by
    unfold kb_store
    have hr : (0 : Int) ≤ (acc.length : Int) ∧ (acc.length : Int) < (KEYBOARD_BUF_SIZE : Int) := by
      simp only [KEYBOARD_BUF_SIZE]
      omega
    rw [if_pos hr, hbuf, Int.toNat_ofNat, set_append_replicate acc _ KEYBOARD_BUF_SIZE
      (by simp only [KEYBOARD_BUF_SIZE]; omega)]
  have hres : keyboard_handler s 0x1C
      = putc (set_terminal s v
          { kb_store (s.terminals v) (acc.length : Int) 10 with
            kb_buf_i := (acc.length : Int) + 1, kb_enter_flag := 1 }) 10 1 := by
    unfold keyboard_handler
    simp only [hflags, hkey]
    rw [if_neg (by decide), if_neg (by decide), if_pos trivial]
    simp only [hv, hin, hi]
    rfl
  rw [hres, hstore]
  refine ⟨hs, ?_, ?_, ?_⟩
  · simp [putc, set_terminal]
  · simp [putc, set_terminal]
  · simp [putc, set_terminal]

/-- The C string held by a line of non-NUL characters ends where the line does. -/
theorem strlen_of_ne_zero (l : List Nat) (h : ∀ c ∈ l, c ≠ 0) : strlen l = l.length := by
  unfold strlen
  have h1 : ∀ a ∈ l, (fun c => c != 0) a = true := by
    intro a ha
    simp [h a ha]
  rw [List.takeWhile_eq_self_iff.mpr h1]

/-- Leaving the wait loop with a line `chars` and its newline in the line
buffer, `terminal_read` returns the length of the line with its newline and
copies the line buffer to the caller. -/
theorem terminal_read_finish_line (s4 : kernel_state) (b : Nat → Nat) (n : Int)
    (chars : List Nat) (v : Nat) (hs4 : s4.scheduled_terminal = v)
    (hi4 : (s4.terminals v).kb_buf_i = (chars.length : Int) + 1)
    (hbuf4 : (s4.terminals v).kb_buf
      = (chars ++ [10]) ++ List.replicate (KEYBOARD_BUF_SIZE - (chars ++ [10]).length) 0)
    (hk : chars.length ≤ 127) :
    (terminal_read_finish s4 b n).ret = (chars.length : Int) + 1
    ∧ (terminal_read_finish s4 b n).buf
      = some (strncpy b ((chars ++ [10]) ++ List.replicate
          (KEYBOARD_BUF_SIZE - (chars ++ [10]).length) 0) n.toNat) := by
  have hidx : ((chars.length : Int) + 1 - 1) = (chars.length : Int) := by omega
  have hrange : (0 : Int) ≤ (chars.length : Int)
      ∧ (chars.length : Int) < (KEYBOARD_BUF_SIZE : Int) := by
    simp only [KEYBOARD_BUF_SIZE]; omega
  have hlast : ((chars ++ [10]) ++ List.replicate
      (KEYBOARD_BUF_SIZE - (chars ++ [10]).length) 0).getD chars.length 0 = 10 := by
    rw [List.getD_append _ _ _ _ (by simp), List.getD_append_right _ _ _ _ (Nat.le_refl _)]
    simp
  have ht1 : kb_note_load
      ((set_terminal s4 v { s4.terminals v with in_terminal_read := 0 }).terminals v)
      (((set_terminal s4 v { s4.terminals v with in_terminal_read := 0 }).terminals v).kb_buf_i
        - 1)
      = { s4.terminals v with in_terminal_read := 0 } := by
    simp only [set_terminal, if_true, hi4, hidx, kb_note_load, if_pos hrange]
  have hload : ∀ t : terminal_t,
      t.kb_buf = (chars ++ [10]) ++ List.replicate (KEYBOARD_BUF_SIZE - (chars ++ [10]).length) 0 →
      kb_load t ((chars.length : Int) + 1 - 1) = 10 := by
    intro t ht
    simp only [hidx, kb_load, if_pos hrange, ht, Int.toNat_ofNat, hlast]
  unfold terminal_read_finish
  simp only [hs4]
  rw [ht1]
  simp only [hi4, hbuf4]
  rw [if_neg]
  · exact ⟨rfl, rfl⟩
  · rw [hload _ rfl]
    decide

/-- C19 (confirmed). Round trip of a typed line.  On a terminal that is both
visible and scheduled, whose line buffer is cleared, with control not held,
`terminal_read` is called with size `n`; while it waits, the scan codes `scs`
arrive (printable keys, shift and caps-lock presses, releases), typing the
`k ≤ 127` printable characters `typed_chars ... scs` with `k + 1 ≤ n`, and
then Enter (`0x1C`).  The call is still blocked before Enter; after Enter it
returns `k + 1` and the caller's buffer holds the characters typed followed by
the newline. -/
theorem terminal_read_round_trip (s : kernel_state) (scs : List Nat) (b : Nat → Nat) (n : Int)
    (hvis : s.visible_terminal = s.scheduled_terminal)
    (hctrl : s.ctrl_flag = false)
    (hi : (s.terminals s.scheduled_terminal).kb_buf_i = 0)
    (hflag : (s.terminals s.scheduled_terminal).kb_enter_flag = 0)
    (hbuf : (s.terminals s.scheduled_terminal).kb_buf = List.replicate KEYBOARD_BUF_SIZE 0)
    (hcodes : ∀ sc ∈ scs, typing_code sc)
    (hk : (typed_chars s.caps_flag s.left_shift_flag s.right_shift_flag scs).length ≤ 127)
    (hn : ((typed_chars s.caps_flag s.left_shift_flag s.right_shift_flag scs).length : Int) + 1
      ≤ n) :
    terminal_read s scs (some b) n = none
    ∧ ∃ r b1, terminal_read s (scs ++ [0x1C]) (some b) n = some r
      ∧ r.ret = ((typed_chars s.caps_flag s.left_shift_flag s.right_shift_flag scs).length : Int)
          + 1
      ∧ r.buf = some b1
      ∧ ∀ i, i ≤ (typed_chars s.caps_flag s.left_shift_flag s.right_shift_flag scs).length →
          b1 i = (typed_chars s.caps_flag s.left_shift_flag s.right_shift_flag scs
            ++ [10]).getD i 0 := by
  have hnpos : ¬ (n ≤ 0) := by omega
  have h0 : line_typed
      (set_terminal { s with terminal_buf_n_bytes := n } s.scheduled_terminal
        { s.terminals s.scheduled_terminal with in_terminal_read := 1 })
      s.scheduled_terminal n [] := by
    refine ⟨hvis, rfl, rfl, hctrl, ?_, ?_, ?_, ?_⟩
    · simp [set_terminal]
    · simp [set_terminal, hflag]
    · simp [set_terminal, hi]
    · simp [set_terminal, hbuf]
  have hrun : line_typed
      (keyboard_run (set_terminal { s with terminal_buf_n_bytes := n } s.scheduled_terminal
        { s.terminals s.scheduled_terminal with in_terminal_read := 1 }) scs)
      s.scheduled_terminal n
      (typed_chars s.caps_flag s.left_shift_flag s.right_shift_flag scs) :=
    keyboard_run_typing s.scheduled_terminal n scs _ [] h0 hcodes
      (by simpa using hk) (by simpa using hn)
  have hrun2 := hrun
  obtain ⟨hv3, hs3, hnb3, hctrl3, hin3, hent3, hi3, hbuf3⟩ := hrun2
  obtain ⟨hs4, hent4, hi4, hbuf4⟩ := keyboard_handler_enter _ s.scheduled_terminal n _ hrun hk
  have hne := typed_chars_ne_zero scs s.caps_flag s.left_shift_flag s.right_shift_flag
  refine ⟨?_, ?_⟩
  · unfold terminal_read
    simp only [if_neg hnpos]
    rw [if_pos]
    show ((keyboard_run _ scs).terminals (keyboard_run _ scs).scheduled_terminal).kb_enter_flag = 0
    rw [hs3]
    exact hent3
  · have hcall : terminal_read s (scs ++ [0x1C]) (some b) n
        = some (terminal_read_finish
            (keyboard_handler (keyboard_run
              (set_terminal { s with terminal_buf_n_bytes := n } s.scheduled_terminal
                { s.terminals s.scheduled_terminal with in_terminal_read := 1 }) scs) 0x1C)
            b n) := by
      unfold terminal_read
      simp only [if_neg hnpos]
      have hfold : ∀ s0, keyboard_run s0 (scs ++ [0x1C])
          = keyboard_handler (keyboard_run s0 scs) 0x1C := by
        intro s0
        simp [keyboard_run, List.foldl_append]
      rw [hfold, if_neg]
      rw [hs4, hent4]
      decide
    have hne10 : ∀ c ∈ typed_chars s.caps_flag s.left_shift_flag s.right_shift_flag scs ++ [10],
        c ≠ 0 := by
      intro c hc
      rcases List.mem_append.mp hc with hc | hc
      · exact hne c hc
      · simp at hc
        omega
    have hfin := terminal_read_finish_line _ b n _ s.scheduled_terminal hs4 hi4 hbuf4 hk
    refine ⟨_, _, hcall, hfin.1, hfin.2, ?_⟩
    intro i hi
    unfold strncpy
    have hin : i < n.toNat := by omega
    rw [if_pos hin, strlen_append_zeros _ _ hne10, strlen_of_ne_zero _ hne10,
      if_pos (by simp; omega), List.getD_append _ _ _ _ (by simp; omega)]

/-- Witness for C19: on the first terminal of `three_shells fs_demo` the keys
`h`, shift down, `i`, shift up type `hI`; with Enter a read of size 8 returns
3 and delivers `hI` and the newline. -/
theorem terminal_read_round_trip_witness :
    terminal_read (three_shells fs_demo) [0x23, 0x2A, 0x17, 0xAA] (some (fun _ => 0)) 8 = none
    ∧ ∃ r b1, terminal_read (three_shells fs_demo) ([0x23, 0x2A, 0x17, 0xAA] ++ [0x1C])
          (some (fun _ => 0)) 8 = some r
      ∧ r.ret = ((typed_chars false false false [0x23, 0x2A, 0x17, 0xAA]).length : Int) + 1
      ∧ r.buf = some b1
      ∧ ∀ i, i ≤ (typed_chars false false false [0x23, 0x2A, 0x17, 0xAA]).length →
          b1 i = (typed_chars false false false [0x23, 0x2A, 0x17, 0xAA] ++ [10]).getD i 0 :=
  terminal_read_round_trip (three_shells fs_demo) [0x23, 0x2A, 0x17, 0xAA] (fun _ => 0) 8
    rfl rfl rfl rfl rfl
    (by
      intro sc hsc
      simp only [List.mem_cons, List.mem_singleton, List.not_mem_nil, or_false] at hsc
      rcases hsc with h | h | h | h
      · subst h; exact Or.inl ⟨by decide, by decide⟩
      · subst h; exact Or.inr (Or.inr (Or.inl rfl))
      · subst h; exact Or.inl ⟨by decide, by decide⟩
      · subst h; exact Or.inr (Or.inl (by decide)))
    (by decide) (by decide)

end Kernel

namespace Kernel

/-! ## The scheduler and the user video page -/

/-- A steady-state switch presents the user video page whatever the PCBs say:
when the scheduled terminal and the next one both have a PCB, `scheduler`
leaves directory entry 64 present and no `called_vidmap` flag changed. -/
theorem scheduler_switch_presents (s : kernel_state) (curr_pcb : Nat) (hc : curr_pcb ≠ 0)
    (hnext : (s.terminals ((s.scheduled_terminal + 1) % MAX_TERMINALS)).terminal_pcb ≠ 0) :
    ((scheduler_switch s curr_pcb).state.page_directory USER_VID_PAGE_DIR_I).present = 1
    ∧ ∀ a, ((scheduler_switch s curr_pcb).state.pcb_mem a).called_vidmap
        = (s.pcb_mem a).called_vidmap := by
  unfold scheduler_switch
  rw [if_neg hc]
  simp only [set_pcb]
  rw [if_neg hnext]
  refine ⟨?_, ?_⟩
  · simp [scheduler_result.state, set_user_prog_page, set_user_video_page,
      USER_VID_PAGE_DIR_I, USER_PAGE_BASE_ADDR]
  · intro a
    simp only [scheduler_result.state, set_user_prog_page, set_user_video_page]
    split
    · next h => rw [h]
    · rfl

/-- C11 (code bug). From `init_paging` by scheduler ticks alone: after the
five ticks that boot the three base shells directory entry 64 is still absent;
the sixth tick, the first switch between two booted terminals, calls
`set_user_video_page(1)` and leaves entry 64 present, although the live
processes are the three shells (PIDs 0, 1, 2) and no PCB has `called_vidmap`
set: no process ever called `vidmap`. -/
theorem scheduler_presents_video_page_without_vidmap :
    (scheduler_run (fun _ => 0) boot_ticks (boot_state fs_demo)).map
        (fun s => (s.page_directory USER_VID_PAGE_DIR_I).present) = some 0
    ∧ (scheduler_run (fun _ => 0) (boot_ticks ++ [tick_on 2]) (boot_state fs_demo)).map
        (fun s => ((s.page_directory USER_VID_PAGE_DIR_I).present, s.processes,
          (List.range MAX_PROCESSES).map
            (fun pid => (s.pcb_mem (pcb_addr pid)).called_vidmap)))
      = some (1, [1, 1, 1, 0, 0, 0], [0, 0, 0, 0, 0, 0]) := by
  decide

end Kernel

namespace Kernel

/-! ## The PCB address and the ring-0 stack top -/

/-- C26: for every PID `p` in 0..5 the ring-0 stack top `8 MiB - p * 8 KiB - 4`
(the value `execute` and `halt` compute, and the 32-bit value `scheduler`
computes) masked with `0xFFFFE000` is `8 MiB - (p + 1) * 8 KiB`, the address at
which `execute` initialises the PCB of `p`; hence in a state whose `tss.esp0`
is that stack top the PCB the system calls work on is the PCB of `p`, as it is
right after `execute` launches `p`; the PCB addresses of two different PIDs
differ by at least 8 KiB and each PCB block lies inside `[4 MiB, 8 MiB)`. -/
theorem pcb_of_installed_stack (p : Nat) (hp : p < MAX_PROCESSES) :
    Nat.land (EIGHT_MB - p * EIGHT_KB - 4) 0xFFFFE000 = EIGHT_MB - (p + 1) * EIGHT_KB
    ∧ to_uint32 ((EIGHT_MB : Int) - ((p * EIGHT_KB : Nat) : Int) - 4)
        = EIGHT_MB - p * EIGHT_KB - 4
    ∧ (∀ s : kernel_state, s.tss_esp0 = EIGHT_MB - p * EIGHT_KB - 4 →
        current_pcb_addr s = pcb_addr p)
    ∧ (∀ (sd : kernel_state) (d : dentry_t) (stack : Nat → Nat),
        current_pcb_addr (execute_launch sd p d stack).2 = pcb_addr p
        ∧ ((execute_launch sd p d stack).2.terminals sd.scheduled_terminal).terminal_pcb
            = pcb_addr p)
    ∧ (∀ q, q < MAX_PROCESSES → q ≠ p →
        pcb_addr p + EIGHT_KB ≤ pcb_addr q ∨ pcb_addr q + EIGHT_KB ≤ pcb_addr p)
    ∧ FOUR_MB ≤ pcb_addr p ∧ pcb_addr p + EIGHT_KB ≤ EIGHT_MB := by
  have hmask : Nat.land (EIGHT_MB - p * EIGHT_KB - 4) 0xFFFFE000
      = EIGHT_MB - (p + 1) * EIGHT_KB := by
    unfold MAX_PROCESSES at hp
    interval_cases p <;> decide
  have h32 : to_uint32 ((EIGHT_MB : Int) - ((p * EIGHT_KB : Nat) : Int) - 4)
      = EIGHT_MB - p * EIGHT_KB - 4 := by
    unfold MAX_PROCESSES at hp
    interval_cases p <;> decide
  refine ⟨hmask, h32, ?_, ?_, ?_, ?_, ?_⟩
  · intro s hs
    unfold current_pcb_addr pcb_addr
    rw [hs]
    exact hmask
  · intro sd d stack
    obtain ⟨_, _, h3, _, h5⟩ := execute_launch_pid sd p d stack
    refine ⟨?_, h3⟩
    unfold current_pcb_addr pcb_addr
    rw [h5]
    exact hmask
  · intro q hq hne
    unfold pcb_addr EIGHT_MB EIGHT_KB
    unfold MAX_PROCESSES at hp hq
    omega
  · unfold pcb_addr EIGHT_MB EIGHT_KB FOUR_MB
    unfold MAX_PROCESSES at hp
    omega
  · unfold pcb_addr EIGHT_MB EIGHT_KB
    unfold MAX_PROCESSES at hp
    omega

/-- Instance of C26 for PID 3. -/
theorem pcb_of_installed_stack_witness :
    Nat.land (EIGHT_MB - 3 * EIGHT_KB - 4) 0xFFFFE000 = EIGHT_MB - (3 + 1) * EIGHT_KB
    ∧ FOUR_MB ≤ pcb_addr 3 ∧ pcb_addr 3 + EIGHT_KB ≤ EIGHT_MB := by
  have h := pcb_of_installed_stack 3 (by decide)
  exact ⟨h.1, h.2.2.2.2.2⟩

end Kernel

namespace Kernel

/-! ## `scheduler`: what a tick installs -/

/-- A tick from a terminal without PCB never returns: it enters the shell it
boots or stores through `NULL`. -/
theorem scheduler_of_unbooted (s : kernel_state) (temp_pcb : Nat) (stack : Nat → Nat)
    (hcur : (s.terminals s.scheduled_terminal).terminal_pcb = 0) :
    (∃ entry s1, scheduler s temp_pcb stack = scheduler_result.entered_user entry s1)
    ∨ (∃ s1, scheduler s temp_pcb stack = scheduler_result.null_store s1) := by
  have hnull : ∀ t, scheduler_switch t 0 = scheduler_result.null_store t := by
    intro t
    simp [scheduler_switch]
  unfold scheduler
  simp only [hcur, true_and]
  split
  · split
    · exact Or.inl ⟨_, _, rfl⟩
    · exact Or.inr ⟨_, hnull _⟩
  · exact Or.inr ⟨_, hnull _⟩

/-- A tick from a booted terminal is the switch of lines 44-76. -/
theorem scheduler_of_booted (s : kernel_state) (temp_pcb : Nat) (stack : Nat → Nat)
    (hcur : (s.terminals s.scheduled_terminal).terminal_pcb ≠ 0) :
    scheduler s temp_pcb stack
      = scheduler_switch s (s.terminals s.scheduled_terminal).terminal_pcb := by
  unfold scheduler
  simp only [hcur, false_and, if_false]

/-- The switch to a booted terminal: the state it leaves. -/
theorem scheduler_switch_spec (s : kernel_state) (curr_pcb p : Nat) (hc : curr_pcb ≠ 0)
    (hnext : (s.terminals ((s.scheduled_terminal + 1) % MAX_TERMINALS)).terminal_pcb ≠ 0)
    (hp : (s.pcb_mem (s.terminals ((s.scheduled_terminal + 1) % MAX_TERMINALS)).terminal_pcb).process_id
      = p) :
    ∃ s1, scheduler_switch s curr_pcb = scheduler_result.switched s1
      ∧ s1.scheduled_terminal = (s.scheduled_terminal + 1) % MAX_TERMINALS
      ∧ s1.visible_terminal = s.visible_terminal
      ∧ s1.terminals = s.terminals
      ∧ s1.tss_esp0 = to_uint32 ((EIGHT_MB : Int) - ((p * EIGHT_KB : Nat) : Int) - 4)
      ∧ s1.tss_ss0 = KERNEL_DS
      ∧ (s1.page_directory USER_PAGE_BASE_ADDR).present = 1
      ∧ (s1.page_directory USER_PAGE_BASE_ADDR).page_size = 1
      ∧ (s1.page_directory USER_PAGE_BASE_ADDR).user_supervisor = 1
      ∧ (s1.page_directory USER_PAGE_BASE_ADDR).base_addr = (2 + p) % 1024
      ∧ (s1.user_video_table 0).page_base_address
          = (if s.visible_terminal = (s.scheduled_terminal + 1) % MAX_TERMINALS
              then VIDMEM_PAGE_BASE
              else VIDMEM_PAGE_BASE + (s.scheduled_terminal + 1) % MAX_TERMINALS + 1) := by
  have hpid : ∀ a, ((set_pcb s curr_pcb
      { s.pcb_mem curr_pcb with curr_esp := s.reg_esp, curr_ebp := s.reg_ebp }).pcb_mem
        a).process_id = (s.pcb_mem a).process_id := by
    intro a
    simp only [set_pcb]
    split
    · next h => rw [h]
    · rfl
  unfold scheduler_switch
  rw [if_neg hc]
  simp only [set_pcb]
  rw [if_neg hnext]
  refine ⟨_, rfl, rfl, rfl, rfl, ?_, rfl, ?_, ?_, ?_, ?_, ?_⟩
  · simp only [set_user_prog_page, set_user_video_page]
    have := hpid (s.terminals ((s.scheduled_terminal + 1) % MAX_TERMINALS)).terminal_pcb
    simp only [set_pcb] at this
    rw [this, hp]
  · simp [set_user_prog_page, USER_PAGE_BASE_ADDR]
  · simp [set_user_prog_page, USER_PAGE_BASE_ADDR]
  · simp [set_user_prog_page, USER_PAGE_BASE_ADDR]
  · simp only [set_user_prog_page, set_user_video_page, USER_PAGE_BASE_ADDR, if_true]
    have := hpid (s.terminals ((s.scheduled_terminal + 1) % MAX_TERMINALS)).terminal_pcb
    simp only [set_pcb] at this
    rw [this, hp]
  · simp [set_user_prog_page, set_user_video_page]

/-- C23: a scheduler tick taken when the incoming terminal
`(scheduled_terminal + 1) mod 3` has a PCB with PID `p` (one of 0..5).
Whenever `scheduler` returns, be it to the interrupted context or on the stack
of the next process, `scheduled_terminal` has advanced to that terminal,
`tss.esp0` is `8 MiB - p * 8 KiB - 4` and directory entry 32 is a present
4 MiB user page with base `2 + p`.  A tick taken on a booted terminal does
return (on the next process's stack); a tick taken on a terminal without PCB
does not return at all. -/
theorem scheduler_tick_installs_next (s : kernel_state) (temp_pcb : Nat) (stack : Nat → Nat)
    (p : Nat)
    (hnext : (s.terminals ((s.scheduled_terminal + 1) % MAX_TERMINALS)).terminal_pcb ≠ 0)
    (hp : (s.pcb_mem (s.terminals ((s.scheduled_terminal + 1) % MAX_TERMINALS)).terminal_pcb).process_id
      = p)
    (hp5 : p < MAX_PROCESSES) :
    (∀ s1, (scheduler s temp_pcb stack = scheduler_result.returned s1
          ∨ scheduler s temp_pcb stack = scheduler_result.switched s1) →
        s1.scheduled_terminal = (s.scheduled_terminal + 1) % MAX_TERMINALS
        ∧ s1.tss_esp0 = EIGHT_MB - p * EIGHT_KB - 4
        ∧ (s1.page_directory USER_PAGE_BASE_ADDR).present = 1
        ∧ (s1.page_directory USER_PAGE_BASE_ADDR).page_size = 1
        ∧ (s1.page_directory USER_PAGE_BASE_ADDR).user_supervisor = 1
        ∧ (s1.page_directory USER_PAGE_BASE_ADDR).base_addr = 2 + p)
    ∧ ((s.terminals s.scheduled_terminal).terminal_pcb ≠ 0 →
        ∃ s1, scheduler s temp_pcb stack = scheduler_result.switched s1)
    ∧ ((s.terminals s.scheduled_terminal).terminal_pcb = 0 →
        ∀ s1, scheduler s temp_pcb stack ≠ scheduler_result.returned s1
          ∧ scheduler s temp_pcb stack ≠ scheduler_result.switched s1) := by
  have h32 : to_uint32 ((EIGHT_MB : Int) - ((p * EIGHT_KB : Nat) : Int) - 4)
      = EIGHT_MB - p * EIGHT_KB - 4 := by
    unfold MAX_PROCESSES at hp5
    interval_cases p <;> decide
  have hbase : (2 + p) % 1024 = 2 + p := by
    unfold MAX_PROCESSES at hp5
    omega
  have hunbooted : (s.terminals s.scheduled_terminal).terminal_pcb = 0 →
      ∀ s1, scheduler s temp_pcb stack ≠ scheduler_result.returned s1
        ∧ scheduler s temp_pcb stack ≠ scheduler_result.switched s1 := by
    intro hcur s1
    rcases scheduler_of_unbooted s temp_pcb stack hcur with ⟨e, s2, h⟩ | ⟨s2, h⟩
    · rw [h]
      exact ⟨by simp, by simp⟩
    · rw [h]
      exact ⟨by simp, by simp⟩
  refine ⟨?_, ?_, hunbooted⟩
  · intro s1 hres
    by_cases hcur : (s.terminals s.scheduled_terminal).terminal_pcb = 0
    · rcases hres with h | h
      · exact absurd h (hunbooted hcur s1).1
      · exact absurd h (hunbooted hcur s1).2
    · obtain ⟨s2, hs2, k1, _, _, k4, _, k6, k7, k8, k9, _⟩ :=
        scheduler_switch_spec s _ p hcur hnext hp
      rw [scheduler_of_booted s temp_pcb stack hcur, hs2] at hres
      have heq : s2 = s1 := by
        rcases hres with h | h
        · exact absurd h (by simp)
        · exact scheduler_result.switched.inj h
      rw [← heq]
      exact ⟨k1, by rw [k4, h32], k6, k7, k8, by rw [k9, hbase]⟩
  · intro hcur
    obtain ⟨s2, hs2, _⟩ := scheduler_switch_spec s _ p hcur hnext hp
    exact ⟨s2, by rw [scheduler_of_booted s temp_pcb stack hcur, hs2]⟩

/-- Instance of C23: with the three shells running and terminal 0 scheduled,
a tick switches to terminal 1, whose shell has PID 1. -/
theorem scheduler_tick_installs_next_witness :
    ∃ s1, scheduler (three_shells fs_demo) 0x7FFE40 (fun _ => 0) = scheduler_result.switched s1
      ∧ s1.scheduled_terminal = 1
      ∧ s1.tss_esp0 = EIGHT_MB - 1 * EIGHT_KB - 4
      ∧ (s1.page_directory USER_PAGE_BASE_ADDR).present = 1
      ∧ (s1.page_directory USER_PAGE_BASE_ADDR).base_addr = 2 + 1 := by
  have h := scheduler_tick_installs_next (three_shells fs_demo) 0x7FFE40 (fun _ => 0) 1
    (by decide) (by decide) (by decide)
  obtain ⟨s1, hs1⟩ := h.2.1 (by decide)
  obtain ⟨k1, k2, k3, _, _, k6⟩ := h.1 s1 (Or.inr hs1)
  exact ⟨s1, hs1, k1, k2, k3, k6⟩

end Kernel

namespace Kernel

/-! ## `read_file`: the file position -/

/-- C29 (evaluation at the failing input): the base shell opens the 8-byte
file `note` (descriptor 2) and reads it in chunks of 5 bytes.  The first call
returns 5 and leaves `file_pos` 5; the second returns 4 (the bytes at offsets
5..7 and the byte at offset 8, past the end) but advances `file_pos` by 5, to
10; the third returns 0 and still advances `file_pos`, to 15.  The values
returned sum to 9, not to the file size 8. -/
theorem read_file_advances_by_nbytes :
    (sys_open (three_shells fs_dir) (some [110, 111, 116, 101])).1 = 2
    ∧ (fs_dir.fs_inode 2).file_size = 8
    ∧ read_chunks 2 5 3 (sys_open (three_shells fs_dir) (some [110, 111, 116, 101])).2
        = some [(5, 5), (4, 10), (0, 15)] := by
  refine ⟨by decide, by decide, by decide⟩

end Kernel

namespace Kernel

/-! ## `halt`: the exception flag after a fault in a base shell -/

/-- C30 (evaluation at the failing input): with the three shells running, the
base shell of terminal 0 raises an exception.  `halt_wrapper` sets
`exception_flag` and calls `halt(255)`, which restarts the shell through
`execute("shell")` before it reaches the lines that clear the flag: no status
is handed back and the flag is still set in the new shell.  The new shell then
runs `cat`, which ends with `halt(0)`: the status handed to the shell is 256,
not 0. -/
theorem halt_reports_stale_exception :
    (halt_wrapper (three_shells fs_demo) (fun _ => 0)).status = none
    ∧ (halt_wrapper (three_shells fs_demo) (fun _ => 0)).state.exception_flag = 1
    ∧ (execute (halt_wrapper (three_shells fs_demo) (fun _ => 0)).state
        (some [99, 97, 116]) (fun _ => 0)).ret = none
    ∧ (halt (execute (halt_wrapper (three_shells fs_demo) (fun _ => 0)).state
        (some [99, 97, 116]) (fun _ => 0)).state 0 (fun _ => 0)).status = some 256 := by
  refine ⟨by decide, by decide, by decide, by decide⟩

end Kernel

namespace Kernel

/-! ## The user video alias after a switch of the visible terminal -/

/-- C24 (evaluation at the failing input): after the six ticks from
`boot_state` (the sixth is the first steady-state tick) terminal 0 is
scheduled, terminal 2 is visible and slot 0 of the user video table targets
`0xB9`, the shadow of terminal 0.  `switch_visible_terminal(0)` (Alt+F1) then
makes terminal 0 visible as well as scheduled, but slot 0 still targets
`0xB9`, not the frame `0xB8`. -/
theorem switch_visible_terminal_leaves_user_alias :
    (scheduler_run (fun _ => 0) (boot_ticks ++ [tick_on 2]) (boot_state fs_demo)).map
        (fun s => (s.visible_terminal, s.scheduled_terminal,
          (s.user_video_table 0).page_base_address)) = some (2, 0, 0xB9)
    ∧ (scheduler_run (fun _ => 0) (boot_ticks ++ [tick_on 2]) (boot_state fs_demo)).map
        (fun s => ((switch_visible_terminal s 0).visible_terminal,
          (switch_visible_terminal s 0).scheduled_terminal,
          ((switch_visible_terminal s 0).user_video_table 0).page_base_address))
      = some (0, 0, 0xB9) := by
  refine ⟨by decide, by decide⟩

end Kernel

namespace Kernel

/-! ## The line buffer: what a run can store and where -/

/-- C22 (evaluation at the failing input): after `init_terminal` the Escape
key (scan code `0x01`) is pressed.  Its table entry `0x1B` is stored in the
line buffer of the visible terminal and `kb_buf_i` becomes 1, although `0x1B`
is neither printable ASCII nor one of newline, backspace and tab.  Keys after
Enter are stored as well: with a read pending, `a`, Enter, `a` leaves the
newline at index 1 while `kb_buf_i` is 3. -/
theorem keyboard_handler_stores_escape :
    (((run_kb_calls (init_terminal (zero_state fs_demo)) [kb_call.key 0x01]).terminals 0).kb_buf_i,
      ((run_kb_calls (init_terminal (zero_state fs_demo)) [kb_call.key 0x01]).terminals
        0).kb_buf.getD 0 0) = (1, 0x1B)
    ∧ (((run_kb_calls (init_terminal (zero_state fs_demo))
          [kb_call.read (some (fun _ => 0)) 128 [0x1E], kb_call.key 0x1C,
            kb_call.key 0x1E]).terminals 0).kb_buf_i,
        ((run_kb_calls (init_terminal (zero_state fs_demo))
          [kb_call.read (some (fun _ => 0)) 128 [0x1E], kb_call.key 0x1C,
            kb_call.key 0x1E]).terminals 0).kb_buf.take 3) = (3, [97, 10, 97]) := by
  refine ⟨by decide, by decide⟩

end Kernel

namespace Kernel

set_option maxRecDepth 1000000 in
/-- C28 (evaluation at the failing input): after `init_terminal` a
`terminal_read` of 128 bytes is pending.  Enter followed by Backspace before
the reader runs again leaves `kb_buf_i` 0 with the Enter flag set, and
`terminal_read` then loads and stores `kb_buf[-1]`.  Enter after 127
characters stores the newline at index 127 and leaves `kb_buf_i` 128; one more
Enter before the reader runs again stores at `kb_buf[128]`. -/
theorem line_buffer_access_out_of_range :
    ((terminal_read (init_terminal (zero_state fs_demo)) [0x1C, 0x0E] (some (fun _ => 0)) 128).map
        (fun r => (r.state.terminals 0).kb_oob)) = some [-1, -1]
    ∧ ((run_kb_calls (init_terminal (zero_state fs_demo))
          [kb_call.read (some (fun _ => 0)) 128 (List.replicate 127 0x1E), kb_call.key 0x1C,
            kb_call.key 0x1C]).terminals 0).kb_oob = [128] := by
  refine ⟨by decide, by decide⟩

end Kernel

namespace Kernel

/-! ## `change_terminal_video_page` -/

/-- C25 (counterexample): in `frames_demo` terminal 0 is visible;
`redirect_vidmem_page(2)` makes slot `0xB8` of the kernel video table target
the shadow frame `0xBB`.  `change_terminal_video_page(0, 1)` then copies
through that slot: the shadow of terminal 0 (frame `0xB9`) receives the
content of frame `0xBB`, not that of the VGA frame `0xB8`, and the VGA frame
keeps its content instead of receiving that of the shadow of terminal 1
(frame `0xBA`). -/
theorem change_terminal_video_page_through_redirect :
    ((redirect_vidmem_page frames_demo 2).page_table_one VIDMEM_PAGE_BASE).page_base_address
        = 0xBB
    ∧ (change_terminal_video_page (redirect_vidmem_page frames_demo 2) 0 1).video_frames 0xB9 0
        = 0xBB
    ∧ (redirect_vidmem_page frames_demo 2).video_frames 0xB8 0 = 0xB8
    ∧ (change_terminal_video_page (redirect_vidmem_page frames_demo 2) 0 1).video_frames 0xB8 0
        = 0xB8
    ∧ (redirect_vidmem_page frames_demo 2).video_frames 0xBA 0 = 0xBA
    ∧ ¬ ((change_terminal_video_page (redirect_vidmem_page frames_demo 2) 0 1).video_frames 0xB9 0
          = (redirect_vidmem_page frames_demo 2).video_frames 0xB8 0
        ∧ (change_terminal_video_page (redirect_vidmem_page frames_demo 2) 0 1).video_frames 0xB8 0
          = (redirect_vidmem_page frames_demo 2).video_frames 0xBA 0) := by
  refine ⟨by decide, by decide, by decide, by decide, by decide, by decide⟩

/-- C25 (amended): for `a ≠ b` in 0..2, when the kernel video table maps the
slots `0xB8..0xBB` to the frames of the same number (as `init_paging` leaves
them), after `change_terminal_video_page(a, b)` the shadow frame of `a`
(physical `VIDMEM + (a + 1) * 4 KiB`) holds the previous content of the VGA
frame, the VGA frame holds the previous content of the shadow frame of `b`,
and every other frame is unchanged; with an id outside 0..2 nothing changes,
whatever the table maps. -/
theorem change_terminal_video_page_spec (s : kernel_state) (a b : Nat)
    (ha : a ≤ 2) (hb : b ≤ 2) (hab : a ≠ b)
    (hmap : ∀ k, k ≤ 3 →
      (s.page_table_one (VIDMEM_PAGE_BASE + k)).page_base_address = VIDMEM_PAGE_BASE + k) :
    (VIDMEM_PAGE_BASE + a + 1) * FOUR_KB = VIDMEM + (a + 1) * FOUR_KB
    ∧ (change_terminal_video_page s (a : Int) (b : Int)).video_frames (VIDMEM_PAGE_BASE + a + 1)
        = s.video_frames VIDMEM_PAGE_BASE
    ∧ (change_terminal_video_page s (a : Int) (b : Int)).video_frames VIDMEM_PAGE_BASE
        = s.video_frames (VIDMEM_PAGE_BASE + b + 1)
    ∧ (∀ f, f ≠ VIDMEM_PAGE_BASE → f ≠ VIDMEM_PAGE_BASE + a + 1 →
        (change_terminal_video_page s (a : Int) (b : Int)).video_frames f = s.video_frames f)
    ∧ (∀ (t : kernel_state) (x y : Int), (x < 0 ∨ x > 2 ∨ y < 0 ∨ y > 2) →
        change_terminal_video_page t x y = t) := by
  have h0 := hmap 0 (by omega)
  have h1 := hmap (a + 1) (by omega)
  have h2 := hmap (b + 1) (by omega)
  simp only [Nat.add_zero] at h0
  have hcond : ¬ ((a : Int) < 0 ∨ (a : Int) > 2 ∨ (b : Int) < 0 ∨ (b : Int) > 2) := by omega
  have hta : ((a : Int) + 1).toNat = a + 1 := by omega
  have htb : ((b : Int) + 1).toNat = b + 1 := by omega
  have hres : (change_terminal_video_page s (a : Int) (b : Int)).video_frames
      = fun f => if f = VIDMEM_PAGE_BASE then s.video_frames (VIDMEM_PAGE_BASE + (b + 1))
          else if f = VIDMEM_PAGE_BASE + (a + 1) then s.video_frames VIDMEM_PAGE_BASE
          else s.video_frames f := by
    unfold change_terminal_video_page
    rw [if_neg hcond]
    simp only [copy_video_page, hta, htb, h0, h1, h2]
    funext f
    by_cases hf : f = VIDMEM_PAGE_BASE
    · have hne : ¬ (VIDMEM_PAGE_BASE + (b + 1) = VIDMEM_PAGE_BASE + (a + 1)) := by omega
      simp [hf, hne]
    · simp [hf]
  refine ⟨by unfold VIDMEM_PAGE_BASE FOUR_KB VIDMEM; omega, ?_, ?_, ?_, ?_⟩
  · rw [hres]
    have hne : ¬ (VIDMEM_PAGE_BASE + a + 1 = VIDMEM_PAGE_BASE) := by omega
    simp [hne, Nat.add_assoc]
  · rw [hres]
    simp [Nat.add_assoc]
  · intro f hf1 hf2
    rw [hres]
    have hf3 : ¬ (f = VIDMEM_PAGE_BASE + (a + 1)) := by omega
    simp [hf1, hf3]
  · intro t x y hxy
    unfold change_terminal_video_page
    rw [if_pos hxy]

/-- Instance of C25 (amended) in `frames_demo`: switching from terminal 0 to
terminal 1 saves the VGA frame to `0xB9` and loads `0xBA`. -/
theorem change_terminal_video_page_spec_witness :
    (change_terminal_video_page frames_demo ((0 : Nat) : Int) ((1 : Nat) : Int)).video_frames
        (VIDMEM_PAGE_BASE + 0 + 1) = frames_demo.video_frames VIDMEM_PAGE_BASE
    ∧ (change_terminal_video_page frames_demo ((0 : Nat) : Int) ((1 : Nat) : Int)).video_frames
        VIDMEM_PAGE_BASE = frames_demo.video_frames (VIDMEM_PAGE_BASE + 1 + 1) := by
  have h := change_terminal_video_page_spec frames_demo 0 1 (by decide) (by decide) (by decide)
    (by
      intro k hk
      interval_cases k <;> decide)
  exact ⟨h.2.1, h.2.2.1⟩

end Kernel

namespace Kernel

/-! ## The virtual clock: the invariant of an active terminal -/

/-- One interrupt keeps the condition on a terminal's virtual clock. -/
theorem RTC_interrupt_terminal_ok (t : terminal_t) (h : rtc_ok t) :
    rtc_ok (RTC_interrupt_terminal t) := by
  unfold RTC_interrupt_terminal
  by_cases hact : t.rtc_active ≠ 0
  · obtain ⟨hf, h1, h2⟩ := h hact
    rw [if_pos hact]
    have hfreq : 2 ≤ t.rtc_freq ∧ t.rtc_freq ≤ 128 := by
      simp only [List.mem_cons, List.mem_singleton, List.not_mem_nil, or_false] at hf
      omega
    have hq : HIGHEST_FREQ / t.rtc_freq ≤ 512 ∧ 8 ≤ HIGHEST_FREQ / t.rtc_freq := by
      unfold HIGHEST_FREQ
      constructor
      · exact Nat.div_le_of_le_mul (by omega)
      · exact (Nat.le_div_iff_mul_le (by omega)).mpr (by omega)
    have hdec : (t.rtc_countdown + U32 - 1) % U32 = t.rtc_countdown - 1 := by
      unfold U32
      omega
    simp only [hdec]
    by_cases hz : t.rtc_countdown - 1 = 0
    · rw [if_pos hz]
      intro _
      exact ⟨hf, by show 1 ≤ HIGHEST_FREQ / t.rtc_freq; omega, Nat.le_refl _⟩
    · rw [if_neg hz]
      intro _
      exact ⟨hf, by show 1 ≤ t.rtc_countdown - 1; omega,
        by show t.rtc_countdown - 1 ≤ HIGHEST_FREQ / t.rtc_freq; omega⟩
  · rw [if_neg hact]
    exact h

/-- `RTC_interrupt` keeps the condition on every terminal. -/
theorem RTC_interrupt_ok (s : kernel_state) (i : Nat) (h : rtc_ok (s.terminals i)) :
    rtc_ok ((RTC_interrupt s).terminals i) := by
  unfold RTC_interrupt
  simp only
  split
  · exact RTC_interrupt_terminal_ok _ h
  · exact h

/-- Any number of interrupts keeps the condition on every terminal. -/
theorem RTC_interrupt_iterate_ok (i : Nat) :
    ∀ (ticks : Nat) (s : kernel_state), rtc_ok (s.terminals i) →
      rtc_ok ((Nat.iterate RTC_interrupt ticks s).terminals i) := by
  intro ticks
  induction ticks with
  | zero => intro s h; exact h
  | succ k ih =>
    intro s h
    rw [Function.iterate_succ_apply]
    exact ih _ (RTC_interrupt_ok s i h)

/-- A successful `RTC_write` stores one of the seven accepted frequencies and
the countdown that belongs to it; a failed one changes nothing. -/
theorem RTC_write_state (s : kernel_state) (fd n_bytes : Int) (buf : Option (Nat → Nat))
    (r : Int × kernel_state) (h : RTC_write s fd buf n_bytes = some r) :
    r.2 = s
    ∨ ∃ f, f ∈ [2, 4, 8, 16, 32, 64, 128]
        ∧ r.2 = set_terminal s s.scheduled_terminal
            { s.terminals s.scheduled_terminal with
              rtc_freq := f, rtc_countdown := HIGHEST_FREQ / f } := by
  cases buf with
  | none =>
    simp only [RTC_write] at h
    exact Or.inl (by rw [← Option.some.inj h])
  | some b =>
    have hb := RTC_write_ret_byte ⟨b 0 % 256, Nat.mod_lt _ (by decide)⟩
    simp only at hb
    unfold RTC_write at h
    simp only at h
    by_cases h1 : b 0 % 256 % 2 ≠ 0
    · rw [if_pos h1] at h
      exact Or.inl (by rw [← Option.some.inj h])
    · rw [if_neg h1] at h hb
      by_cases h2 : b 0 % 256 / 2 = 0
      · rw [if_pos h2] at h
        exact Or.inl (by rw [← Option.some.inj h])
      · rw [if_neg h2] at h hb
        rw [hb] at h
        by_cases hm : b 0 % 256 ∈ [2, 4, 8, 16, 32, 64, 128]
        · simp only [hm, decide_True] at h
          exact Or.inr ⟨b 0 % 256, hm, by rw [← Option.some.inj h]⟩
        · simp only [hm, decide_False] at h
          exact Or.inl (by rw [← Option.some.inj h])

/-- Every call of the clock driver keeps the condition on each terminal. -/
theorem run_rtc_call_ok (s : kernel_state) (c : rtc_call) (i : Nat)
    (h : rtc_ok (s.terminals i)) : rtc_ok ((run_rtc_call s c).terminals i) := by
  cases c with
  | rtc_open =>
    simp only [run_rtc_call, RTC_open, set_terminal]
    split
    · intro _
      exact ⟨by simp, by show 1 ≤ HIGHEST_FREQ / 2; decide, Nat.le_refl _⟩
    · exact h
  | rtc_write fd buf n_bytes =>
    simp only [run_rtc_call]
    cases hw : RTC_write s fd buf n_bytes with
    | none => exact h
    | some r =>
      simp only
      rcases RTC_write_state s fd n_bytes buf r hw with hr | ⟨f, hf, hr⟩
      · rw [hr]
        exact h
      · rw [hr]
        simp only [set_terminal]
        split
        · intro hact
          have hf2 : 2 ≤ f ∧ f ≤ 128 := by
            simp only [List.mem_cons, List.mem_singleton, List.not_mem_nil, or_false] at hf
            omega
          refine ⟨hf, ?_, Nat.le_refl _⟩
          show 1 ≤ HIGHEST_FREQ / f
          exact (Nat.le_div_iff_mul_le (by omega)).mpr (by unfold HIGHEST_FREQ; omega)
        · exact h
  | rtc_close fd =>
    simp only [run_rtc_call, RTC_close, set_terminal]
    split
    · intro hact
      exact absurd rfl hact
    · exact h
  | rtc_read ticks =>
    simp only [run_rtc_call]
    have hit := RTC_interrupt_iterate_ok i ticks s h
    cases hr : RTC_read s ticks with
    | none => exact hit
    | some r =>
      simp only
      unfold RTC_read at hr
      simp only at hr
      split at hr
      · exact absurd hr (by simp)
      · rw [← Option.some.inj hr]
        simp only [set_terminal]
        split
        · next heq =>
          rw [heq] at hit
          exact hit
        · exact hit
  | rtc_interrupt =>
    exact RTC_interrupt_ok s i h

/-- Every run of calls of the clock driver keeps the condition on each
terminal. -/
theorem run_rtc_calls_ok (i : Nat) :
    ∀ (calls : List rtc_call) (s : kernel_state), rtc_ok (s.terminals i) →
      rtc_ok ((run_rtc_calls s calls).terminals i) := by
  intro calls
  induction calls with
  | nil => intro s h; exact h
  | cons c rest ih =>
    intro s h
    exact ih (run_rtc_call s c) (run_rtc_call_ok s c i h)

/-- C27: in every state reached from `init_terminal` by a run of `RTC_open`,
`RTC_write`, `RTC_close`, `RTC_read` and `RTC_interrupt` calls, every terminal
whose clock is active has `rtc_freq` in {2, 4, 8, 16, 32, 64, 128} and
`1 ≤ rtc_countdown ≤ 1024 / rtc_freq`; so the next `RTC_interrupt` divides by
a non-zero frequency and decrements a non-zero countdown. -/
theorem rtc_active_invariant (s0 : kernel_state) (calls : List rtc_call) (i : Nat)
    (hi : i < MAX_TERMINALS)
    (hact : ((run_rtc_calls (init_terminal s0) calls).terminals i).rtc_active ≠ 0) :
    ((run_rtc_calls (init_terminal s0) calls).terminals i).rtc_freq ∈ [2, 4, 8, 16, 32, 64, 128]
    ∧ 1 ≤ ((run_rtc_calls (init_terminal s0) calls).terminals i).rtc_countdown
    ∧ ((run_rtc_calls (init_terminal s0) calls).terminals i).rtc_countdown
        ≤ HIGHEST_FREQ / ((run_rtc_calls (init_terminal s0) calls).terminals i).rtc_freq
    ∧ ((run_rtc_calls (init_terminal s0) calls).terminals i).rtc_freq ≠ 0
    ∧ ((run_rtc_calls (init_terminal s0) calls).terminals i).rtc_countdown ≠ 0 := by
  have hinit : rtc_ok ((init_terminal s0).terminals i) := by
    intro h
    simp only [init_terminal, if_pos hi] at h
    exact absurd rfl h
  obtain ⟨hf, h1, h2⟩ := run_rtc_calls_ok i calls (init_terminal s0) hinit hact
  refine ⟨hf, h1, h2, ?_, by omega⟩
  simp only [List.mem_cons, List.mem_singleton, List.not_mem_nil, or_false] at hf
  omega

set_option maxRecDepth 1000000 in
/-- Instance of C27: after `RTC_open`, a write of the frequency 8 and 200
interrupts the clock of terminal 0 is active with frequency 8 and its
countdown is between 1 and 128. -/
theorem rtc_active_invariant_witness :
    ((run_rtc_calls (init_terminal (zero_state fs_demo))
        [rtc_call.rtc_open, rtc_call.rtc_write 2 (some (fun _ => 8)) 4,
          rtc_call.rtc_read 200]).terminals 0).rtc_active ≠ 0
    ∧ ((run_rtc_calls (init_terminal (zero_state fs_demo))
        [rtc_call.rtc_open, rtc_call.rtc_write 2 (some (fun _ => 8)) 4,
          rtc_call.rtc_read 200]).terminals 0).rtc_freq ∈ [2, 4, 8, 16, 32, 64, 128]
    ∧ 1 ≤ ((run_rtc_calls (init_terminal (zero_state fs_demo))
        [rtc_call.rtc_open, rtc_call.rtc_write 2 (some (fun _ => 8)) 4,
          rtc_call.rtc_read 200]).terminals 0).rtc_countdown :=
  have h := rtc_active_invariant (zero_state fs_demo)
    [rtc_call.rtc_open, rtc_call.rtc_write 2 (some (fun _ => 8)) 4, rtc_call.rtc_read 200] 0
    (by decide) (by decide)
  ⟨by decide, h.1, h.2.1⟩

end Kernel

namespace Kernel

/-! ## The line-buffer index -/

/-- The condition on the index only looks at the index, the Enter flag and
the record of out-of-range accesses. -/
theorem kb_index_ok_congr {past : Prop} (t t1 : terminal_t) (hi : t1.kb_buf_i = t.kb_buf_i)
    (hf : t1.kb_enter_flag = t.kb_enter_flag) (ho : t1.kb_oob = t.kb_oob)
    (h : kb_index_ok past t) : kb_index_ok past t1 := by
  unfold kb_index_ok at h ⊢
  rw [hi, hf, ho]
  exact h

/-- A store to the line buffer leaves the index and the Enter flag alone. -/
theorem kb_store_fields (t : terminal_t) (i : Int) (c : Nat) :
    (kb_store t i c).kb_buf_i = t.kb_buf_i
    ∧ (kb_store t i c).kb_enter_flag = t.kb_enter_flag := by
  unfold kb_store
  split <;> exact ⟨rfl, rfl⟩

/-- A store at the index of the line buffer followed by the advance of the
index keeps the condition on the index, provided the index was not 127 or the
store is the one of Enter, which raises the flag. -/
theorem kb_store_advance_ok {past : Prop} (t t1 : terminal_t) (c : Nat)
    (hi : t1.kb_buf_i = t.kb_buf_i + 1)
    (ho : t1.kb_oob = (kb_store t t.kb_buf_i c).kb_oob)
    (h : kb_index_ok past t)
    (hroom : t.kb_buf_i ≠ (KEYBOARD_BUF_CHAR_MAX : Int) ∨ t1.kb_enter_flag ≠ 0)
    (hflag : t1.kb_enter_flag = t.kb_enter_flag ∨ t1.kb_enter_flag ≠ 0) :
    kb_index_ok past t1 := by
  obtain ⟨hp, h0, hb⟩ := h
  unfold kb_index_ok
  rw [hi, ho]
  unfold kb_store
  by_cases hr : 0 ≤ t.kb_buf_i ∧ t.kb_buf_i < (KEYBOARD_BUF_SIZE : Int)
  · rw [if_pos hr]
    refine ⟨hp, by omega, ?_⟩
    intro hoob
    obtain ⟨hb1, hb2⟩ := hb hoob
    simp only [KEYBOARD_BUF_SIZE, KEYBOARD_BUF_CHAR_MAX] at hr hb1 hb2 hroom ⊢
    refine ⟨by omega, ?_⟩
    intro hf0
    rcases hflag with hfl | hfl
    · have := hb2 (by rw [← hfl]; exact hf0)
      rcases hroom with hro | hro
      · omega
      · exact absurd hf0 hro
    · exact absurd hf0 hfl
  · rw [if_neg hr]
    refine ⟨fun _ => by simp, by omega, ?_⟩
    intro hoob
    exact absurd hoob (by simp)

/-- The tab loop keeps the condition on the index of every terminal. -/
theorem keyboard_tab_loop_ok {past : Prop} (v : Nat) (pa : Bool) (i : Nat) :
    ∀ (count : Nat) (s : kernel_state), kb_index_ok past (s.terminals i) →
      kb_index_ok past ((keyboard_tab_loop v pa count s).terminals i) := by
  intro count
  induction count with
  | zero => intro s h; exact h
  | succ k ih =>
    intro s h
    unfold keyboard_tab_loop
    simp only
    split
    · next hc =>
      apply ih
      have hterm : ∀ s1 : kernel_state, (if pa = true then putc s1 32 1 else s1).terminals
          = s1.terminals := by
        intro s1
        split <;> rfl
      rw [hterm]
      simp only [set_terminal]
      split
      · next heq =>
        rw [heq] at h
        exact kb_store_advance_ok (s.terminals v) _ 32 rfl rfl h
          (Or.inl (by omega)) (Or.inl (kb_store_fields _ _ _).2)
      · exact h
    · exact h

/-- The echo loop of Ctrl+L leaves the terminal records alone. -/
theorem keyboard_echo_loop_terminals (kb_buf : List Nat) :
    ∀ (count temp_i : Nat) (s : kernel_state),
      (keyboard_echo_loop kb_buf count temp_i s).terminals = s.terminals := by
  intro count
  induction count with
  | zero => intro temp_i s; rfl
  | succ k ih =>
    intro temp_i s
    unfold keyboard_echo_loop
    rw [ih]
    rfl

/-- The modifier flags are no part of the terminal records. -/
theorem keyboard_set_flags_terminals (s : kernel_state) (sc : Nat) :
    (keyboard_set_flags s sc).terminals = s.terminals := by
  unfold keyboard_set_flags
  split_ifs <;> rfl

/-- The video pages are no part of the terminal records. -/
theorem change_terminal_video_page_terminals (s : kernel_state) (a b : Int) :
    (change_terminal_video_page s a b).terminals = s.terminals
    ∧ (change_terminal_video_page s a b).visible_terminal = s.visible_terminal := by
  unfold change_terminal_video_page
  split <;> exact ⟨rfl, rfl⟩

/-- A switch of the visible terminal keeps the condition on the index of
every terminal: it only saves the cursor. -/
theorem switch_visible_terminal_ok {past : Prop} (s : kernel_state) (k i : Nat)
    (h : kb_index_ok past (s.terminals i)) :
    kb_index_ok past ((switch_visible_terminal s k).terminals i) := by
  unfold switch_visible_terminal
  split
  · exact h
  · obtain ⟨ht, hv⟩ := change_terminal_video_page_terminals s (s.visible_terminal : Int) (k : Int)
    simp only [update_cursor, set_terminal, hv, ht]
    split
    · next heq =>
      rw [heq] at h
      exact kb_index_ok_congr _ _ rfl rfl rfl h
    · exact h

/-- Storing a record at the visible terminal keeps the condition on every
terminal when the new record satisfies it. -/
theorem set_terminal_ok {past : Prop} (s : kernel_state) (v i : Nat) (t1 : terminal_t)
    (h : kb_index_ok past (s.terminals i))
    (hv : kb_index_ok past (s.terminals v) → kb_index_ok past t1) :
    kb_index_ok past ((set_terminal s v t1).terminals i) := by
  simp only [set_terminal]
  split
  · next heq =>
    rw [heq] at h
    exact hv h
  · exact h

/-- Backspace keeps the condition on the index. -/
theorem kb_backspace_ok {past : Prop} (t : terminal_t) (hpos : t.kb_buf_i > 0) (h : kb_index_ok past t) :
    kb_index_ok past { t with kb_buf_i := t.kb_buf_i - 1 } := by
  obtain ⟨hp, h0, hb⟩ := h
  refine ⟨hp, by show 0 ≤ t.kb_buf_i - 1; omega, ?_⟩
  intro hoob
  obtain ⟨hb1, hb2⟩ := hb hoob
  refine ⟨by show t.kb_buf_i - 1 ≤ _; omega, ?_⟩
  intro hf
  have := hb2 hf
  show t.kb_buf_i - 1 ≤ _
  omega

/-- One keyboard interrupt keeps the condition on the index of every
terminal. -/
theorem keyboard_handler_ok {past : Prop} (s : kernel_state) (sc i : Nat)
    (h : kb_index_ok past (s.terminals i)) :
    kb_index_ok past ((keyboard_handler s sc).terminals i) := by
  have ht := keyboard_set_flags_terminals s sc
  unfold keyboard_handler
  generalize keyboard_set_flags s sc = s1 at ht ⊢
  have h1 : kb_index_ok past (s1.terminals i) := by rw [ht]; exact h
  dsimp only
  generalize ((s.terminals s.visible_terminal).in_terminal_read != 0) = pa
  generalize s.visible_terminal = v
  generalize scan_code_to_ascii.getD sc 0 = key
  by_cases c1 : sc ≥ 0x3E ∨ sc = 0x2A ∨ sc = 0x36 ∨ sc = 0x3A ∨ sc = 0x1D ∨ sc = 0x38
  · rw [if_pos c1]
    exact h1
  rw [if_neg c1]
  by_cases c2 : key = 8
  · rw [if_pos c2]
    by_cases c3 : (s1.terminals v).kb_buf_i > 0
    · rw [if_pos c3]
      cases pa
      · exact set_terminal_ok s1 v i _ h1 (fun hv => kb_backspace_ok _ c3 hv)
      · exact set_terminal_ok s1 v i _ h1 (fun hv => kb_backspace_ok _ c3 hv)
    · rw [if_neg c3]
      exact h1
  rw [if_neg c2]
  by_cases c4 : key = 10
  · rw [if_pos c4]
    cases pa
    · exact h1
    · exact set_terminal_ok s1 v i _ h1 (fun hv =>
        kb_store_advance_ok _ _ _ rfl rfl hv (Or.inr Nat.one_ne_zero) (Or.inr Nat.one_ne_zero))
  rw [if_neg c4]
  by_cases c5 : s1.ctrl_flag = true ∧ (key = 108 ∨ key = 76)
  · rw [if_pos c5]
    cases pa
    · exact h1
    · show kb_index_ok past ((keyboard_echo_loop _ _ _ _).terminals i)
      rw [keyboard_echo_loop_terminals]
      exact h1
  rw [if_neg c5]
  by_cases c6 : s1.alt_flag = true ∧ sc = 0x3B
  · rw [if_pos c6]
    exact switch_visible_terminal_ok s1 _ i h1
  rw [if_neg c6]
  by_cases c7 : s1.alt_flag = true ∧ sc = 0x3C
  · rw [if_pos c7]
    exact switch_visible_terminal_ok s1 _ i h1
  rw [if_neg c7]
  by_cases c8 : s1.alt_flag = true ∧ sc = 0x3D
  · rw [if_pos c8]
    exact switch_visible_terminal_ok s1 _ i h1
  rw [if_neg c8]
  by_cases c9 : key = 0
  · rw [if_pos c9]
    exact h1
  rw [if_neg c9]
  by_cases c10 : (s1.terminals v).kb_buf_i = (KEYBOARD_BUF_CHAR_MAX : Int)
      ∨ (s1.terminals v).kb_buf_i = s1.terminal_buf_n_bytes - 1
  · rw [if_pos c10]
    exact h1
  rw [if_neg c10]
  by_cases c11 : key = 9
  · rw [if_pos c11]
    exact keyboard_tab_loop_ok _ _ i 8 s1 h1
  rw [if_neg c11]
  have hroom : (s1.terminals v).kb_buf_i ≠ (KEYBOARD_BUF_CHAR_MAX : Int) :=
    fun hh => c10 (Or.inl hh)
  cases pa
  · exact set_terminal_ok s1 v i _ h1 (fun hv =>
      kb_store_advance_ok _ _ _ rfl rfl hv (Or.inl hroom) (Or.inl (kb_store_fields _ _ _).2))
  · exact set_terminal_ok s1 v i _ h1 (fun hv =>
      kb_store_advance_ok _ _ _ rfl rfl hv (Or.inl hroom) (Or.inl (kb_store_fields _ _ _).2))

/-- A run of keyboard interrupts keeps the condition on the index of every
terminal. -/
theorem keyboard_run_ok {past : Prop} (i : Nat) :
    ∀ (scs : List Nat) (s : kernel_state), kb_index_ok past (s.terminals i) →
      kb_index_ok past ((keyboard_run s scs).terminals i) := by
  intro scs
  induction scs with
  | nil => intro s h; exact h
  | cons sc rest ih =>
    intro s h
    exact ih (keyboard_handler s sc) (keyboard_handler_ok s sc i h)

/-- The wait loop of `terminal_read` keeps the condition on the index of every
terminal. -/
theorem terminal_read_wait_ok {past : Prop} (s : kernel_state) (scs : List Nat) (n : Int) (i : Nat)
    (h : kb_index_ok past (s.terminals i)) :
    kb_index_ok past ((terminal_read_wait s scs n).terminals i) := by
  unfold terminal_read_wait
  apply keyboard_run_ok
  exact set_terminal_ok _ _ i _ h (fun hv => kb_index_ok_congr _ _ rfl rfl rfl hv)

/-- Recording a load keeps what was recorded. -/
theorem kb_note_load_oob (t : terminal_t) (i : Int) (h : t.kb_oob ≠ []) :
    (kb_note_load t i).kb_oob ≠ [] := by
  unfold kb_note_load
  split
  · exact h
  · simp

/-- A store keeps what was recorded. -/
theorem kb_store_oob (t : terminal_t) (i : Int) (c : Nat) (h : t.kb_oob ≠ []) :
    (kb_store t i c).kb_oob ≠ [] := by
  unfold kb_store
  split
  · exact h
  · simp

/-- The state `terminal_read` leaves: the record of the scheduled terminal,
after the test and the strip of lines 117-122, is stored and then cleared;
the record of out-of-range accesses it carries only grew. -/
theorem terminal_read_finish_record (s : kernel_state) (b : Nat → Nat) (n : Int) :
    ∃ t2 : terminal_t,
      ((s.terminals s.scheduled_terminal).kb_oob ≠ [] → t2.kb_oob ≠ [])
      ∧ (terminal_read_finish s b n).state
          = clear_keyboard_vars
              { set_terminal
                  (set_terminal s s.scheduled_terminal
                    { s.terminals s.scheduled_terminal with in_terminal_read := 0 })
                  s.scheduled_terminal t2 with
                terminal_buf_n_bytes := (KEYBOARD_BUF_SIZE : Int) }
              (s.scheduled_terminal : Int) := by
  refine ⟨_, ?_, rfl⟩
  intro h
  have h1 : ((set_terminal s s.scheduled_terminal
      { s.terminals s.scheduled_terminal with in_terminal_read := 0 }).terminals
        s.scheduled_terminal).kb_oob ≠ [] := by
    simp only [set_terminal, if_true]
    exact h
  split
  · exact kb_store_oob _ _ _ (kb_note_load_oob _ _ h1)
  · exact kb_note_load_oob _ _ h1

/-- When `terminal_read` returns, the line buffer of the scheduled terminal is
cleared and the other terminals are as the wait loop left them. -/
theorem terminal_read_finish_ok {past : Prop} (s : kernel_state) (b : Nat → Nat) (n : Int)
    (i : Nat) (hi : i < MAX_TERMINALS) (h : kb_index_ok past (s.terminals i)) :
    kb_index_ok past ((terminal_read_finish s b n).state.terminals i) := by
  obtain ⟨t2, ht2, hstate⟩ := terminal_read_finish_record s b n
  rw [hstate]
  unfold clear_keyboard_vars
  by_cases hs : ((s.scheduled_terminal : Nat) : Int) < 0
      ∨ ((s.scheduled_terminal : Nat) : Int) ≥ (MAX_TERMINALS : Int)
  · have hne : i ≠ s.scheduled_terminal := by
      unfold MAX_TERMINALS at hs hi
      omega
    rw [if_pos hs]
    simp only [set_terminal, if_neg hne]
    exact h
  · rw [if_neg hs]
    simp only [set_terminal, Int.toNat_ofNat]
    by_cases hisch : i = s.scheduled_terminal
    · simp only [if_pos hisch, if_true]
      rw [hisch] at h
      refine ⟨fun hpast => ht2 (h.1 hpast), Int.le_refl 0, fun _ => ⟨?_, fun _ => ?_⟩⟩
      · show (0 : Int) ≤ ((128 : Nat) : Int)
        decide
      · show (0 : Int) ≤ ((127 : Nat) : Int)
        decide
    · simp only [if_neg hisch]
      exact h

/-- Every step of a run keeps the condition on the index of the three
terminals. -/
theorem run_kb_call_ok {past : Prop} (s : kernel_state) (c : kb_call) (i : Nat) (hi : i < MAX_TERMINALS)
    (h : kb_index_ok past (s.terminals i)) : kb_index_ok past ((run_kb_call s c).terminals i) := by
  cases c with
  | key sc => exact keyboard_handler_ok s sc i h
  | read buf n scs =>
    simp only [run_kb_call]
    cases hr : terminal_read s scs buf n with
    | none => exact terminal_read_wait_ok s scs n i h
    | some r =>
      simp only
      cases buf with
      | none =>
        simp only [terminal_read] at hr
        rw [← Option.some.inj hr]
        exact h
      | some b =>
        unfold terminal_read at hr
        simp only at hr
        split at hr
        · rw [← Option.some.inj hr]
          exact h
        · split at hr
          · exact absurd hr (by simp)
          · rw [← Option.some.inj hr]
            exact terminal_read_finish_ok _ b n i hi (terminal_read_wait_ok s scs n i h)

/-- Every run keeps the condition on the index of the three terminals. -/
theorem run_kb_calls_ok {past : Prop} (i : Nat) (hi : i < MAX_TERMINALS) :
    ∀ (calls : List kb_call) (s : kernel_state), kb_index_ok past (s.terminals i) →
      kb_index_ok past ((run_kb_calls s calls).terminals i) := by
  intro calls
  induction calls with
  | nil => intro s h; exact h
  | cons c rest ih =>
    intro s h
    exact ih (run_kb_call s c) (run_kb_call_ok s c i hi h)

set_option maxRecDepth 1000000 in
/-- C21 (counterexample): after `init_terminal` a `terminal_read` of 128
bytes is pending on terminal 0; the key `a` is pressed 127 times and then
Enter.  The newline is stored at index 127, inside the buffer, and `kb_buf_i`
is 128, above 127; the read then returns 128. -/
theorem kb_buf_i_reaches_128 :
    ((run_kb_calls (init_terminal (zero_state fs_demo))
        [kb_call.read (some (fun _ => 0)) 128 (List.replicate 127 0x1E),
          kb_call.key 0x1C]).terminals 0).kb_buf_i = 128
    ∧ ¬ (((run_kb_calls (init_terminal (zero_state fs_demo))
        [kb_call.read (some (fun _ => 0)) 128 (List.replicate 127 0x1E),
          kb_call.key 0x1C]).terminals 0).kb_buf_i ≤ 127)
    ∧ ((run_kb_calls (init_terminal (zero_state fs_demo))
        [kb_call.read (some (fun _ => 0)) 128 (List.replicate 127 0x1E),
          kb_call.key 0x1C]).terminals 0).kb_oob = []
    ∧ (terminal_read (init_terminal (zero_state fs_demo)) (List.replicate 127 0x1E ++ [0x1C])
        (some (fun _ => 0)) 128).map (fun r => r.ret) = some 128 := by
  refine ⟨by decide, by decide, by decide, by decide⟩

/-- C21 (amended): take a run of keyboard interrupts and `terminal_read` calls
from `init_terminal` in which no access to a line buffer is out of range (the
record `kb_oob` of the three terminals is empty at the end of the run).  Then
at the end of the run, and at every state the run went through, none had been
out of range either and the line-buffer index of each terminal satisfies
`0 ≤ kb_buf_i ≤ 128`, with `kb_buf_i ≤ 127` while no Enter is pending
(`kb_enter_flag` clear). -/
theorem kb_buf_i_invariant (s0 : kernel_state) (calls : List kb_call)
    (hoob : ∀ j, j < MAX_TERMINALS →
      ((run_kb_calls (init_terminal s0) calls).terminals j).kb_oob = [])
    (i : Nat) (hi : i < MAX_TERMINALS) :
    (0 ≤ ((run_kb_calls (init_terminal s0) calls).terminals i).kb_buf_i
      ∧ ((run_kb_calls (init_terminal s0) calls).terminals i).kb_buf_i ≤ 128
      ∧ (((run_kb_calls (init_terminal s0) calls).terminals i).kb_enter_flag = 0 →
          ((run_kb_calls (init_terminal s0) calls).terminals i).kb_buf_i ≤ 127))
    ∧ ∀ k : Nat,
        ((run_kb_calls (init_terminal s0) (calls.take k)).terminals i).kb_oob = []
        ∧ 0 ≤ ((run_kb_calls (init_terminal s0) (calls.take k)).terminals i).kb_buf_i
        ∧ ((run_kb_calls (init_terminal s0) (calls.take k)).terminals i).kb_buf_i ≤ 128
        ∧ (((run_kb_calls (init_terminal s0) (calls.take k)).terminals i).kb_enter_flag = 0 →
            ((run_kb_calls (init_terminal s0) (calls.take k)).terminals i).kb_buf_i ≤ 127) := by
  have hinit : kb_index_ok False ((init_terminal s0).terminals i) := by
    simp only [init_terminal, if_pos hi]
    refine ⟨fun hf => hf.elim, Int.le_refl 0, fun _ => ⟨?_, fun _ => ?_⟩⟩
    · show (0 : Int) ≤ ((128 : Nat) : Int)
      decide
    · show (0 : Int) ≤ ((127 : Nat) : Int)
      decide
  have hprefix : ∀ k : Nat,
      ((run_kb_calls (init_terminal s0) (calls.take k)).terminals i).kb_oob = []
      ∧ 0 ≤ ((run_kb_calls (init_terminal s0) (calls.take k)).terminals i).kb_buf_i
      ∧ ((run_kb_calls (init_terminal s0) (calls.take k)).terminals i).kb_buf_i ≤ 128
      ∧ (((run_kb_calls (init_terminal s0) (calls.take k)).terminals i).kb_enter_flag = 0 →
          ((run_kb_calls (init_terminal s0) (calls.take k)).terminals i).kb_buf_i ≤ 127) := by
    intro k
    obtain ⟨_, b0, b1⟩ := run_kb_calls_ok i hi (calls.take k) (init_terminal s0) hinit
    have hsplit : run_kb_calls (init_terminal s0) calls
        = run_kb_calls (run_kb_calls (init_terminal s0) (calls.take k)) (calls.drop k) := by
      unfold run_kb_calls
      rw [← List.foldl_append, List.take_append_drop]
    have hrest := run_kb_calls_ok i hi (calls.drop k)
      (run_kb_calls (init_terminal s0) (calls.take k))
      (⟨id, b0, b1⟩ : kb_index_ok
        (((run_kb_calls (init_terminal s0) (calls.take k)).terminals i).kb_oob ≠ [])
        ((run_kb_calls (init_terminal s0) (calls.take k)).terminals i))
    rw [← hsplit] at hrest
    have hempty : ((run_kb_calls (init_terminal s0) (calls.take k)).terminals i).kb_oob = [] := by
      by_contra hne
      exact hrest.1 hne (hoob i hi)
    obtain ⟨c1, c2⟩ := b1 hempty
    exact ⟨hempty, b0, c1, c2⟩
  refine ⟨?_, hprefix⟩
  have hlast := hprefix calls.length
  rw [List.take_length] at hlast
  exact hlast.2

/-- Instance of C21 (amended): the key `a` typed before a read of 5 bytes,
then `a` and Backspace while the read waits; no access is out of range, and
the index of terminal 0 is 1 after the first step and at the end. -/
theorem kb_buf_i_invariant_witness :
    (0 ≤ ((run_kb_calls (init_terminal (zero_state fs_demo))
        [kb_call.key 0x1E, kb_call.read (some (fun _ => 0)) 5 [0x1E, 0x0E]]).terminals 0).kb_buf_i
      ∧ ((run_kb_calls (init_terminal (zero_state fs_demo))
        [kb_call.key 0x1E, kb_call.read (some (fun _ => 0)) 5 [0x1E, 0x0E]]).terminals 0).kb_buf_i
          ≤ 128)
    ∧ ((run_kb_calls (init_terminal (zero_state fs_demo))
        [kb_call.key 0x1E, kb_call.read (some (fun _ => 0)) 5 [0x1E, 0x0E]]).terminals 0).kb_buf_i
      = 1 :=
  have h := kb_buf_i_invariant (zero_state fs_demo)
    [kb_call.key 0x1E, kb_call.read (some (fun _ => 0)) 5 [0x1E, 0x0E]]
    (by decide) 0 (by decide)
  ⟨⟨h.1.1, h.1.2.1⟩, by decide⟩

end Kernel
